import Mathlib

set_option maxHeartbeats 1600000

/-!
Verification development for the chess engine in this repository.

Shallow embedding conventions:
* u64 bitboards are `Nat` values below 2 ^ 64 (all operations used here,
  namely and / or / xor / shiftLeft by a square index, agree with the u64
  operations on such values; the u64 complement `!x` is embedded as
  `(2 ^ 64 - 1) ^^^ x`).
* u16 move words are `Nat` values below 2 ^ 16; squares are `Nat` below 64.
* The Rust loop `while bb != 0 { sq = bb.trailing_zeros(); ...; bb &= bb - 1 }`
  visits the set bits of `bb` in increasing order; it is embedded as a walk
  over `bits bb`, the increasing list of set-bit indices below 64.
* The magic-table slider lookups (`get_bishop_attacks`, `get_rook_attacks`)
  are embedded directly as the `bishop_attacks_slow` / `rook_attacks_slow`
  functions the tables are built from in `movegen.rs`.
* The Zobrist key material lives in a `polygot_keys` module that is not part
  of the sources; the keys are abstracted as a parameter `K : ZKeys`.
* The NNUE accumulator (a cache of network activations, irrelevant to every
  claim here) and the thread/IO plumbing are not modelled.
-/

inductive Color where
  | White
  | Black
deriving DecidableEq, Repr

def Color.opp : Color → Color
  | Color.White => Color.Black
  | Color.Black => Color.White

inductive PieceType where
  | Pawn
  | Knight
  | Bishop
  | Rook
  | Queen
  | King
deriving DecidableEq, Repr

instance : Fintype Color :=
  ⟨{Color.White, Color.Black}, fun x => by cases x <;> simp⟩

instance : Fintype PieceType :=
  ⟨{PieceType.Pawn, PieceType.Knight, PieceType.Bishop, PieceType.Rook,
    PieceType.Queen, PieceType.King}, fun x => by cases x <;> simp⟩

/-- The scan order `0..6` of piece-type indices used by the Rust loops. -/
def ptList : List PieceType :=
  [PieceType.Pawn, PieceType.Knight, PieceType.Bishop, PieceType.Rook,
   PieceType.Queen, PieceType.King]

/-- The scan order `0..2` of color indices used by the Rust loops. -/
def colorList : List Color := [Color.White, Color.Black]

/-! ### moves.rs : move encoding -/

def QUIET_MOVE_FLAG : Nat := 0
def DOUBLE_PAWN_PUSH_FLAG : Nat := 1
def KING_CASTLE_FLAG : Nat := 2
def QUEEN_CASTLE_FLAG : Nat := 3
def CAPTURE_FLAG : Nat := 4
def EN_PASSANT_CAPTURE_FLAG : Nat := 5
def KNIGHT_PROMOTION_FLAG : Nat := 8
def BISHOP_PROMOTION_FLAG : Nat := 9
def ROOK_PROMOTION_FLAG : Nat := 10
def QUEEN_PROMOTION_FLAG : Nat := 11
def KNIGHT_PROMOTION_CAPTURE_FLAG : Nat := 12
def BISHOP_PROMOTION_CAPTURE_FLAG : Nat := 13
def ROOK_PROMOTION_CAPTURE_FLAG : Nat := 14
def QUEEN_PROMOTION_CAPTURE_FLAG : Nat := 15

/-- moves.rs `new`: bits 0-5 from square, 6-11 to square, 12-15 flag. -/
def mvNew (f t fl : Nat) : Nat := f ||| (t <<< 6) ||| (fl <<< 12)

/-- moves.rs `from_sq`. -/
def fromSq (m : Nat) : Nat := m &&& 0x3F

/-- moves.rs `to_sq`. -/
def toSq (m : Nat) : Nat := (m >>> 6) &&& 0x3F

/-- moves.rs `flag`. -/
def flagOf (m : Nat) : Nat := (m >>> 12) &&& 0xF

/-- moves.rs `is_capture`. -/
def isCapture (m : Nat) : Bool := flagOf m &&& 4 != 0

/-- moves.rs `is_promotion`. -/
def isPromotion (m : Nat) : Bool := flagOf m &&& 8 != 0

/-- moves.rs `promotion_piece`. -/
def promotionPiece (m : Nat) : PieceType :=
  match flagOf m &&& 3 with
  | 0 => PieceType.Knight
  | 1 => PieceType.Bishop
  | 2 => PieceType.Rook
  | _ => PieceType.Queen

/-! ### board.rs : data model -/

structure UndoInfo where
  oldCastlingRights : Nat
  oldEnPassant : Option Nat
  oldHalfmoveClock : Nat
  capturedPieceType : Option PieceType
  oldZobristHash : Nat
deriving DecidableEq, Repr

/-- board.rs `Board` (the NNUE accumulator field is not modelled).
`occ c` is `occupancy[c as usize]`; `occAll` is `occupancy[2]`. -/
structure Board where
  pieces : PieceType → Color → Nat
  occ : Color → Nat
  occAll : Nat
  sideToMove : Color
  castlingRights : Nat
  enPassant : Option Nat
  halfmoveClock : Nat
  fullmoveNumber : Nat
  zobristHash : Nat
  history : List UndoInfo

/-- zobrist.rs `ZobristKeys`, abstract (the raw polyglot constants are in a
module outside the sources). -/
structure ZKeys where
  pieceK : PieceType → Color → Nat → Nat
  castleK : Nat → Nat
  epFileK : Nat → Nat
  sideK : Nat

/-- Increasing list of set-bit indices below 64: the visit order of the
Rust bitboard loop. -/
def bits (bb : Nat) : List Nat := (List.range 64).filter (fun s => bb.testBit s)

/-- `trailing_zeros` of a u64 (64 when the board is empty). -/
def lsb (bb : Nat) : Nat := (bits bb).headD 64

/-- The u64 complement `!x`. -/
def u64not (x : Nat) : Nat := (2 ^ 64 - 1) ^^^ x

def updPieces (p : PieceType → Color → Nat) (pt : PieceType) (c : Color)
    (v : Nat) : PieceType → Color → Nat :=
  fun pt2 c2 => if pt2 = pt ∧ c2 = c then v else p pt2 c2

def updOcc (o : Color → Nat) (c : Color) (v : Nat) : Color → Nat :=
  fun c2 => if c2 = c then v else o c2

/-- board.rs `move_piece`. -/
def movePiece (b : Board) (pt : PieceType) (c : Color) (f t : Nat) : Board :=
  let fromToBB := (1 <<< f) ||| (1 <<< t)
  { b with
    pieces := updPieces b.pieces pt c (b.pieces pt c ^^^ fromToBB)
    occ := updOcc b.occ c (b.occ c ^^^ fromToBB)
    occAll := b.occAll ^^^ fromToBB }

/-- board.rs `add_piece`. -/
def addPieceB (b : Board) (pt : PieceType) (c : Color) (sq : Nat) : Board :=
  let bit := 1 <<< sq
  { b with
    pieces := updPieces b.pieces pt c (b.pieces pt c ||| bit)
    occ := updOcc b.occ c (b.occ c ||| bit)
    occAll := b.occAll ||| bit }

/-- board.rs `remove_piece` (`&= !bit` on u64). -/
def removePieceB (b : Board) (pt : PieceType) (c : Color) (sq : Nat) : Board :=
  let nbit := u64not (1 <<< sq)
  { b with
    pieces := updPieces b.pieces pt c (b.pieces pt c &&& nbit)
    occ := updOcc b.occ c (b.occ c &&& nbit)
    occAll := b.occAll &&& nbit }

/-- board.rs `piece_type_on`: first piece type (in index order) whose
white-or-black board holds the square. -/
def pieceTypeOn (b : Board) (sq : Nat) : Option PieceType :=
  ptList.find? (fun pt =>
    (b.pieces pt Color.White ||| b.pieces pt Color.Black).testBit sq)

/-! ### movegen.rs : attack tables (the `precompute_*` formulas) -/

/-- movegen.rs `precompute_pawn_attacks` entry for one square. -/
def pawnAttacks (c : Color) (sq : Nat) : Nat :=
  match c with
  | Color.White =>
    if sq / 8 < 7 then
      (if sq % 8 > 0 then 1 <<< (sq + 7) else 0) |||
      (if sq % 8 < 7 then 1 <<< (sq + 9) else 0)
    else 0
  | Color.Black =>
    if sq / 8 > 0 then
      (if sq % 8 > 0 then 1 <<< (sq - 9) else 0) |||
      (if sq % 8 < 7 then 1 <<< (sq - 7) else 0)
    else 0

/-- movegen.rs `precompute_knight_attacks` entry for one square. -/
def knightAttacks (sq : Nat) : Nat :=
  let rank := sq / 8
  let file := sq % 8
  (if rank < 6 ∧ file < 7 then 1 <<< (sq + 17) else 0) |||
  (if rank < 6 ∧ file > 0 then 1 <<< (sq + 15) else 0) |||
  (if rank < 7 ∧ file < 6 then 1 <<< (sq + 10) else 0) |||
  (if rank < 7 ∧ file > 1 then 1 <<< (sq + 6) else 0) |||
  (if rank > 1 ∧ file < 7 then 1 <<< (sq - 15) else 0) |||
  (if rank > 1 ∧ file > 0 then 1 <<< (sq - 17) else 0) |||
  (if rank > 0 ∧ file < 6 then 1 <<< (sq - 6) else 0) |||
  (if rank > 0 ∧ file > 1 then 1 <<< (sq - 10) else 0)

/-- movegen.rs `precompute_king_attacks` entry for one square. -/
def kingAttacks (sq : Nat) : Nat :=
  let rank := sq / 8
  let file := sq % 8
  (if rank < 7 then 1 <<< (sq + 8) else 0) |||
  (if rank > 0 then 1 <<< (sq - 8) else 0) |||
  (if file < 7 then 1 <<< (sq + 1) else 0) |||
  (if file > 0 then 1 <<< (sq - 1) else 0) |||
  (if rank < 7 ∧ file < 7 then 1 <<< (sq + 9) else 0) |||
  (if rank < 7 ∧ file > 0 then 1 <<< (sq + 7) else 0) |||
  (if rank > 0 ∧ file < 7 then 1 <<< (sq - 7) else 0) |||
  (if rank > 0 ∧ file > 0 then 1 <<< (sq - 9) else 0)

/-- One ray of movegen.rs `bishop_attacks_slow` / `rook_attacks_slow`:
walk from (r,f) in direction (dr,df), include each square, stop after the
first occupied one.  Seven steps always suffice on an 8x8 board. -/
def rayAttacks (occ2 : Nat) (r f dr df : Int) : Nat → Nat
  | 0 => 0
  | fuel + 1 =>
    let nr := r + dr
    let nf := f + df
    if 0 ≤ nr ∧ nr < 8 ∧ 0 ≤ nf ∧ nf < 8 then
      let bit := 1 <<< (nr * 8 + nf).toNat
      if occ2 &&& bit ≠ 0 then bit
      else bit ||| rayAttacks occ2 nr nf dr df fuel
    else 0

/-- movegen.rs `bishop_attacks_slow` (also the value of the magic-table
lookup `get_bishop_attacks`). -/
def bishopAttacksSlow (sq : Nat) (occ2 : Nat) : Nat :=
  let r : Int := (sq : Int) / 8
  let f : Int := (sq : Int) % 8
  rayAttacks occ2 r f (-1) (-1) 7 ||| rayAttacks occ2 r f (-1) 1 7 |||
  rayAttacks occ2 r f 1 (-1) 7 ||| rayAttacks occ2 r f 1 1 7

/-- movegen.rs `rook_attacks_slow` (also the value of the magic-table
lookup `get_rook_attacks`). -/
def rookAttacksSlow (sq : Nat) (occ2 : Nat) : Nat :=
  let r : Int := (sq : Int) / 8
  let f : Int := (sq : Int) % 8
  rayAttacks occ2 r f 1 0 7 ||| rayAttacks occ2 r f (-1) 0 7 |||
  rayAttacks occ2 r f 0 1 7 ||| rayAttacks occ2 r f 0 (-1) 7

/-- movegen.rs `is_square_attacked`. -/
def isSquareAttacked (b : Board) (sq : Nat) (atk : Color) : Bool :=
  (pawnAttacks atk.opp sq &&& b.pieces PieceType.Pawn atk != 0) ||
  (knightAttacks sq &&& b.pieces PieceType.Knight atk != 0) ||
  (kingAttacks sq &&& b.pieces PieceType.King atk != 0) ||
  (bishopAttacksSlow sq b.occAll &&&
    (b.pieces PieceType.Bishop atk ||| b.pieces PieceType.Queen atk) != 0) ||
  (rookAttacksSlow sq b.occAll &&&
    (b.pieces PieceType.Rook atk ||| b.pieces PieceType.Queen atk) != 0)

/-! ### movegen.rs : pseudo-legal move generation -/

/-- movegen.rs `add_sliding_moves`. -/
def addSlidingMoves (f attacks theirPieces : Nat) : List Nat :=
  ((bits (attacks &&& theirPieces)).map (fun t => mvNew f t CAPTURE_FLAG)) ++
  ((bits (attacks &&& u64not theirPieces)).map
    (fun t => mvNew f t QUIET_MOVE_FLAG))

/-- movegen.rs `generate_sliding_moves`. -/
def generateSlidingMoves (b : Board) : List Nat :=
  let us := b.sideToMove
  let ourPieces := b.occ us
  let theirPieces := b.occ us.opp
  let allPieces := ourPieces ||| theirPieces
  ((bits (b.pieces PieceType.Bishop us ||| b.pieces PieceType.Queen us)).flatMap
    (fun f =>
      addSlidingMoves f (bishopAttacksSlow f allPieces &&& u64not ourPieces)
        theirPieces)) ++
  ((bits (b.pieces PieceType.Rook us ||| b.pieces PieceType.Queen us)).flatMap
    (fun f =>
      addSlidingMoves f (rookAttacksSlow f allPieces &&& u64not ourPieces)
        theirPieces))

/-- movegen.rs `generate_knight_moves`. -/
def generateKnightMoves (b : Board) : List Nat :=
  let us := b.sideToMove
  let ourPieces := b.occ us
  let theirPieces := b.occ us.opp
  (bits (b.pieces PieceType.Knight us)).flatMap (fun f =>
    let attacks := knightAttacks f
    ((bits (attacks &&& u64not ourPieces &&& u64not theirPieces)).map
      (fun t => mvNew f t QUIET_MOVE_FLAG)) ++
    ((bits (attacks &&& theirPieces)).map (fun t => mvNew f t CAPTURE_FLAG)))

/-- movegen.rs `generate_king_moves` (normal moves, then the early return
when the king stands in check, then the four castling pushes). -/
def generateKingMoves (b : Board) : List Nat :=
  let us := b.sideToMove
  let them := us.opp
  let ourPieces := b.occ us
  let allPieces := b.occAll
  let kingSq := lsb (b.pieces PieceType.King us)
  let normal := (bits (kingAttacks kingSq &&& u64not ourPieces)).map (fun t =>
    mvNew kingSq t
      (if (1 <<< t) &&& b.occ them ≠ 0 then CAPTURE_FLAG else QUIET_MOVE_FLAG))
  if isSquareAttacked b kingSq them then normal
  else
    normal ++
    (match us with
     | Color.White =>
       (if b.castlingRights &&& 1 ≠ 0 ∧ allPieces &&& 0x60 = 0 ∧
           ¬ isSquareAttacked b 5 them ∧ ¬ isSquareAttacked b 6 them then
         [mvNew 4 6 KING_CASTLE_FLAG] else []) ++
       (if b.castlingRights &&& 2 ≠ 0 ∧ allPieces &&& 0xE = 0 ∧
           ¬ isSquareAttacked b 3 them ∧ ¬ isSquareAttacked b 2 them then
         [mvNew 4 2 QUEEN_CASTLE_FLAG] else [])
     | Color.Black =>
       (if b.castlingRights &&& 4 ≠ 0 ∧ allPieces &&& 0x6000000000000000 = 0 ∧
           ¬ isSquareAttacked b 61 them ∧ ¬ isSquareAttacked b 62 them then
         [mvNew 60 62 KING_CASTLE_FLAG] else []) ++
       (if b.castlingRights &&& 8 ≠ 0 ∧ allPieces &&& 0xE00000000000000 = 0 ∧
           ¬ isSquareAttacked b 59 them ∧ ¬ isSquareAttacked b 58 them then
         [mvNew 60 58 QUEEN_CASTLE_FLAG] else []))

/-- The per-color pawn push direction `up` of movegen.rs
`generate_pawn_moves`. -/
def pawnUp (c : Color) : Int := if c = Color.White then 8 else -8

/-- The per-color double-push source rank mask `rank_3`. -/
def rank3Of (c : Color) : Nat :=
  if c = Color.White then 0xFF00 else 0xFF000000000000

/-- The per-color promotion source rank mask `rank_7`. -/
def rank7Of (c : Color) : Nat :=
  if c = Color.White then 0xFF000000000000 else 0xFF00

/-- The push block (single push, promotions and the nested double push)
of the per-pawn loop of movegen.rs `generate_pawn_moves`. -/
def pawnPushMoves (b : Board) (f : Nat) : List Nat :=
  let us := b.sideToMove
  let allPieces := b.occAll
  let up : Int := pawnUp us
  let fromBB := 1 <<< f
  let toI : Int := (f : Int) + up
  if 0 ≤ toI ∧ toI < 64 then
    let t := toI.toNat
    if (1 <<< t) &&& allPieces = 0 then
      (if fromBB &&& rank7Of us ≠ 0 then
        [mvNew f t QUEEN_PROMOTION_FLAG, mvNew f t ROOK_PROMOTION_FLAG,
         mvNew f t BISHOP_PROMOTION_FLAG, mvNew f t KNIGHT_PROMOTION_FLAG]
      else [mvNew f t QUIET_MOVE_FLAG]) ++
      (if fromBB &&& rank3Of us ≠ 0 then
        let t2I : Int := (f : Int) + 2 * up
        if 0 ≤ t2I ∧ t2I < 64 then
          let t2 := t2I.toNat
          if (1 <<< t2) &&& allPieces = 0 then
            [mvNew f t2 DOUBLE_PAWN_PUSH_FLAG]
          else []
        else []
      else [])
    else []
  else []

/-- The capture block of the per-pawn loop (shared verbatim between
`generate_pawn_moves` and `generate_pawn_captures`). -/
def pawnCapMoves (b : Board) (f : Nat) : List Nat :=
  let us := b.sideToMove
  let fromBB := 1 <<< f
  (bits (pawnAttacks us f &&& b.occ us.opp)).flatMap (fun t =>
    if fromBB &&& rank7Of us ≠ 0 then
      [mvNew f t QUEEN_PROMOTION_CAPTURE_FLAG,
       mvNew f t ROOK_PROMOTION_CAPTURE_FLAG,
       mvNew f t BISHOP_PROMOTION_CAPTURE_FLAG,
       mvNew f t KNIGHT_PROMOTION_CAPTURE_FLAG]
    else [mvNew f t CAPTURE_FLAG])

/-- The en-passant block of the per-pawn loop (also shared verbatim). -/
def pawnEpMoves (b : Board) (f : Nat) : List Nat :=
  match b.enPassant with
  | some ep =>
    if pawnAttacks b.sideToMove f &&& (1 <<< ep) ≠ 0 then
      [mvNew f ep EN_PASSANT_CAPTURE_FLAG]
    else []
  | none => []

/-- movegen.rs `generate_pawn_moves`, body of the per-pawn loop. -/
def pawnMovesFrom (b : Board) (f : Nat) : List Nat :=
  pawnPushMoves b f ++ pawnCapMoves b f ++ pawnEpMoves b f

/-- movegen.rs `generate_pawn_moves`. -/
def generatePawnMoves (b : Board) : List Nat :=
  (bits (b.pieces PieceType.Pawn b.sideToMove)).flatMap (pawnMovesFrom b)

/-- movegen.rs `generate_pseudo_legal_moves`. -/
def generatePseudoLegalMoves (b : Board) : List Nat :=
  generatePawnMoves b ++ generateKnightMoves b ++ generateKingMoves b ++
  generateSlidingMoves b

/-! ### movegen.rs : capture-only generation -/

/-- movegen.rs `generate_pawn_captures`, body of the per-pawn loop:
the capture and en-passant blocks of `generate_pawn_moves`. -/
def pawnCapturesFrom (b : Board) (f : Nat) : List Nat :=
  pawnCapMoves b f ++ pawnEpMoves b f

/-- movegen.rs `generate_pawn_captures`. -/
def generatePawnCaptures (b : Board) : List Nat :=
  (bits (b.pieces PieceType.Pawn b.sideToMove)).flatMap (pawnCapturesFrom b)

/-- movegen.rs `generate_knight_captures`. -/
def generateKnightCaptures (b : Board) : List Nat :=
  let us := b.sideToMove
  let theirPieces := b.occ us.opp
  (bits (b.pieces PieceType.Knight us)).flatMap (fun f =>
    (bits (knightAttacks f &&& theirPieces)).map
      (fun t => mvNew f t CAPTURE_FLAG))

/-- movegen.rs `generate_king_captures`. -/
def generateKingCaptures (b : Board) : List Nat :=
  let us := b.sideToMove
  let theirPieces := b.occ us.opp
  let kingSq := lsb (b.pieces PieceType.King us)
  (bits (kingAttacks kingSq &&& theirPieces)).map
    (fun t => mvNew kingSq t CAPTURE_FLAG)

/-- movegen.rs `add_sliding_captures`. -/
def addSlidingCaptures (f captures : Nat) : List Nat :=
  (bits captures).map (fun t => mvNew f t CAPTURE_FLAG)

/-- movegen.rs `generate_sliding_captures`. -/
def generateSlidingCaptures (b : Board) : List Nat :=
  let us := b.sideToMove
  let ourPieces := b.occ us
  let theirPieces := b.occ us.opp
  let allPieces := ourPieces ||| theirPieces
  ((bits (b.pieces PieceType.Bishop us ||| b.pieces PieceType.Queen us)).flatMap
    (fun f =>
      addSlidingCaptures f (bishopAttacksSlow f allPieces &&& theirPieces))) ++
  ((bits (b.pieces PieceType.Rook us ||| b.pieces PieceType.Queen us)).flatMap
    (fun f =>
      addSlidingCaptures f (rookAttacksSlow f allPieces &&& theirPieces)))

/-- movegen.rs `generate_captures`. -/
def generateCaptures (b : Board) : List Nat :=
  generatePawnCaptures b ++ generateKnightCaptures b ++
  generateKingCaptures b ++ generateSlidingCaptures b

/-! ### board.rs : zobrist recomputation, make and unmake -/

/-- board.rs static `CASTLE_MASK` (everything 0xFF except the six listed
squares). -/
def castleMask (sq : Nat) : Nat :=
  if sq = 0 then 253
  else if sq = 4 then 252
  else if sq = 7 then 254
  else if sq = 56 then 247
  else if sq = 60 then 243
  else if sq = 63 then 251
  else 255

/-- board.rs `calculate_zobrist_hash`. -/
def calculateZobristHash (K : ZKeys) (b : Board) : Nat :=
  let h0 := ptList.foldl (fun h pt =>
    colorList.foldl (fun h c =>
      (bits (b.pieces pt c)).foldl (fun h sq => h ^^^ K.pieceK pt c sq) h) h) 0
  let h1 := h0 ^^^ K.castleK b.castlingRights
  let h2 :=
    match b.enPassant with
    | some sq =>
      let us := b.sideToMove
      let ourPawns := b.pieces PieceType.Pawn us
      let them := us.opp
      if pawnAttacks them sq &&& ourPawns ≠ 0 then h1 ^^^ K.epFileK (sq % 8)
      else h1
    | none => h1
  if b.sideToMove = Color.White then h2 ^^^ K.sideK else h2

/-- board.rs `make_move`.  Follows the source statement by statement; the
two `unwrap`s of `piece_type_on` are given the (unreachable under the
well-formedness hypotheses used below) default `King`. -/
def makeMove (K : ZKeys) (b : Board) (m : Nat) : Board × UndoInfo :=
  let f := fromSq m
  let t := toSq m
  let fl := flagOf m
  let us := b.sideToMove
  let them := us.opp
  let movingPiece := (pieceTypeOn b f).getD PieceType.King
  let captured : Option PieceType :=
    if isCapture m then
      if fl = EN_PASSANT_CAPTURE_FLAG then some PieceType.Pawn
      else pieceTypeOn b t
    else none
  let undo : UndoInfo :=
    ⟨b.castlingRights, b.enPassant, b.halfmoveClock, captured, b.zobristHash⟩
  let b1 := { b with history := undo :: b.history }
  let hash0 := b.zobristHash ^^^ K.sideK
  let hash1 :=
    match b.enPassant with
    | some sq =>
      if pawnAttacks them sq &&& b.pieces PieceType.Pawn us ≠ 0 then
        hash0 ^^^ K.epFileK (sq % 8)
      else hash0
    | none => hash0
  let hash2 := hash1 ^^^ K.castleK b.castlingRights
  let step :=
    match captured with
    | some capPt =>
      if fl = EN_PASSANT_CAPTURE_FLAG then
        let capSq := if us = Color.White then t - 8 else t + 8
        (removePieceB b1 PieceType.Pawn them capSq,
         hash2 ^^^ K.pieceK PieceType.Pawn them capSq)
      else
        (removePieceB b1 capPt them t, hash2 ^^^ K.pieceK capPt them t)
    | none => (b1, hash2)
  let b2 := step.1
  let hash3 := step.2
  let b3 := movePiece b2 movingPiece us f t
  let hash4 := hash3 ^^^ K.pieceK movingPiece us f ^^^ K.pieceK movingPiece us t
  let step2 :=
    if isPromotion m then
      let promo := promotionPiece m
      (addPieceB (removePieceB b3 PieceType.Pawn us t) promo us t,
       hash4 ^^^ K.pieceK PieceType.Pawn us t ^^^ K.pieceK promo us t)
    else if fl = KING_CASTLE_FLAG then
      let rf := if us = Color.White then 7 else 63
      let rt := if us = Color.White then 5 else 61
      (movePiece b3 PieceType.Rook us rf rt,
       hash4 ^^^ K.pieceK PieceType.Rook us rf ^^^ K.pieceK PieceType.Rook us rt)
    else if fl = QUEEN_CASTLE_FLAG then
      let rf := if us = Color.White then 0 else 56
      let rt := if us = Color.White then 3 else 59
      (movePiece b3 PieceType.Rook us rf rt,
       hash4 ^^^ K.pieceK PieceType.Rook us rf ^^^ K.pieceK PieceType.Rook us rt)
    else (b3, hash4)
  let b4 := step2.1
  let hash5 := step2.2
  let step3 :=
    if fl = DOUBLE_PAWN_PUSH_FLAG then
      let epSq := if us = Color.White then f + 8 else f - 8
      (some epSq,
       if pawnAttacks them epSq &&& b4.pieces PieceType.Pawn them ≠ 0 then
         hash5 ^^^ K.epFileK (epSq % 8)
       else hash5)
    else (none, hash5)
  let halfmove2 :=
    if movingPiece = PieceType.Pawn ∨ captured.isSome then 0
    else b.halfmoveClock + 1
  let fullmove2 :=
    if us = Color.Black then b.fullmoveNumber + 1 else b.fullmoveNumber
  let rights2 := b.castlingRights &&& castleMask f &&& castleMask t
  let hash7 := step3.2 ^^^ K.castleK rights2
  ({ b4 with
      enPassant := step3.1
      halfmoveClock := halfmove2
      fullmoveNumber := fullmove2
      castlingRights := rights2
      sideToMove := them
      zobristHash := hash7 }, undo)

/-- board.rs `unmake_move`. -/
def unmakeMove (b : Board) (m : Nat) (undo : UndoInfo) : Board :=
  let f := fromSq m
  let t := toSq m
  let fl := flagOf m
  let them := b.sideToMove
  let us := them.opp
  let b1 := { b with
    history := b.history.tail
    zobristHash := undo.oldZobristHash
    castlingRights := undo.oldCastlingRights
    enPassant := undo.oldEnPassant
    halfmoveClock := undo.oldHalfmoveClock
    fullmoveNumber :=
      if us = Color.Black then b.fullmoveNumber - 1 else b.fullmoveNumber
    sideToMove := us }
  let mp0 := (pieceTypeOn b1 t).getD PieceType.King
  let step :=
    if isPromotion m then
      (addPieceB (removePieceB b1 mp0 us t) PieceType.Pawn us t, PieceType.Pawn)
    else if fl = KING_CASTLE_FLAG then
      let rf := if us = Color.White then 7 else 63
      let rt := if us = Color.White then 5 else 61
      (movePiece b1 PieceType.Rook us rt rf, mp0)
    else if fl = QUEEN_CASTLE_FLAG then
      let rf := if us = Color.White then 0 else 56
      let rt := if us = Color.White then 3 else 59
      (movePiece b1 PieceType.Rook us rt rf, mp0)
    else (b1, mp0)
  let b2 := step.1
  let b3 := movePiece b2 step.2 us t f
  match undo.capturedPieceType with
  | some capPt =>
    if fl = EN_PASSANT_CAPTURE_FLAG then
      let capSq := if us = Color.White then t - 8 else t + 8
      addPieceB b3 PieceType.Pawn them capSq
    else addPieceB b3 capPt them t
  | none => b3

/-- board.rs `make_null_move`. -/
def makeNullMove (K : ZKeys) (b : Board) : Board × Option Nat :=
  let oldEp := b.enPassant
  let b1 :=
    match b.enPassant with
    | some ep =>
      let them := b.sideToMove.opp
      let ourPawns := b.pieces PieceType.Pawn b.sideToMove
      let h :=
        if pawnAttacks them ep &&& ourPawns ≠ 0 then
          b.zobristHash ^^^ K.epFileK (ep % 8)
        else b.zobristHash
      { b with zobristHash := h, enPassant := none }
    | none => b
  ({ b1 with
      zobristHash := b1.zobristHash ^^^ K.sideK
      sideToMove := b.sideToMove.opp }, oldEp)

/-- board.rs `unmake_null_move`. -/
def unmakeNullMove (K : ZKeys) (b : Board) (oldEp : Option Nat) : Board :=
  let b1 := { b with
    sideToMove := b.sideToMove.opp
    zobristHash := b.zobristHash ^^^ K.sideK }
  match oldEp with
  | some ep =>
    let them := b1.sideToMove.opp
    let ourPawn := b1.pieces PieceType.Pawn b1.sideToMove
    let h :=
      if pawnAttacks them ep &&& ourPawn ≠ 0 then
        b1.zobristHash ^^^ K.epFileK (ep % 8)
      else b1.zobristHash
    { b1 with zobristHash := h, enPassant := some ep }
  | none => b1

/-! ### see.rs : static exchange evaluation -/

/-- see.rs `piece_value`. -/
def pieceValue : PieceType → Int
  | PieceType.Pawn => 100
  | PieceType.Knight => 320
  | PieceType.Bishop => 330
  | PieceType.Rook => 500
  | PieceType.Queen => 900
  | PieceType.King => 20000

/-- Lowest set bit of a u64 as a bitboard (`x & x.wrapping_neg()`),
0 for an empty board. -/
def lowBit (x : Nat) : Nat := if x = 0 then 0 else 1 <<< lsb x

/-- see.rs `get_least_valuable_attacker`: lowest set bit of the cheapest
attacking piece set, together with that piece type (the `&mut PieceType`
out-argument, which keeps its `Pawn` initial value when no attacker is
found). -/
def getLeastValuableAttacker (b : Board) (sq occ2 : Nat) (side : Color) :
    Nat × PieceType :=
  let them := side.opp
  let pawns := b.pieces PieceType.Pawn side &&& occ2
  let pawnAtt := pawns &&& pawnAttacks them sq
  if pawnAtt ≠ 0 then (lowBit pawnAtt, PieceType.Pawn)
  else
    let knightAtt := (b.pieces PieceType.Knight side &&& occ2) &&&
      knightAttacks sq
    if knightAtt ≠ 0 then (lowBit knightAtt, PieceType.Knight)
    else
      let bishopAtt := (b.pieces PieceType.Bishop side &&& occ2) &&&
        bishopAttacksSlow sq occ2
      if bishopAtt ≠ 0 then (lowBit bishopAtt, PieceType.Bishop)
      else
        let rookAtt := (b.pieces PieceType.Rook side &&& occ2) &&&
          rookAttacksSlow sq occ2
        if rookAtt ≠ 0 then (lowBit rookAtt, PieceType.Rook)
        else
          let queenAtt := (b.pieces PieceType.Queen side &&& occ2) &&&
            (bishopAttacksSlow sq occ2 ||| rookAttacksSlow sq occ2)
          if queenAtt ≠ 0 then (lowBit queenAtt, PieceType.Queen)
          else
            let kingAtt := (b.pieces PieceType.King side &&& occ2) &&&
              kingAttacks sq
            if kingAtt ≠ 0 then (lowBit kingAtt, PieceType.King)
            else (0, PieceType.Pawn)

/-- The forward loop of see.rs `see`, producing the `gain` stack with the
most recent entry first.  The Rust `gain` array has 32 slots; `fuel = 40`
more than covers every reachable exchange length. -/
def seeGainLoop (b : Board) (t : Nat) : Nat → Nat → Color → Nat → Int →
    List Int → List Int
  | 0, _, _, _, _, gains => gains
  | fuel + 1, occ2, side, fromSet, curVal, gains =>
    let prev := gains.headD 0
    let g := curVal - prev
    let gains2 := g :: gains
    if max (-prev) g < 0 then gains2
    else
      let occ3 := occ2 ^^^ fromSet
      let side2 := side.opp
      let next := getLeastValuableAttacker b t occ3 side2
      if next.1 = 0 then gains2
      else seeGainLoop b t fuel occ3 side2 next.1 (pieceValue next.2) gains2

/-- The backward unwind `while d > 1 { d -= 1; gain[d-1] =
-max(-gain[d-1], gain[d]) }` of see.rs `see`, on the most-recent-first
gain stack.  With the forward loop stopped at depth `d`, the folds read
`gain[d-1]` down to `gain[1]` but never `gain[d]` itself (the first body
runs after `d` has been decremented), so the unwind drops the head of the
stack and folds the rest downward. -/
def seeUnwind : List Int → Int
  | [] => 0
  | [g] => g
  | _ :: g :: rest => rest.foldl (fun acc x => -(max (-x) acc)) g

/-- see.rs `see`. -/
def see (b : Board) (m : Nat) : Int :=
  let f := fromSq m
  let t := toSq m
  let attPt := (pieceTypeOn b f).getD PieceType.King
  let g0 : Int :=
    match pieceTypeOn b t with
    | some pt => pieceValue pt
    | none => 0
  seeUnwind
    (seeGainLoop b t 40 b.occAll b.sideToMove (1 <<< f) (pieceValue attPt) [g0])

/-! ### tt.rs : transposition table -/

inductive TTFlag where
  | Exact
  | Alpha
  | Beta
deriving DecidableEq, Repr

/-- The `flag as u8` discriminant. -/
def TTFlag.toU8 : TTFlag → Nat
  | TTFlag.Exact => 0
  | TTFlag.Alpha => 1
  | TTFlag.Beta => 2

/-- tt.rs `AtomicTTEntry` (key word and packed data word). -/
structure TTEntryM where
  key : Nat
  data : Nat
deriving DecidableEq, Repr

/-- i16 value reinterpreted as u16 (`score as u16`). -/
def i16ToU16 (s : Int) : Nat := (s % 65536).toNat

/-- u16 word reinterpreted as i16. -/
def u16ToI16 (u : Nat) : Int := if u < 32768 then (u : Int) else (u : Int) - 65536

/-- tt.rs `pack_data`. -/
def packData (mv : Nat) (score : Int) (depth gen flag : Nat) : Nat :=
  mv ||| (i16ToU16 score <<< 16) ||| (depth <<< 32) ||| (gen <<< 40) |||
  (flag <<< 48)

/-- tt.rs `unpack_data`: (move, score, depth, generation, flag). -/
def unpackData (d : Nat) : Nat × Int × Nat × Nat × Nat :=
  (d &&& 0xFFFF, u16ToI16 ((d >>> 16) &&& 0xFFFF), (d >>> 32) &&& 0xFF,
   (d >>> 40) &&& 0xFF, (d >>> 48) &&& 0xFF)

/-- tt.rs `AtomicTTEntry::read` (a zero key word means an empty slot). -/
def readE (e : TTEntryM) : Option (Nat × Nat × Int × Nat × Nat × Nat) :=
  if e.key = 0 then none
  else
    let u := unpackData e.data
    some (e.key, u.1, u.2.1, u.2.2.1, u.2.2.2.1, u.2.2.2.2)

/-- tt.rs `TranspositionTable`: `table` maps a cluster index and an
entry index 0..3 to an entry. -/
structure TTableM where
  size : Nat
  table : Nat → Nat → TTEntryM
  generation : Nat

/-- The probe loop of tt.rs `probe` over the in-cluster entry indices. -/
def probeScan (cl : Nat → TTEntryM) (key : Nat) :
    List Nat → Option (Nat × Int × Nat × TTFlag)
  | [] => none
  | i :: rest =>
    match readE (cl i) with
    | some (storedKey, mv, score, depth, _, flagU8) =>
      if storedKey = key then
        let flag :=
          match flagU8 with
          | 0 => TTFlag.Exact
          | 1 => TTFlag.Alpha
          | _ => TTFlag.Beta
        some (mv, score, depth, flag)
      else probeScan cl key rest
    | none => probeScan cl key rest

/-- tt.rs `probe`. -/
def probe (tt : TTableM) (key : Nat) : Option (Nat × Int × Nat × TTFlag) :=
  let index := key &&& (tt.size - 1)
  probeScan (tt.table index) key [0, 1, 2, 3]

/-- The replacement scan of tt.rs `store`: returns the replacement index
and whether an entry with the probed key was found. -/
def storeScan (cl : Nat → TTEntryM) (key gen : Nat) :
    List Nat → Nat → Int → Nat × Bool
  | [], ri, _ => (ri, false)
  | i :: rest, ri, worst =>
    match readE (cl i) with
    | some (storedKey, _, _, storedDepth, storedGen, _) =>
      if storedKey = key then (i, true)
      else
        let entryScore : Int :=
          (if storedGen ≠ gen then 1000 else 0) + 256 - (storedDepth : Int)
        if entryScore > worst then storeScan cl key gen rest i entryScore
        else storeScan cl key gen rest ri worst
    | none => (i, false)

/-- tt.rs `store`. -/
def store (tt : TTableM) (key : Nat) (moveBest : Option Nat) (score : Int)
    (depth : Nat) (flag : TTFlag) : TTableM :=
  let index := key &&& (tt.size - 1)
  let cl := tt.table index
  let gen := tt.generation
  let moveU16 := moveBest.getD 0
  let scoreI16 := max (-32000) (min score 32000)
  let flagU8 := flag.toU8
  let scan := storeScan cl key gen [0, 1, 2, 3] 0 (-(2 ^ 31))
  let replaceIdx := scan.1
  let found := scan.2
  let finalMove :=
    if found ∧ moveU16 = 0 then
      match readE (cl replaceIdx) with
      | some (_, storedMv, _, _, _, _) => storedMv
      | none => moveU16
    else moveU16
  let newEntry : TTEntryM :=
    ⟨key, packData finalMove scoreI16 depth gen flagU8⟩
  { tt with
    table := fun ci => if ci = index then
        (fun ei => if ei = replaceIdx then newEntry else cl ei)
      else tt.table ci }

/-! ### search.rs : constants and the no-legal-move result -/

def MATE_SCORE : Int := 31000

/-- The in-check test of search.rs `negamax` (line 385: the board field
`king_sq` does not exist in board.rs; every other site of the sources
computes the king square as `trailing_zeros` of the king bitboard, which
is what is used here). -/
def inCheckB (b : Board) : Bool :=
  isSquareAttacked b (lsb (b.pieces PieceType.King b.sideToMove))
    b.sideToMove.opp

/-- search.rs `negamax`, the `legal_moves == 0` tail (lines 736-744):
mate score when in check, `alpha` when futility pruning skipped moves,
stalemate 0 otherwise. -/
def negamaxNoMoveScore (b : Board) (ply alpha : Int) (skippedMoves : Nat) :
    Int :=
  if inCheckB b then -MATE_SCORE + ply
  else if skippedMoves > 0 then alpha
  else 0

/-! ### uci.rs : move formatting, position parsing, go time limits -/

/-- moves.rs `format_square`. -/
def formatSquare (sq : Nat) : String :=
  String.mk [Char.ofNat (97 + sq % 8), Char.ofNat (49 + sq / 8)]

/-- moves.rs `format`. -/
def formatMove (m : Nat) : String :=
  let s := formatSquare (fromSq m) ++ formatSquare (toSq m)
  if isPromotion m then
    let ch :=
      match promotionPiece m with
      | PieceType.Knight => Char.ofNat 110
      | PieceType.Bishop => Char.ofNat 98
      | PieceType.Rook => Char.ofNat 114
      | PieceType.Queen => Char.ofNat 113
      | _ => Char.ofNat 113
    s ++ String.mk [ch]
  else s

/-- uci.rs `parse_move`: the first generated pseudo-legal move whose UCI
string equals the token, else the null move word 0. -/
def parseMoveU (b : Board) (s : String) : Nat :=
  (((generatePseudoLegalMoves b).find? (fun m => formatMove m = s)).getD 0)

/-- The `moves` loop of uci.rs `parse_position` (lines 113-121): for each
token, parse it against the current board and apply it only when the
parse result is nonzero. -/
def processMoves (K : ZKeys) (b : Board) : List String → Board
  | [] => b
  | s :: rest =>
    let m := parseMoveU b s
    if m ≠ 0 then processMoves K (makeMove K b m).1 rest
    else processMoves K b rest

/-- uci.rs `parse_go`, the `movetime > 0` branch (lines 216-219):
the derived (soft, hard) deadlines in milliseconds.  `Nat` subtraction is
exactly u64 `saturating_sub`. -/
def parseGoMovetimeLimits (movetime : Nat) : Nat × Nat :=
  let safetyMargin := 200
  let spendable := movetime - safetyMargin
  let timeLimit := min (max spendable 5) (max (movetime - 1) 1)
  let hardLimit := min (max (movetime - 5) (timeLimit + 10)) movetime
  (timeLimit, hardLimit)

/-! ### board.rs : FEN parsing and printing -/

/-- board.rs `Board::default`. -/
def boardDefault : Board :=
  ⟨fun _ _ => 0, fun _ => 0, 0, Color.White, 0, none, 0, 1, 0, []⟩

/-- `char::to_digit(10)`. -/
def digitOf (c : Char) : Option Nat :=
  if 48 ≤ c.toNat ∧ c.toNat ≤ 57 then some (c.toNat - 48) else none

/-- ASCII uppercase test (`is_uppercase` on the ASCII piece letters). -/
def isUpperCh (c : Char) : Bool := 65 ≤ c.toNat && c.toNat ≤ 90

/-- `to_ascii_lowercase`. -/
def toLowerCh (c : Char) : Char :=
  if isUpperCh c then Char.ofNat (c.toNat + 32) else c

/-- The piece-letter match of board.rs `from_fen`. -/
def pieceOfChar (c : Char) : Option PieceType :=
  if c = 'p' then some PieceType.Pawn
  else if c = 'n' then some PieceType.Knight
  else if c = 'b' then some PieceType.Bishop
  else if c = 'r' then some PieceType.Rook
  else if c = 'q' then some PieceType.Queen
  else if c = 'k' then some PieceType.King
  else none

/-- The piece-placement loop of board.rs `from_fen`, with state
(rank, file, board).  A ninth rank separator underflows the u8 rank in the
source (a panic); that is modelled as a parse failure. -/
def parsePlacement : List Char → Nat → Nat → Board → Option Board
  | [], _, _, b => some b
  | c :: rest, rank, file, b =>
    if c = '/' then
      if rank = 0 then none else parsePlacement rest (rank - 1) 0 b
    else
      match digitOf c with
      | some d => parsePlacement rest rank (file + d) b
      | none =>
        if file > 7 then none
        else
          let sq := rank * 8 + file
          let color := if isUpperCh c then Color.White else Color.Black
          match pieceOfChar (toLowerCh c) with
          | some pt =>
            parsePlacement rest rank (file + 1) (addPieceB b pt color sq)
          | none => none

/-- `split_whitespace`, on character lists. -/
def wordsAux : List Char → List Char → List (List Char)
  | [], acc => if acc.isEmpty then [] else [acc.reverse]
  | c :: rest, acc =>
    if c.isWhitespace then
      if acc.isEmpty then wordsAux rest []
      else acc.reverse :: wordsAux rest []
    else wordsAux rest (c :: acc)

/-- Decimal digit-list value. -/
def parseDecAux : List Char → Nat → Option Nat
  | [], acc => some acc
  | c :: rest, acc =>
    match digitOf c with
    | some d => parseDecAux rest (acc * 10 + d)
    | none => none

/-- `str::parse` of an unsigned decimal (empty or non-digit input fails;
the source also accepts one leading plus sign, which cannot occur in the
output of `to_fen` and is not modelled). -/
def parseDec : List Char → Option Nat
  | [] => none
  | l => parseDecAux l 0

/-- `parts[4].parse::<u8>().unwrap_or(0)` (overflow makes `parse` fail). -/
def parseU8field (l : List Char) : Nat :=
  match parseDec l with
  | some n => if n < 256 then n else 0
  | none => 0

/-- `parts[5].parse::<u32>().unwrap_or(1)`. -/
def parseU32field (l : List Char) : Nat :=
  match parseDec l with
  | some n => if n < 2 ^ 32 then n else 1
  | none => 1

/-- board.rs `from_fen` (the NNUE refresh at the end is not modelled).
The en-passant field reads its first two characters; a one-character
field panics in the source and is modelled as failure. -/
def fromFen (K : ZKeys) (s : String) : Option Board :=
  match wordsAux s.data [] with
  | [p0, p1, p2, p3, p4, p5] =>
    match parsePlacement p0 7 0 boardDefault with
    | none => none
    | some b1 =>
      let stm? : Option Color :=
        if p1 = ['w'] then some Color.White
        else if p1 = ['b'] then some Color.Black
        else none
      match stm? with
      | none => none
      | some stm =>
        let rights := p2.foldl (fun r c =>
          if c = 'K' then r ||| 1
          else if c = 'Q' then r ||| 2
          else if c = 'k' then r ||| 4
          else if c = 'q' then r ||| 8
          else r) 0
        let ep? : Option (Option Nat) :=
          if p3 = ['-'] then some none
          else
            match p3 with
            | c1 :: c2 :: _ =>
              some (some ((c2.toNat - 49) * 8 + (c1.toNat - 97)))
            | _ => none
        match ep? with
        | none => none
        | some ep =>
          let b2 := { b1 with
            sideToMove := stm
            castlingRights := rights
            enPassant := ep
            halfmoveClock := parseU8field p4
            fullmoveNumber := parseU32field p5 }
          some { b2 with zobristHash := calculateZobristHash K b2 }
  | _ => none

/-- The character board.rs `to_fen` prints for a square (piece types in
index order, white checked before black). -/
def pieceCharAt (b : Board) (sq : Nat) : Option Char :=
  ptList.findSome? (fun pt =>
    if (b.pieces pt Color.White).testBit sq then
      some (match pt with
        | PieceType.Pawn => 'P'
        | PieceType.Knight => 'N'
        | PieceType.Bishop => 'B'
        | PieceType.Rook => 'R'
        | PieceType.Queen => 'Q'
        | PieceType.King => 'K')
    else if (b.pieces pt Color.Black).testBit sq then
      some (match pt with
        | PieceType.Pawn => 'p'
        | PieceType.Knight => 'n'
        | PieceType.Bishop => 'b'
        | PieceType.Rook => 'r'
        | PieceType.Queen => 'q'
        | PieceType.King => 'k')
    else none)

/-- The per-rank run-length emission of board.rs `to_fen` (the run of
empty squares never exceeds 8, so it always prints as one digit). -/
def emitCells : List (Option Char) → Nat → List Char
  | [], empties => if empties > 0 then [Char.ofNat (48 + empties)] else []
  | some ch :: rest, empties =>
    (if empties > 0 then [Char.ofNat (48 + empties)] else []) ++
    ch :: emitCells rest 0
  | none :: rest, empties => emitCells rest (empties + 1)

/-- The eight cells of one rank, in file order. -/
def rankCells (b : Board) (r : Nat) : List (Option Char) :=
  (List.range 8).map (fun f => pieceCharAt b (r * 8 + f))

/-- The piece-placement field of board.rs `to_fen` (ranks 7 down to 0,
separated by slashes). -/
def placementChars (b : Board) : List Char :=
  List.intercalate ['/']
    (((List.range 8).reverse).map (fun r => emitCells (rankCells b r) 0))

/-- Decimal printing (`to_string` of an unsigned integer). -/
def printDec (n : Nat) : List Char :=
  if h : n < 10 then [Char.ofNat (48 + n)]
  else printDec (n / 10) ++ [Char.ofNat (48 + n % 10)]
termination_by n
decreasing_by
  exact Nat.div_lt_self (by omega) (by omega)

/-- The castling field of board.rs `to_fen`. -/
def castlingChars (b : Board) : List Char :=
  let s :=
    (if b.castlingRights &&& 1 ≠ 0 then ['K'] else []) ++
    (if b.castlingRights &&& 2 ≠ 0 then ['Q'] else []) ++
    (if b.castlingRights &&& 4 ≠ 0 then ['k'] else []) ++
    (if b.castlingRights &&& 8 ≠ 0 then ['q'] else [])
  if s.isEmpty then ['-'] else s

/-- The en-passant field of board.rs `to_fen`. -/
def epChars (b : Board) : List Char :=
  match b.enPassant with
  | some sq => [Char.ofNat (97 + sq % 8), Char.ofNat (49 + sq / 8)]
  | none => ['-']

/-- board.rs `to_fen`. -/
def toFen (b : Board) : String :=
  String.mk
    (placementChars b ++ [' '] ++
     [if b.sideToMove = Color.White then 'w' else 'b'] ++ [' '] ++
     castlingChars b ++ [' '] ++
     epChars b ++ [' '] ++
     printDec b.halfmoveClock ++ [' '] ++
     printDec b.fullmoveNumber)

/-! ### Well-formedness of boards

These predicates capture the invariants that hold of every board the
engine reaches from a legal FEN (they are exactly the occupancy-cache,
disjointness and consistency conditions of the specification). -/

/-- Every bitboard fits in a u64. -/
def boundedPieces (b : Board) : Prop :=
  (∀ pt c, b.pieces pt c < 2 ^ 64) ∧ (∀ c, b.occ c < 2 ^ 64) ∧
  b.occAll < 2 ^ 64

/-- The union of one side's six piece sets. -/
def sideUnion (b : Board) (c : Color) : Nat :=
  ptList.foldl (fun a pt => a ||| b.pieces pt c) 0

/-- The occupancy caches equal the or of the piece sets. -/
def occConsistent (b : Board) : Prop :=
  (∀ c, b.occ c = sideUnion b c) ∧
  b.occAll = b.occ Color.White ||| b.occ Color.Black

/-- The twelve piece sets are pairwise disjoint. -/
def disjointPieces (b : Board) : Prop :=
  ∀ pt c pt2 c2, ¬ (pt = pt2 ∧ c = c2) →
    b.pieces pt c &&& b.pieces pt2 c2 = 0

/-- Both kings are on the board. -/
def kingsPresent (b : Board) : Prop :=
  ∀ c, b.pieces PieceType.King c ≠ 0

/-- A recorded en-passant square sits on the capture rank of the side to
move, is empty, and has the just-pushed enemy pawn behind it: true of
every board reached from a legal position (the square is set only by a
double pawn push). -/
def epOkB (b : Board) : Bool :=
  match b.enPassant with
  | none => true
  | some sq =>
    (if b.sideToMove = Color.White then
      decide (40 ≤ sq ∧ sq ≤ 47) &&
      (b.pieces PieceType.Pawn Color.Black).testBit (sq - 8)
    else
      decide (16 ≤ sq ∧ sq ≤ 23) &&
      (b.pieces PieceType.Pawn Color.White).testBit (sq + 8)) &&
    !(b.occAll.testBit sq)

/-- A castling right implies the corresponding king square is occupied by
the king (true of every board reached from a legal position, since the
`CASTLE_MASK` clears a right as soon as the king square is touched). -/
def castleOkB (b : Board) : Bool :=
  (b.castlingRights &&& 1 = 0 ||
    (b.pieces PieceType.King Color.White).testBit 4) &&
  (b.castlingRights &&& 2 = 0 ||
    (b.pieces PieceType.King Color.White).testBit 4) &&
  (b.castlingRights &&& 4 = 0 ||
    (b.pieces PieceType.King Color.Black).testBit 60) &&
  (b.castlingRights &&& 8 = 0 ||
    (b.pieces PieceType.King Color.Black).testBit 60)

/-- Well-formedness of a reachable board. -/
def WF (b : Board) : Prop :=
  boundedPieces b ∧ occConsistent b ∧ disjointPieces b ∧ kingsPresent b ∧
  epOkB b = true ∧ castleOkB b = true

instance (b : Board) : Decidable (boundedPieces b) := by
  unfold boundedPieces; infer_instance

instance (b : Board) : Decidable (occConsistent b) := by
  unfold occConsistent; infer_instance

instance (b : Board) : Decidable (disjointPieces b) := by
  unfold disjointPieces; infer_instance

instance (b : Board) : Decidable (kingsPresent b) := by
  unfold kingsPresent; infer_instance

instance (b : Board) : Decidable (WF b) := by
  unfold WF; infer_instance

/-- The restoration property of claim C1: `make_move` followed by
`unmake_move` with the returned `UndoInfo` restores every board field:
the twelve piece bitboards, the three occupancy bitboards, and all
scalars. -/
def RestoresC1 (K : ZKeys) (b : Board) (m : Nat) : Prop :=
  unmakeMove (makeMove K b m).1 m (makeMove K b m).2 = b

/-- The letter board.rs `to_fen` prints for a piece: a helper view for
the FEN round trip. -/
def pcChar : PieceType × Color → Char
  | (PieceType.Pawn, Color.White) => 'P'
  | (PieceType.Knight, Color.White) => 'N'
  | (PieceType.Bishop, Color.White) => 'B'
  | (PieceType.Rook, Color.White) => 'R'
  | (PieceType.Queen, Color.White) => 'Q'
  | (PieceType.King, Color.White) => 'K'
  | (PieceType.Pawn, Color.Black) => 'p'
  | (PieceType.Knight, Color.Black) => 'n'
  | (PieceType.Bishop, Color.Black) => 'b'
  | (PieceType.Rook, Color.Black) => 'r'
  | (PieceType.Queen, Color.Black) => 'q'
  | (PieceType.King, Color.Black) => 'k'

/-- The first (piece type, color) pair of the `to_fen` scan that holds a
square: an explicit view of `pieceCharAt` used for the placement round
trip. -/
def pieceColAt (b : Board) (sq : Nat) : Option (PieceType × Color) :=
  ptList.findSome? (fun pt =>
    if (b.pieces pt Color.White).testBit sq then some (pt, Color.White)
    else if (b.pieces pt Color.Black).testBit sq then some (pt, Color.Black)
    else none)

/-- The board the placement parser builds from the emitted cells of one
rank, starting at a given file. -/
def addCellsB (r : Nat) : Board → Nat → List (Option Char) → Board
  | acc, _, [] => acc
  | acc, g, none :: rest => addCellsB r acc (g + 1) rest
  | acc, g, some c :: rest =>
    match pieceOfChar (toLowerCh c) with
    | some pt =>
      addCellsB r (addPieceB acc pt
        (if isUpperCh c then Color.White else Color.Black) (r * 8 + g))
        (g + 1) rest
    | none => acc

/-! ### Concrete fixtures for witnesses and counterexamples -/

/-- Builds a board by `add_piece` calls on the default board, as
`from_fen` does. -/
def mkBoardOf (l : List (PieceType × Color × Nat)) : Board :=
  l.foldl (fun b e => addPieceB b e.1 e.2.1 e.2.2) boardDefault

/-- A trivial all-zero key set (any fixed key material works for the
claims about restoring or diverging hashes). -/
def K0 : ZKeys := ⟨fun _ _ _ => 0, fun _ => 0, fun _ => 0, 0⟩

/-- Key material that is zero except for the en-passant file keys:
enough to observe the en-passant contribution to the hash. -/
def K1 : ZKeys := ⟨fun _ _ _ => 0, fun _ => 0, fun _ => 1, 0⟩

/-- Kings on e1 and e8 plus a white pawn on a2. -/
def bKP : Board :=
  mkBoardOf [(PieceType.King, Color.White, 4), (PieceType.King, Color.Black, 60),
             (PieceType.Pawn, Color.White, 8)]

/-- Kings on e1 and e8 only. -/
def bKK : Board :=
  mkBoardOf [(PieceType.King, Color.White, 4), (PieceType.King, Color.Black, 60)]

/-- White king e1 and rook h1 with the white king-side castling right,
black king e8. -/
def bCastle : Board :=
  { mkBoardOf [(PieceType.King, Color.White, 4), (PieceType.Rook, Color.White, 7),
               (PieceType.King, Color.Black, 60)] with castlingRights := 1 }

/-- White rook a1, kings e1 / e8, black pawn b5: the quiet rook move
a1-a4 walks into the pawn's attack. -/
def bSee : Board :=
  mkBoardOf [(PieceType.Rook, Color.White, 0), (PieceType.King, Color.White, 4),
             (PieceType.King, Color.Black, 60), (PieceType.Pawn, Color.Black, 33)]

/-- White rook a1, kings e1 / e8: the quiet rook move a1-a2 goes to a
square no black piece attacks. -/
def bSeeQuiet : Board :=
  mkBoardOf [(PieceType.Rook, Color.White, 0), (PieceType.King, Color.White, 4),
             (PieceType.King, Color.Black, 60)]

/-- Kings e1 / e8 and a white pawn on e7: the pawn has a pseudo-legal
non-capturing queen promotion e7-e8. -/
def bPromo : Board :=
  mkBoardOf [(PieceType.King, Color.White, 4), (PieceType.King, Color.Black, 63),
             (PieceType.Pawn, Color.White, 52)]

/-- The FEN of the position before the failing double push of claim C2:
black pawn on d4, white to play e2-e4. -/
def fenC2 : String := "rnbqkbnr/ppp1pppp/8/8/3p4/8/PPPPPPPP/RNBQKBNR w KQkq - 0 2"

/-- A FEN used as a concrete valid input. -/
def fenKiwi : String :=
  "r3k2r/p1ppqpb1/bn2pnp1/3PN3/1p2P3/2N2Q1p/PPPBBPPP/R3K2R w KQkq - 0 1"

/-- An empty transposition table of 1024 clusters. -/
def ttEmpty : TTableM := ⟨1024, fun _ _ => ⟨0, 0⟩, 0⟩

/-! ## Lemma toolkit : bits of u64 values -/

theorem one_shiftLeft (sq : Nat) : (1 <<< sq) = 2 ^ sq := by
  simp [Nat.shiftLeft_eq]

theorem testBit_one_shiftLeft (sq i : Nat) :
    (1 <<< sq).testBit i = decide (sq = i) := by
  rw [one_shiftLeft]; exact Nat.testBit_two_pow ..

theorem testBit_u64not (x i : Nat) :
    (u64not x).testBit i = (decide (i < 64) != x.testBit i) := by
  simp only [u64not, Nat.testBit_xor, Nat.testBit_two_pow_sub_one]

theorem testBit_ge_64 {x : Nat} (hx : x < 2 ^ 64) {i : Nat} (hi : 64 ≤ i) :
    x.testBit i = false :=
  Nat.testBit_lt_two_pow (lt_of_lt_of_le hx (Nat.pow_le_pow_right (by omega) hi))

theorem mem_bits {s bb : Nat} : s ∈ bits bb ↔ s < 64 ∧ bb.testBit s = true := by
  simp [bits, List.mem_filter, List.mem_range, and_comm]

theorem bits_nodup (bb : Nat) : (bits bb).Nodup :=
  (List.nodup_range 64).filter _

theorem lor_lt_two_pow {x y n : Nat} (hx : x < 2 ^ n) (hy : y < 2 ^ n) :
    x ||| y < 2 ^ n := Nat.or_lt_two_pow hx hy

theorem land_lt_two_pow_left {x y n : Nat} (hx : x < 2 ^ n) :
    x &&& y < 2 ^ n := Nat.lt_of_le_of_lt Nat.and_le_left hx

theorem xor_lt_two_pow {x y n : Nat} (hx : x < 2 ^ n) (hy : y < 2 ^ n) :
    x ^^^ y < 2 ^ n := Nat.xor_lt_two_pow hx hy

theorem shiftLeft_lt_two_pow_64 {sq : Nat} (h : sq < 64) :
    (1 <<< sq) < 2 ^ 64 := by
  rw [one_shiftLeft]; exact Nat.pow_lt_pow_right (by omega) h

/-- Removing a set bit, then adding it back. -/
theorem and_not_or_cancel {x sq : Nat} (hx : x < 2 ^ 64) (hsq : sq < 64)
    (h : x.testBit sq = true) : (x &&& u64not (1 <<< sq)) ||| (1 <<< sq) = x := by
  apply Nat.eq_of_testBit_eq
  intro i
  simp only [Nat.testBit_lor, Nat.testBit_land, testBit_u64not,
    testBit_one_shiftLeft]
  by_cases hi : i = sq
  · subst hi; simp [h, hsq]
  · by_cases hi64 : i < 64
    · simp [hi, Ne.symm hi, hi64]
    · simp [hi, Ne.symm hi, hi64, testBit_ge_64 hx (show 64 ≤ i by omega)]

/-- Adding a clear bit, then removing it again. -/
theorem or_and_not_cancel {x sq : Nat} (hx : x < 2 ^ 64) (hsq : sq < 64)
    (h : x.testBit sq = false) : (x ||| (1 <<< sq)) &&& u64not (1 <<< sq) = x := by
  apply Nat.eq_of_testBit_eq
  intro i
  simp only [Nat.testBit_lor, Nat.testBit_land, testBit_u64not,
    testBit_one_shiftLeft]
  by_cases hi : i = sq
  · subst hi; simp [h, hsq]
  · by_cases hi64 : i < 64
    · simp [hi, Ne.symm hi, hi64]
    · simp [hi, Ne.symm hi, hi64, testBit_ge_64 hx (show 64 ≤ i by omega)]

/-- A clear bit is removed by `remove_piece` without effect. -/
theorem and_not_of_clear {x sq : Nat} (hx : x < 2 ^ 64)
    (h : x.testBit sq = false) : x &&& u64not (1 <<< sq) = x := by
  apply Nat.eq_of_testBit_eq
  intro i
  simp only [Nat.testBit_land, testBit_u64not, testBit_one_shiftLeft]
  by_cases hi : i = sq
  · subst hi; simp [h]
  · by_cases hi64 : i < 64
    · simp [Ne.symm hi, hi64]
    · simp [Ne.symm hi, hi64, testBit_ge_64 hx (show 64 ≤ i by omega)]

theorem xor_xor_cancel (x m : Nat) : (x ^^^ m) ^^^ m = x :=
  Nat.xor_cancel_right m x

/-! ## Lemma toolkit : move word decoding -/

theorem testBit_of_lt_pow {x n i : Nat} (hx : x < 2 ^ n) (hi : n ≤ i) :
    x.testBit i = false :=
  Nat.testBit_lt_two_pow
    (lt_of_lt_of_le hx (Nat.pow_le_pow_right (by omega) hi))

theorem testBit_mvNew (f t fl i : Nat) :
    (mvNew f t fl).testBit i =
      (f.testBit i || (decide (6 ≤ i) && t.testBit (i - 6)) ||
       (decide (12 ≤ i) && fl.testBit (i - 12))) := by
  simp [mvNew, Nat.testBit_lor, Nat.testBit_shiftLeft]

theorem fromSq_mvNew {f t fl : Nat} (hf : f < 64) :
    fromSq (mvNew f t fl) = f := by
  apply Nat.eq_of_testBit_eq
  intro i
  have h63 : (0x3F : Nat) = 2 ^ 6 - 1 := by norm_num
  simp only [fromSq, Nat.testBit_land, testBit_mvNew, h63,
    Nat.testBit_two_pow_sub_one]
  by_cases hi : i < 6
  · simp [hi, (show ¬ (6 ≤ i) by omega), (show ¬ (12 ≤ i) by omega)]
  · simp [hi, (show f.testBit i = false from testBit_of_lt_pow (show f < 2 ^ 6 by omega) (by omega))]

theorem toSq_mvNew {f t fl : Nat} (hf : f < 64) (ht : t < 64) :
    toSq (mvNew f t fl) = t := by
  apply Nat.eq_of_testBit_eq
  intro i
  have h63 : (0x3F : Nat) = 2 ^ 6 - 1 := by norm_num
  simp only [toSq, Nat.testBit_land, Nat.testBit_shiftRight, testBit_mvNew,
    h63, Nat.testBit_two_pow_sub_one]
  by_cases hi : i < 6
  · simp [hi,
      (show f.testBit (6 + i) = false from testBit_of_lt_pow (show f < 2 ^ 6 by omega) (by omega)),
      (show 6 ≤ 6 + i by omega), (show ¬ (12 ≤ 6 + i) by omega),
      (show 6 + i - 6 = i by omega)]
  · simp [hi, (show t.testBit i = false from testBit_of_lt_pow (show t < 2 ^ 6 by omega) (by omega))]

theorem flagOf_mvNew {f t fl : Nat} (hf : f < 4096) (ht : t < 64)
    (hfl : fl < 16) : flagOf (mvNew f t fl) = fl := by
  apply Nat.eq_of_testBit_eq
  intro i
  have h15 : (0xF : Nat) = 2 ^ 4 - 1 := by norm_num
  simp only [flagOf, Nat.testBit_land, Nat.testBit_shiftRight, testBit_mvNew,
    h15, Nat.testBit_two_pow_sub_one]
  by_cases hi : i < 4
  · simp [hi,
      (show f.testBit (12 + i) = false from testBit_of_lt_pow (show f < 2 ^ 12 by omega) (by omega)),
      (show t.testBit (12 + i - 6) = false from
        testBit_of_lt_pow (show t < 2 ^ 6 by omega) (by omega)),
      (show 12 ≤ 12 + i by omega), (show 12 + i - 12 = i by omega)]
  · simp [hi, (show fl.testBit i = false from testBit_of_lt_pow (show fl < 2 ^ 4 by omega) (by omega))]

theorem isCapture_mvNew {f t fl : Nat} (hf : f < 4096) (ht : t < 64)
    (hfl : fl < 16) : isCapture (mvNew f t fl) = (fl &&& 4 != 0) := by
  simp [isCapture, flagOf_mvNew hf ht hfl]

theorem isPromotion_mvNew {f t fl : Nat} (hf : f < 4096) (ht : t < 64)
    (hfl : fl < 16) : isPromotion (mvNew f t fl) = (fl &&& 8 != 0) := by
  simp [isPromotion, flagOf_mvNew hf ht hfl]

/-! ## Claim C9 : movetime deadlines -/

/-- C9, as stated, is false: for `movetime 10` the code clamps the hard
deadline to `max(time_limit + 10, movetime - 5)` capped at `movetime`,
giving 10 ms, while the claim demands `10 - 5 = 5` ms. -/
theorem c9_counterexample :
    ¬ parseGoMovetimeLimits 10 = (max (10 - 200) 5, 10 - 5) := by decide

/-- C9 amended: for every `go movetime M` with `M ≥ 20` (so that the
`time_limit + 10` and `movetime - 1` clamps are inactive) the soft
deadline is `max(M - 200, 5)` and the hard deadline is `M - 5`. -/
theorem c9_movetime_limits (M : Nat) (h : 20 ≤ M) :
    parseGoMovetimeLimits M = (max (M - 200) 5, M - 5) := by
  unfold parseGoMovetimeLimits
  refine Prod.ext ?_ ?_ <;> simp only [] <;> omega

/-- Witness for `c9_movetime_limits` at `movetime 1000`. -/
theorem c9_movetime_limits_witness :
    20 ≤ 1000 ∧ parseGoMovetimeLimits 1000 = (max (1000 - 200) 5, 1000 - 5) :=
  ⟨by decide, c9_movetime_limits 1000 (by decide)⟩

/-! ## Claim C6 : negamax with no legal move -/

/-- C6, as stated, is false: when the side to move is not in check but
futility pruning skipped at least one move, the code returns `alpha`
(here 7), not the stalemate score 0. -/
theorem c6_counterexample :
    ¬ negamaxNoMoveScore bKK 3 7 1 =
      (if inCheckB bKK then -MATE_SCORE + 3 else 0) := by decide

/-- C6 amended: with no legal move, negamax returns `-MATE_SCORE + ply`
in check; otherwise 0 when futility pruning skipped nothing, and `alpha`
when it skipped at least one move. -/
theorem c6_no_legal_moves (b : Board) (ply alpha : Int) (skipped : Nat) :
    (inCheckB b = true →
      negamaxNoMoveScore b ply alpha skipped = -MATE_SCORE + ply) ∧
    (inCheckB b = false → skipped = 0 →
      negamaxNoMoveScore b ply alpha skipped = 0) ∧
    (inCheckB b = false → 0 < skipped →
      negamaxNoMoveScore b ply alpha skipped = alpha) := by
  unfold negamaxNoMoveScore
  refine ⟨fun h => by simp [h], fun h h0 => by simp [h, h0],
    fun h h0 => by simp [h]; omega⟩

/-- Witness for `c6_no_legal_moves` on the kings-only board (not in
check, nothing skipped): the stalemate score 0. -/
theorem c6_no_legal_moves_witness :
    inCheckB bKK = false ∧ negamaxNoMoveScore bKK 5 9 0 = 0 :=
  ⟨by decide, (c6_no_legal_moves bKK 5 9 0).2.1 (by decide) rfl⟩

/-! ## Claim C10 : unmatched move tokens in `position` -/

/-- C10: a token that matches no generated pseudo-legal move parses to
the null move word 0, so the board is left unchanged for that token and
processing continues with the rest of the tokens. -/
theorem c10_unknown_token_skipped (K : ZKeys) (b : Board) (s : String)
    (rest : List String)
    (h : ∀ m ∈ generatePseudoLegalMoves b, formatMove m ≠ s) :
    processMoves K b (s :: rest) = processMoves K b rest := by
  have hfind :
      (generatePseudoLegalMoves b).find? (fun m => formatMove m = s) = none := by
    rw [List.find?_eq_none]
    intro m hm
    simpa using h m hm
  simp [processMoves, parseMoveU, hfind]

/-- Witness for `c10_unknown_token_skipped`: the token `zzzz` on the
king-and-pawn board. -/
theorem c10_unknown_token_skipped_witness :
    (∀ m ∈ generatePseudoLegalMoves bKP, formatMove m ≠ "zzzz") ∧
    processMoves K0 bKP ["zzzz"] = processMoves K0 bKP [] :=
  ⟨by decide, c10_unknown_token_skipped K0 bKP "zzzz" [] (by decide)⟩

/-! ## Claim C5 : transposition table store and probe -/

theorem i16_round_trip {s : Int} (h1 : -32768 ≤ s) (h2 : s < 32768) :
    u16ToI16 (i16ToU16 s) = s := by
  unfold i16ToU16 u16ToI16
  split <;> omega

theorem testBit_packData (mv : Nat) (s : Int) (depth gen flag i : Nat) :
    (packData mv s depth gen flag).testBit i =
      (mv.testBit i || (decide (16 ≤ i) && (i16ToU16 s).testBit (i - 16)) ||
       (decide (32 ≤ i) && depth.testBit (i - 32)) ||
       (decide (40 ≤ i) && gen.testBit (i - 40)) ||
       (decide (48 ≤ i) && flag.testBit (i - 48))) := by
  simp [packData, Nat.testBit_lor, Nat.testBit_shiftLeft]

theorem unpack_pack {mv : Nat} {s : Int} {depth gen flag : Nat}
    (hmv : mv < 2 ^ 16) (hd : depth < 2 ^ 8) (hg : gen < 2 ^ 8)
    (hfl : flag < 2 ^ 8) :
    unpackData (packData mv s depth gen flag) =
      (mv, u16ToI16 (i16ToU16 s), depth, gen, flag) := by
  have hu : i16ToU16 s < 2 ^ 16 := by
    unfold i16ToU16; omega
  have h16 : (0xFFFF : Nat) = 2 ^ 16 - 1 := by norm_num
  have h8 : (0xFF : Nat) = 2 ^ 8 - 1 := by norm_num
  unfold unpackData
  refine Prod.ext ?_ (Prod.ext ?_ (Prod.ext ?_ (Prod.ext ?_ ?_))) <;>
    simp only []
  · apply Nat.eq_of_testBit_eq
    intro i
    simp only [Nat.testBit_land, testBit_packData, h16,
      Nat.testBit_two_pow_sub_one]
    by_cases hi : i < 16
    · simp [hi, (show ¬ (16 ≤ i) by omega), (show ¬ (32 ≤ i) by omega),
        (show ¬ (40 ≤ i) by omega), (show ¬ (48 ≤ i) by omega)]
    · simp [hi,
        (show mv.testBit i = false from testBit_of_lt_pow hmv (by omega))]
  · congr 1
    apply Nat.eq_of_testBit_eq
    intro i
    simp only [Nat.testBit_land, Nat.testBit_shiftRight, testBit_packData,
      h16, Nat.testBit_two_pow_sub_one]
    by_cases hi : i < 16
    · simp [hi,
        (show mv.testBit (16 + i) = false from
          testBit_of_lt_pow hmv (by omega)),
        (show 16 ≤ 16 + i by omega), (show ¬ (32 ≤ 16 + i) by omega),
        (show ¬ (40 ≤ 16 + i) by omega), (show ¬ (48 ≤ 16 + i) by omega),
        (show 16 + i - 16 = i by omega)]
    · simp [hi,
        (show (i16ToU16 s).testBit i = false from
          testBit_of_lt_pow hu (by omega))]
  · apply Nat.eq_of_testBit_eq
    intro i
    simp only [Nat.testBit_land, Nat.testBit_shiftRight, testBit_packData,
      h8, Nat.testBit_two_pow_sub_one]
    by_cases hi : i < 8
    · simp [hi,
        (show mv.testBit (32 + i) = false from
          testBit_of_lt_pow hmv (by omega)),
        (show (i16ToU16 s).testBit (32 + i - 16) = false from
          testBit_of_lt_pow hu (by omega)),
        (show 32 ≤ 32 + i by omega), (show ¬ (40 ≤ 32 + i) by omega),
        (show ¬ (48 ≤ 32 + i) by omega), (show 32 + i - 32 = i by omega)]
    · simp [hi,
        (show depth.testBit i = false from testBit_of_lt_pow hd (by omega))]
  · apply Nat.eq_of_testBit_eq
    intro i
    simp only [Nat.testBit_land, Nat.testBit_shiftRight, testBit_packData,
      h8, Nat.testBit_two_pow_sub_one]
    by_cases hi : i < 8
    · simp [hi,
        (show mv.testBit (40 + i) = false from
          testBit_of_lt_pow hmv (by omega)),
        (show (i16ToU16 s).testBit (40 + i - 16) = false from
          testBit_of_lt_pow hu (by omega)),
        (show depth.testBit (40 + i - 32) = false from
          testBit_of_lt_pow hd (by omega)),
        (show 40 ≤ 40 + i by omega), (show ¬ (48 ≤ 40 + i) by omega),
        (show 40 + i - 40 = i by omega)]
    · simp [hi,
        (show gen.testBit i = false from testBit_of_lt_pow hg (by omega))]
  · apply Nat.eq_of_testBit_eq
    intro i
    simp only [Nat.testBit_land, Nat.testBit_shiftRight, testBit_packData,
      h8, Nat.testBit_two_pow_sub_one]
    by_cases hi : i < 8
    · simp [hi,
        (show mv.testBit (48 + i) = false from
          testBit_of_lt_pow hmv (by omega)),
        (show (i16ToU16 s).testBit (48 + i - 16) = false from
          testBit_of_lt_pow hu (by omega)),
        (show depth.testBit (48 + i - 32) = false from
          testBit_of_lt_pow hd (by omega)),
        (show gen.testBit (48 + i - 40) = false from
          testBit_of_lt_pow hg (by omega)),
        (show 48 ≤ 48 + i by omega), (show 48 + i - 48 = i by omega)]
    · simp [hi,
        (show flag.testBit i = false from testBit_of_lt_pow hfl (by omega))]

theorem readE_some {e : TTEntryM} {v : Nat × Nat × Int × Nat × Nat × Nat}
    (h : readE e = some v) : e.key = v.1 ∧ e.key ≠ 0 := by
  unfold readE at h
  split at h
  · cases h
  · next hk => cases h; exact ⟨rfl, hk⟩

theorem storeScan_mem (cl : Nat → TTEntryM) (k gen : Nat) :
    ∀ (L : List Nat) (ri : Nat) (worst : Int),
      (storeScan cl k gen L ri worst).1 ∈ L ∨
      (storeScan cl k gen L ri worst).1 = ri := by
  intro L
  induction L with
  | nil => intro ri worst; simp [storeScan]
  | cons i rest ih =>
    intro ri worst
    unfold storeScan
    cases hre : readE (cl i) with
    | none => simp
    | some v =>
      obtain ⟨sk, mv2, sc2, sd, sg, fl2⟩ := v
      by_cases hsk : sk = k
      · simp [hsk]
      · simp only [hsk, if_false]
        have hmem : ∀ (ri2 : Nat) (w2 : Int),
            (storeScan cl k gen rest ri2 w2).1 ∈ i :: rest ∨
            (storeScan cl k gen rest ri2 w2).1 = ri2 := by
          intro ri2 w2
          rcases ih ri2 w2 with h | h
          · exact Or.inl (List.mem_cons_of_mem _ h)
          · exact Or.inr h
        split <;> split
        · rcases hmem i _ with h | h
          · exact Or.inl h
          · exact Or.inl (by rw [h]; exact List.mem_cons_self _ _)
        · rcases hmem ri worst with h | h
          · exact Or.inl h
          · exact Or.inr h
        · rcases hmem i _ with h | h
          · exact Or.inl h
          · exact Or.inl (by rw [h]; exact List.mem_cons_self _ _)
        · rcases hmem ri worst with h | h
          · exact Or.inl h
          · exact Or.inr h

theorem storeScan_prefix (cl : Nat → TTEntryM) (k gen : Nat) :
    ∀ (L : List Nat) (ri : Nat) (worst : Int) (j : Nat) (fnd : Bool),
      storeScan cl k gen L ri worst = (j, fnd) →
      ∀ x ∈ L.takeWhile (fun i => i != j),
        (cl x).key ≠ 0 ∧ (cl x).key ≠ k := by
  intro L
  induction L with
  | nil => intro ri worst j fnd hscan x hx; simp at hx
  | cons i rest ih =>
    intro ri worst j fnd hscan x hx
    unfold storeScan at hscan
    cases hre : readE (cl i) with
    | none =>
      rw [hre] at hscan
      have hij : i = j := congrArg Prod.fst hscan
      rw [List.takeWhile_cons, if_neg (by simp [hij])] at hx
      simp at hx
    | some v =>
      obtain ⟨sk, mv2, sc2, sd, sg, fl2⟩ := v
      rw [hre] at hscan
      by_cases hsk : sk = k
      · simp only [hsk, if_true, if_pos rfl] at hscan
        have hij : i = j := congrArg Prod.fst hscan
        rw [List.takeWhile_cons, if_neg (by simp [hij])] at hx
        simp at hx
      · simp only [hsk, if_false] at hscan
        have hrec : ∀ y ∈ rest.takeWhile (fun i2 => i2 != j),
            (cl y).key ≠ 0 ∧ (cl y).key ≠ k := by
          split at hscan <;> split at hscan
          · exact ih i _ j fnd hscan
          · exact ih ri worst j fnd hscan
          · exact ih i _ j fnd hscan
          · exact ih ri worst j fnd hscan
        by_cases hij : i = j
        · rw [List.takeWhile_cons, if_neg (by simp [hij])] at hx
          simp at hx
        · rw [List.takeWhile_cons, if_pos (by simp [hij])] at hx
          rcases List.mem_cons.mp hx with rfl | hx2
          · have hk2 := readE_some hre
            have hks : (cl x).key = sk := hk2.1
            exact ⟨hk2.2, fun hc => hsk (by rw [← hks]; exact hc)⟩
          · exact hrec x hx2

theorem probeScan_found (cl2 : Nat → TTEntryM) (k : Nat) :
    ∀ (L : List Nat) (j : Nat), j ∈ L →
      (∀ x ∈ L.takeWhile (fun i => i != j), (cl2 x).key ≠ k) →
      (cl2 j).key = k → k ≠ 0 →
      probeScan cl2 k L =
        some ((unpackData (cl2 j).data).1, (unpackData (cl2 j).data).2.1,
          (unpackData (cl2 j).data).2.2.1,
          (match (unpackData (cl2 j).data).2.2.2.2 with
           | 0 => TTFlag.Exact
           | 1 => TTFlag.Alpha
           | _ => TTFlag.Beta)) := by
  intro L
  induction L with
  | nil => intro j hj; simp at hj
  | cons i rest ih =>
    intro j hj hbefore hkey hk0
    by_cases hij : i = j
    · subst hij
      unfold probeScan readE
      rw [if_neg (by rw [hkey]; exact hk0), hkey]
      simp [unpackData]
    · have hinej : (i != j) = true := by simp [hij]
      have hikey : (cl2 i).key ≠ k := by
        apply hbefore
        rw [List.takeWhile_cons, if_pos hinej]
        exact List.mem_cons_self _ _
      have hrest : ∀ x ∈ rest.takeWhile (fun i2 => i2 != j),
          (cl2 x).key ≠ k := by
        intro x hx
        apply hbefore
        rw [List.takeWhile_cons, if_pos hinej]
        exact List.mem_cons_of_mem _ hx
      have hjrest : j ∈ rest := by
        rcases List.mem_cons.mp hj with h | h
        · exact absurd h.symm hij
        · exact h
      unfold probeScan
      cases hre : readE (cl2 i) with
      | none => exact ih j hjrest hrest hkey hk0
      | some v =>
        have hks : (cl2 i).key = v.1 := (readE_some hre).1
        obtain ⟨sk, mv2, sc2, sd, sg, fl2⟩ := v
        dsimp only
        rw [if_neg (by intro hc; exact hikey (by rw [hks]; exact hc))]
        exact ih j hjrest hrest hkey hk0

/-- C5, as stated, is false: the probe treats a zero key word as an empty
slot, so storing under the Zobrist key 0 (with a legal score) is
immediately followed by a probe miss. -/
theorem c5_counterexample :
    probe (store ttEmpty 0 (some 777) 123 9 TTFlag.Beta) 0 = none := by decide

/-- C5 amended: for every nonzero key and every entry carrying a real
move word (nonzero, as every generated move is) and a score of magnitude
at most 32000, a probe immediately after the store returns exactly the
entry just stored. -/
theorem c5_store_probe (tt : TTableM) (k mv : Nat) (score : Int)
    (depth : Nat) (flag : TTFlag) (hk : k ≠ 0) (hmv0 : mv ≠ 0)
    (hmv : mv < 2 ^ 16) (hs1 : -32000 ≤ score) (hs2 : score ≤ 32000)
    (hd : depth < 2 ^ 8) (hg : tt.generation < 2 ^ 8) :
    probe (store tt k (some mv) score depth flag) k =
      some (mv, score, depth, flag) := by
  unfold store probe
  simp only [Option.getD_some]
  set index := k &&& (tt.size - 1) with hidx
  set cl := tt.table index with hcl
  set scan := storeScan cl k tt.generation [0, 1, 2, 3] 0 (-(2 ^ 31))
    with hscan
  have hscan2 : storeScan cl k tt.generation [0, 1, 2, 3] 0 (-(2 ^ 31)) =
      (scan.1, scan.2) := rfl
  have hjmem : scan.1 ∈ [0, 1, 2, 3] := by
    rcases storeScan_mem cl k tt.generation [0, 1, 2, 3] 0 (-(2 ^ 31)) with
      h | h
    · exact h
    · rw [← hscan] at h; rw [h]; simp
  have hbefore := storeScan_prefix cl k tt.generation [0, 1, 2, 3] 0
    (-(2 ^ 31)) scan.1 scan.2 hscan2
  have hmvne : ¬ (scan.2 = true ∧ mv = 0) := fun hc => hmv0 hc.2
  simp only [hmvne, if_false]
  set cl2 : Nat → TTEntryM := fun ei =>
    if ei = scan.1 then
      ⟨k, packData mv (max (-32000) (min score 32000)) depth tt.generation
        flag.toU8⟩
    else cl ei with hcl2
  rw [if_pos trivial]
  have hclamp : max (-32000) (min score 32000) = score := by omega
  have hukey : (cl2 scan.1).key = k := by simp [hcl2]
  have hubefore : ∀ x ∈ List.takeWhile (fun i => i != scan.1) [0, 1, 2, 3],
      (cl2 x).key ≠ k := by
    intro x hx
    have hxne : x ≠ scan.1 := by
      have := List.takeWhile_prefix (l := [0, 1, 2, 3])
        (p := fun i => i != scan.1)
      have hpred := List.mem_takeWhile_imp hx
      simpa using hpred
    rw [hcl2]
    simp only [hxne, if_false]
    exact (hbefore x hx).2
  rw [probeScan_found cl2 k [0, 1, 2, 3] scan.1 hjmem hubefore hukey hk]
  have hdata : (cl2 scan.1).data =
      packData mv score depth tt.generation flag.toU8 := by
    simp [hcl2, hclamp]
  rw [hdata]
  have hflb : flag.toU8 < 2 ^ 8 := by cases flag <;> decide
  rw [unpack_pack hmv hd hg hflb]
  rw [i16_round_trip (by omega) (by omega)]
  cases flag <;> rfl

/-- Witness for `c5_store_probe` on an empty table. -/
theorem c5_store_probe_witness :
    (5 : Nat) ≠ 0 ∧ (777 : Nat) ≠ 0 ∧
    probe (store ttEmpty 5 (some 777) 123 9 TTFlag.Beta) 5 =
      some (777, 123, 9, TTFlag.Beta) :=
  ⟨by decide, by decide,
    c5_store_probe ttEmpty 5 777 123 9 TTFlag.Beta (by decide) (by decide)
      (by decide) (by decide) (by decide) (by decide) (by decide)⟩

/-! ## Claim C7 : SEE on quiet moves -/

/-- C7, as stated, is false: the quiet rook move a1-a4 on `bSee` has an
empty target square and is no en-passant capture, yet `see` returns
-500 (the rook is lost to the pawn on b5), not 0. -/
theorem c7_counterexample :
    pieceTypeOn bSee (toSq (mvNew 0 24 QUIET_MOVE_FLAG)) = none ∧
    flagOf (mvNew 0 24 QUIET_MOVE_FLAG) ≠ EN_PASSANT_CAPTURE_FLAG ∧
    see bSee (mvNew 0 24 QUIET_MOVE_FLAG) = -500 ∧
    see bSee (mvNew 0 24 QUIET_MOVE_FLAG) ≠ 0 := by decide

theorem pieceValue_pos (pt : PieceType) : 0 < pieceValue pt := by
  cases pt <;> decide

/-- C7 amended: `see` of a move whose target square is empty returns 0
whenever no piece of the opponent attacks the target square once the
moving piece is lifted off the board (the code otherwise values the
exchange that starts with the opponent capturing the moved piece). -/
theorem c7_see_quiet (b : Board) (m : Nat)
    (hvict : pieceTypeOn b (toSq m) = none)
    (hatt : (getLeastValuableAttacker b (toSq m)
      (b.occAll ^^^ (1 <<< fromSq m)) b.sideToMove.opp).1 = 0) :
    see b m = 0 := by
  unfold see
  dsimp only
  rw [hvict]
  have h40 : (40 : Nat) = 39 + 1 := rfl
  rw [h40]
  unfold seeGainLoop
  rw [if_neg (by simp)]
  simp only [hatt]
  rw [if_pos trivial]
  rfl

/-- Witness for `c7_see_quiet`: the quiet rook move a1-a2 on the board
with no black piece attacking a2. -/
theorem c7_see_quiet_witness :
    pieceTypeOn bSeeQuiet (toSq (mvNew 0 8 QUIET_MOVE_FLAG)) = none ∧
    (getLeastValuableAttacker bSeeQuiet (toSq (mvNew 0 8 QUIET_MOVE_FLAG))
      (bSeeQuiet.occAll ^^^ (1 <<< fromSq (mvNew 0 8 QUIET_MOVE_FLAG)))
      bSeeQuiet.sideToMove.opp).1 = 0 ∧
    see bSeeQuiet (mvNew 0 8 QUIET_MOVE_FLAG) = 0 :=
  ⟨by decide, by decide,
    c7_see_quiet bSeeQuiet (mvNew 0 8 QUIET_MOVE_FLAG) (by decide) (by decide)⟩

/-! ## Claim C2 : board invariants and the incremental hash -/

/-- C2 records (among true occupancy and disjointness invariants) that
the incrementally maintained `zobrist_hash` always equals the
from-scratch `calculate_zobrist_hash`.  The code violates this: after
the double push e2-e4 of the position `fenC2` (black pawn on d4), the
en-passant file key belongs in the recomputed hash (the black d4 pawn
can capture on e3), but `make_move` tests
`pawn_attacks(them, ep_sq) & pieces[Pawn][them]` - the wrong color's
attack table (board.rs line 446) - and fails to fold the key in.  With
key material `K1` that is zero except for the en-passant file keys, the
board reached from `from_fen(fenC2)` by the generated move e2e4 has
`zobrist_hash` different from its recomputation. -/
theorem c2_incremental_hash_diverges :
    (fromFen K1 fenC2).isSome = true ∧
    (mvNew 12 28 DOUBLE_PAWN_PUSH_FLAG ∈
      generatePseudoLegalMoves ((fromFen K1 fenC2).getD boardDefault)) ∧
    ((fromFen K1 fenC2).getD boardDefault).zobristHash =
      calculateZobristHash K1 ((fromFen K1 fenC2).getD boardDefault) ∧
    (makeMove K1 ((fromFen K1 fenC2).getD boardDefault)
        (mvNew 12 28 DOUBLE_PAWN_PUSH_FLAG)).1.zobristHash ≠
      calculateZobristHash K1
        (makeMove K1 ((fromFen K1 fenC2).getD boardDefault)
          (mvNew 12 28 DOUBLE_PAWN_PUSH_FLAG)).1 := by decide

/-! ## Lemma toolkit : bit lists and the least set bit -/

theorem bits_eq_nil {bb : Nat} (hlt : bb < 2 ^ 64) (h : bits bb = []) :
    bb = 0 := by
  apply Nat.eq_of_testBit_eq
  intro i
  rw [Nat.zero_testBit]
  by_cases hi : i < 64
  · by_contra htb
    have : i ∈ bits bb := mem_bits.mpr ⟨hi, by simpa using htb⟩
    rw [h] at this
    simp at this
  · exact testBit_ge_64 hlt (by omega)

theorem lsb_spec {bb : Nat} (hbb : bb ≠ 0) (hlt : bb < 2 ^ 64) :
    lsb bb < 64 ∧ bb.testBit (lsb bb) = true := by
  have hne : bits bb ≠ [] := fun h => hbb (bits_eq_nil hlt h)
  have hmem : lsb bb ∈ bits bb := by
    unfold lsb
    cases hbits : bits bb with
    | nil => exact absurd hbits hne
    | cons a l => simp
  exact mem_bits.mp hmem

theorem lsb_le_64 (bb : Nat) : lsb bb ≤ 64 := by
  unfold lsb
  cases hbits : bits bb with
  | nil => simp
  | cons a l =>
    have : a ∈ bits bb := by rw [hbits]; simp
    have := (mem_bits.mp this).1
    simp; omega

/-! ## Membership shapes of the move generators -/

theorem pawnPushMoves_elim {b : Board} {f m : Nat}
    (h : m ∈ pawnPushMoves b f) :
    (∃ t, m = mvNew f t QUIET_MOVE_FLAG ∧
      (f : Int) + pawnUp b.sideToMove = (t : Int) ∧ t < 64 ∧
      (1 <<< t) &&& b.occAll = 0) ∨
    (∃ t fl, m = mvNew f t fl ∧
      (fl = 8 ∨ fl = 9 ∨ fl = 10 ∨ fl = 11) ∧
      (f : Int) + pawnUp b.sideToMove = (t : Int) ∧ t < 64 ∧
      (1 <<< t) &&& b.occAll = 0) ∨
    (∃ t, m = mvNew f t DOUBLE_PAWN_PUSH_FLAG ∧
      (f : Int) + 2 * pawnUp b.sideToMove = (t : Int) ∧ t < 64 ∧
      (1 <<< t) &&& b.occAll = 0) := by
  simp only [pawnPushMoves] at h
  by_cases h1 : 0 ≤ (f : Int) + pawnUp b.sideToMove ∧
      (f : Int) + pawnUp b.sideToMove < 64
  case neg => rw [if_neg h1] at h; simp at h
  rw [if_pos h1] at h
  by_cases h2 :
      (1 <<< ((f : Int) + pawnUp b.sideToMove).toNat) &&& b.occAll = 0
  case neg => rw [if_neg h2] at h; simp at h
  rw [if_pos h2] at h
  rw [List.mem_append] at h
  rcases h with h | h
  · by_cases h3 : (1 <<< f) &&& rank7Of b.sideToMove ≠ 0
    · rw [if_pos h3] at h
      right; left
      refine ⟨((f : Int) + pawnUp b.sideToMove).toNat, ?_⟩
      simp only [List.mem_cons, List.not_mem_nil, or_false] at h
      rcases h with h | h | h | h
      · exact ⟨QUEEN_PROMOTION_FLAG, h, by decide, by omega, by omega, h2⟩
      · exact ⟨ROOK_PROMOTION_FLAG, h, by decide, by omega, by omega, h2⟩
      · exact ⟨BISHOP_PROMOTION_FLAG, h, by decide, by omega, by omega, h2⟩
      · exact ⟨KNIGHT_PROMOTION_FLAG, h, by decide, by omega, by omega, h2⟩
    · rw [if_neg h3] at h
      left
      simp only [List.mem_cons, List.not_mem_nil, or_false] at h
      exact ⟨((f : Int) + pawnUp b.sideToMove).toNat, h, by omega, by omega,
        h2⟩
  · by_cases h4 : (1 <<< f) &&& rank3Of b.sideToMove ≠ 0
    case neg => rw [if_neg h4] at h; simp at h
    rw [if_pos h4] at h
    by_cases h5 : 0 ≤ (f : Int) + 2 * pawnUp b.sideToMove ∧
        (f : Int) + 2 * pawnUp b.sideToMove < 64
    case neg => rw [if_neg h5] at h; simp at h
    rw [if_pos h5] at h
    by_cases h6 :
        (1 <<< ((f : Int) + 2 * pawnUp b.sideToMove).toNat) &&& b.occAll = 0
    case neg => rw [if_neg h6] at h; simp at h
    rw [if_pos h6] at h
    right; right
    simp only [List.mem_cons, List.not_mem_nil, or_false] at h
    exact ⟨((f : Int) + 2 * pawnUp b.sideToMove).toNat, h, by omega, by omega,
      h6⟩

theorem pawnCapMoves_elim {b : Board} {f m : Nat}
    (h : m ∈ pawnCapMoves b f) :
    ∃ t fl, m = mvNew f t fl ∧
      (fl = 4 ∨ fl = 12 ∨ fl = 13 ∨ fl = 14 ∨ fl = 15) ∧ t < 64 ∧
      (pawnAttacks b.sideToMove f &&& b.occ b.sideToMove.opp).testBit t =
        true := by
  simp only [pawnCapMoves, List.mem_flatMap] at h
  obtain ⟨t, ht, hmem⟩ := h
  have ht64 := (mem_bits.mp ht).1
  have htb := (mem_bits.mp ht).2
  refine ⟨t, ?_⟩
  by_cases h7 : (1 <<< f) &&& rank7Of b.sideToMove ≠ 0
  · rw [if_pos h7] at hmem
    simp only [List.mem_cons, List.not_mem_nil, or_false] at hmem
    rcases hmem with h | h | h | h
    · exact ⟨QUEEN_PROMOTION_CAPTURE_FLAG, h, by decide, ht64, htb⟩
    · exact ⟨ROOK_PROMOTION_CAPTURE_FLAG, h, by decide, ht64, htb⟩
    · exact ⟨BISHOP_PROMOTION_CAPTURE_FLAG, h, by decide, ht64, htb⟩
    · exact ⟨KNIGHT_PROMOTION_CAPTURE_FLAG, h, by decide, ht64, htb⟩
  · rw [if_neg h7] at hmem
    simp only [List.mem_cons, List.not_mem_nil, or_false] at hmem
    exact ⟨CAPTURE_FLAG, hmem, by decide, ht64, htb⟩

theorem pawnEpMoves_elim {b : Board} {f m : Nat}
    (h : m ∈ pawnEpMoves b f) :
    ∃ ep, m = mvNew f ep EN_PASSANT_CAPTURE_FLAG ∧ b.enPassant = some ep ∧
      pawnAttacks b.sideToMove f &&& (1 <<< ep) ≠ 0 := by
  unfold pawnEpMoves at h
  cases hep : b.enPassant with
  | none => rw [hep] at h; simp at h
  | some ep =>
    rw [hep] at h
    dsimp only at h
    by_cases h8 : pawnAttacks b.sideToMove f &&& (1 <<< ep) ≠ 0
    · rw [if_pos h8] at h
      simp only [List.mem_cons, List.not_mem_nil, or_false] at h
      exact ⟨ep, h, rfl, h8⟩
    · rw [if_neg h8] at h; simp at h

theorem knightMoves_elim {b : Board} {m : Nat}
    (h : m ∈ generateKnightMoves b) :
    ∃ f t fl, m = mvNew f t fl ∧ f < 64 ∧ t < 64 ∧ (fl = 0 ∨ fl = 4) ∧
      (b.pieces PieceType.Knight b.sideToMove).testBit f = true ∧
      (fl = 0 →
        (knightAttacks f &&& u64not (b.occ b.sideToMove) &&&
          u64not (b.occ b.sideToMove.opp)).testBit t = true) ∧
      (fl = 4 →
        (knightAttacks f &&& b.occ b.sideToMove.opp).testBit t = true) := by
  simp only [generateKnightMoves, List.mem_flatMap, List.mem_append,
    List.mem_map] at h
  obtain ⟨f, hf, h⟩ := h
  have hf64 := (mem_bits.mp hf).1
  have hfb := (mem_bits.mp hf).2
  rcases h with ⟨t, ht, rfl⟩ | ⟨t, ht, rfl⟩
  · exact ⟨f, t, QUIET_MOVE_FLAG, rfl, hf64, (mem_bits.mp ht).1,
      Or.inl rfl, hfb, fun _ => (mem_bits.mp ht).2,
      fun hc => absurd hc (by decide)⟩
  · exact ⟨f, t, CAPTURE_FLAG, rfl, hf64, (mem_bits.mp ht).1,
      Or.inr rfl, hfb, fun hc => absurd hc (by decide),
      fun _ => (mem_bits.mp ht).2⟩

theorem slidingMoves_elim {b : Board} {m : Nat}
    (h : m ∈ generateSlidingMoves b) :
    ∃ f t fl, m = mvNew f t fl ∧ f < 64 ∧ t < 64 ∧ (fl = 0 ∨ fl = 4) ∧
      ((b.pieces PieceType.Bishop b.sideToMove |||
        b.pieces PieceType.Queen b.sideToMove).testBit f = true ∨
       (b.pieces PieceType.Rook b.sideToMove |||
        b.pieces PieceType.Queen b.sideToMove).testBit f = true) ∧
      (fl = 0 → (u64not (b.occ b.sideToMove)).testBit t = true ∧
        (u64not (b.occ b.sideToMove.opp)).testBit t = true) ∧
      (fl = 4 → (b.occ b.sideToMove.opp).testBit t = true) := by
  simp only [generateSlidingMoves, List.mem_append, List.mem_flatMap] at h
  have hcore : ∀ (f att : Nat),
      m ∈ addSlidingMoves f (att &&& u64not (b.occ b.sideToMove))
        (b.occ b.sideToMove.opp) →
      ∃ t fl, m = mvNew f t fl ∧ t < 64 ∧ (fl = 0 ∨ fl = 4) ∧
        (fl = 0 → (u64not (b.occ b.sideToMove)).testBit t = true ∧
          (u64not (b.occ b.sideToMove.opp)).testBit t = true) ∧
        (fl = 4 → (b.occ b.sideToMove.opp).testBit t = true) := by
    intro f att hmem
    simp only [addSlidingMoves, List.mem_append, List.mem_map] at hmem
    rcases hmem with ⟨t, ht, rfl⟩ | ⟨t, ht, rfl⟩
    · have hb := (mem_bits.mp ht).2
      simp only [Nat.testBit_land, Bool.and_eq_true] at hb
      exact ⟨t, CAPTURE_FLAG, rfl, (mem_bits.mp ht).1, Or.inr rfl,
        fun hc => absurd hc (by decide), fun _ => hb.2⟩
    · have hb := (mem_bits.mp ht).2
      simp only [Nat.testBit_land, Bool.and_eq_true] at hb
      exact ⟨t, QUIET_MOVE_FLAG, rfl, (mem_bits.mp ht).1, Or.inl rfl,
        fun _ => ⟨hb.1.2, hb.2⟩, fun hc => absurd hc (by decide)⟩
  rcases h with ⟨f, hf, hmem⟩ | ⟨f, hf, hmem⟩
  · obtain ⟨t, fl, hm, ht, hfl, hq, hc⟩ := hcore f _ hmem
    exact ⟨f, t, fl, hm, (mem_bits.mp hf).1, ht, hfl,
      Or.inl (mem_bits.mp hf).2, hq, hc⟩
  · obtain ⟨t, fl, hm, ht, hfl, hq, hc⟩ := hcore f _ hmem
    exact ⟨f, t, fl, hm, (mem_bits.mp hf).1, ht, hfl,
      Or.inr (mem_bits.mp hf).2, hq, hc⟩

theorem kingMoves_elim {b : Board} {m : Nat}
    (h : m ∈ generateKingMoves b) :
    (∃ t, m = mvNew (lsb (b.pieces PieceType.King b.sideToMove)) t
        (if (1 <<< t) &&& b.occ b.sideToMove.opp ≠ 0 then CAPTURE_FLAG
         else QUIET_MOVE_FLAG) ∧ t < 64 ∧
      (kingAttacks (lsb (b.pieces PieceType.King b.sideToMove)) &&&
        u64not (b.occ b.sideToMove)).testBit t = true) ∨
    (isSquareAttacked b (lsb (b.pieces PieceType.King b.sideToMove))
        b.sideToMove.opp = false ∧
      ((b.sideToMove = Color.White ∧ m = mvNew 4 6 KING_CASTLE_FLAG ∧
        b.castlingRights &&& 1 ≠ 0 ∧ b.occAll &&& 0x60 = 0 ∧
        ¬ isSquareAttacked b 5 b.sideToMove.opp ∧
        ¬ isSquareAttacked b 6 b.sideToMove.opp) ∨
       (b.sideToMove = Color.White ∧ m = mvNew 4 2 QUEEN_CASTLE_FLAG ∧
        b.castlingRights &&& 2 ≠ 0 ∧ b.occAll &&& 0xE = 0 ∧
        ¬ isSquareAttacked b 3 b.sideToMove.opp ∧
        ¬ isSquareAttacked b 2 b.sideToMove.opp) ∨
       (b.sideToMove = Color.Black ∧ m = mvNew 60 62 KING_CASTLE_FLAG ∧
        b.castlingRights &&& 4 ≠ 0 ∧ b.occAll &&& 0x6000000000000000 = 0 ∧
        ¬ isSquareAttacked b 61 b.sideToMove.opp ∧
        ¬ isSquareAttacked b 62 b.sideToMove.opp) ∨
       (b.sideToMove = Color.Black ∧ m = mvNew 60 58 QUEEN_CASTLE_FLAG ∧
        b.castlingRights &&& 8 ≠ 0 ∧ b.occAll &&& 0xE00000000000000 = 0 ∧
        ¬ isSquareAttacked b 59 b.sideToMove.opp ∧
        ¬ isSquareAttacked b 58 b.sideToMove.opp))) := by
  simp only [generateKingMoves] at h
  by_cases hchk : isSquareAttacked b
      (lsb (b.pieces PieceType.King b.sideToMove)) b.sideToMove.opp
  · rw [if_pos hchk] at h
    left
    simp only [List.mem_map] at h
    obtain ⟨t, ht, rfl⟩ := h
    exact ⟨t, rfl, (mem_bits.mp ht).1, (mem_bits.mp ht).2⟩
  · rw [if_neg hchk] at h
    rw [List.mem_append] at h
    rcases h with h | h
    · left
      simp only [List.mem_map] at h
      obtain ⟨t, ht, rfl⟩ := h
      exact ⟨t, rfl, (mem_bits.mp ht).1, (mem_bits.mp ht).2⟩
    · right
      refine ⟨by simpa using hchk, ?_⟩
      cases hus : b.sideToMove with
      | White =>
        rw [hus] at h
        dsimp only at h
        rw [List.mem_append] at h
        rcases h with h | h
        · left
          by_cases hc : b.castlingRights &&& 1 ≠ 0 ∧ b.occAll &&& 0x60 = 0 ∧
              ¬ isSquareAttacked b 5 Color.White.opp ∧
              ¬ isSquareAttacked b 6 Color.White.opp
          · rw [if_pos hc] at h
            simp only [List.mem_cons, List.not_mem_nil, or_false] at h
            exact ⟨rfl, h, hc.1, hc.2.1, hc.2.2.1, hc.2.2.2⟩
          · rw [if_neg hc] at h; simp at h
        · right; left
          by_cases hc : b.castlingRights &&& 2 ≠ 0 ∧ b.occAll &&& 0xE = 0 ∧
              ¬ isSquareAttacked b 3 Color.White.opp ∧
              ¬ isSquareAttacked b 2 Color.White.opp
          · rw [if_pos hc] at h
            simp only [List.mem_cons, List.not_mem_nil, or_false] at h
            exact ⟨rfl, h, hc.1, hc.2.1, hc.2.2.1, hc.2.2.2⟩
          · rw [if_neg hc] at h; simp at h
      | Black =>
        rw [hus] at h
        dsimp only at h
        rw [List.mem_append] at h
        rcases h with h | h
        · right; right; left
          by_cases hc : b.castlingRights &&& 4 ≠ 0 ∧
              b.occAll &&& 0x6000000000000000 = 0 ∧
              ¬ isSquareAttacked b 61 Color.Black.opp ∧
              ¬ isSquareAttacked b 62 Color.Black.opp
          · rw [if_pos hc] at h
            simp only [List.mem_cons, List.not_mem_nil, or_false] at h
            exact ⟨rfl, h, hc.1, hc.2.1, hc.2.2.1, hc.2.2.2⟩
          · rw [if_neg hc] at h; simp at h
        · right; right; right
          by_cases hc : b.castlingRights &&& 8 ≠ 0 ∧
              b.occAll &&& 0xE00000000000000 = 0 ∧
              ¬ isSquareAttacked b 59 Color.Black.opp ∧
              ¬ isSquareAttacked b 58 Color.Black.opp
          · rw [if_pos hc] at h
            simp only [List.mem_cons, List.not_mem_nil, or_false] at h
            exact ⟨rfl, h, hc.1, hc.2.1, hc.2.2.1, hc.2.2.2⟩
          · rw [if_neg hc] at h; simp at h

/-! ## Claim C4 : castling generation conditions -/

theorem flagOf_eq_of_eq_mvNew {v f t fl : Nat} (h : v = mvNew f t fl)
    (hf : f < 4096) (ht : t < 64) (hfl : fl < 16) : flagOf v = fl := by
  rw [h]; exact flagOf_mvNew hf ht hfl

theorem epMv_ne_castles {f ep : Nat} (hf : f < 4096) :
    mvNew f ep EN_PASSANT_CAPTURE_FLAG ≠ mvNew 4 6 KING_CASTLE_FLAG ∧
    mvNew f ep EN_PASSANT_CAPTURE_FLAG ≠ mvNew 4 2 QUEEN_CASTLE_FLAG ∧
    mvNew f ep EN_PASSANT_CAPTURE_FLAG ≠ mvNew 60 62 KING_CASTLE_FLAG ∧
    mvNew f ep EN_PASSANT_CAPTURE_FLAG ≠ mvNew 60 58 QUEEN_CASTLE_FLAG := by
  have h12 : (mvNew f ep EN_PASSANT_CAPTURE_FLAG).testBit 12 = true := by
    rw [testBit_mvNew]
    simp [testBit_of_lt_pow hf (le_refl 12),
      (show (EN_PASSANT_CAPTURE_FLAG).testBit 0 = true from by decide)]
  have h14 : (mvNew f ep EN_PASSANT_CAPTURE_FLAG).testBit 14 = true := by
    rw [testBit_mvNew]
    simp [testBit_of_lt_pow hf (by omega : 12 ≤ 14),
      (show (EN_PASSANT_CAPTURE_FLAG).testBit 2 = true from by decide)]
  refine ⟨fun hc => ?_, fun hc => ?_, fun hc => ?_, fun hc => ?_⟩
  · rw [hc] at h12; exact absurd h12 (by decide)
  · rw [hc] at h14; exact absurd h14 (by decide)
  · rw [hc] at h12; exact absurd h12 (by decide)
  · rw [hc] at h14; exact absurd h14 (by decide)

/-- No pawn-generated move is one of the four castle move words. -/
theorem pawn_not_castle {b : Board} {m : Nat}
    (h : m ∈ generatePawnMoves b) :
    m ≠ mvNew 4 6 KING_CASTLE_FLAG ∧ m ≠ mvNew 4 2 QUEEN_CASTLE_FLAG ∧
    m ≠ mvNew 60 62 KING_CASTLE_FLAG ∧ m ≠ mvNew 60 58 QUEEN_CASTLE_FLAG := by
  simp only [generatePawnMoves, List.mem_flatMap] at h
  obtain ⟨f, hf, h⟩ := h
  have hf64 := (mem_bits.mp hf).1
  have hflag : flagOf m ≠ 2 ∧ flagOf m ≠ 3 ∨
      (∃ ep, m = mvNew f ep EN_PASSANT_CAPTURE_FLAG) := by
    simp only [pawnMovesFrom, List.mem_append] at h
    rcases h with (h | h) | h
    · rcases pawnPushMoves_elim h with ⟨t, hm, _, ht, _⟩ |
        ⟨t, fl, hm, hfl, _, ht, _⟩ | ⟨t, hm, _, ht, _⟩
      · have := flagOf_eq_of_eq_mvNew hm (by omega) ht (by decide)
        simp only [QUIET_MOVE_FLAG] at this
        left; omega
      · have := flagOf_eq_of_eq_mvNew hm (by omega) ht (by omega)
        rcases hfl with rfl | rfl | rfl | rfl <;> (left; omega)
      · have := flagOf_eq_of_eq_mvNew hm (by omega) ht (by decide)
        simp only [DOUBLE_PAWN_PUSH_FLAG] at this
        left; omega
    · rcases pawnCapMoves_elim h with ⟨t, fl, hm, hfl, ht, _⟩
      have := flagOf_eq_of_eq_mvNew hm (by omega) ht (by omega)
      rcases hfl with rfl | rfl | rfl | rfl | rfl <;> (left; omega)
    · rcases pawnEpMoves_elim h with ⟨ep, hm, _, _⟩
      right; exact ⟨ep, hm⟩
  rcases hflag with ⟨h2, h3⟩ | ⟨ep, hm⟩
  · refine ⟨fun hc => ?_, fun hc => ?_, fun hc => ?_, fun hc => ?_⟩
    · exact h2 (by rw [hc]; decide)
    · exact h3 (by rw [hc]; decide)
    · exact h2 (by rw [hc]; decide)
    · exact h3 (by rw [hc]; decide)
  · rw [hm]; exact epMv_ne_castles (by omega)

/-- No knight- or slider-generated move and no normal king move is one of
the four castle move words. -/
theorem flag04_not_castle {m f t fl : Nat} (hf : f < 4096) (ht : t < 64)
    (hfl : fl = 0 ∨ fl = 4) (hm : m = mvNew f t fl) :
    m ≠ mvNew 4 6 KING_CASTLE_FLAG ∧ m ≠ mvNew 4 2 QUEEN_CASTLE_FLAG ∧
    m ≠ mvNew 60 62 KING_CASTLE_FLAG ∧ m ≠ mvNew 60 58 QUEEN_CASTLE_FLAG := by
  have hfl16 : fl < 16 := by omega
  have h1 := flagOf_eq_of_eq_mvNew hm hf ht hfl16
  refine ⟨fun hc => ?_, fun hc => ?_, fun hc => ?_, fun hc => ?_⟩ <;>
    rw [hc] at h1
  · rw [show flagOf (mvNew 4 6 KING_CASTLE_FLAG) = 2 from by decide] at h1
    omega
  · rw [show flagOf (mvNew 4 2 QUEEN_CASTLE_FLAG) = 3 from by decide] at h1
    omega
  · rw [show flagOf (mvNew 60 62 KING_CASTLE_FLAG) = 2 from by decide] at h1
    omega
  · rw [show flagOf (mvNew 60 58 QUEEN_CASTLE_FLAG) = 3 from by decide] at h1
    omega

/-- C4: a castling move is emitted if and only if the corresponding right
is set, the squares between king and rook are empty, the king is not in
check, and the two squares the king crosses (transit and destination; the
queen-side b-file square is not attack-checked) are not attacked.  Stated
for both colors and both wings over the exact code conditions. -/
theorem c4_castling_iff (b : Board) :
    (b.sideToMove = Color.White →
      ((mvNew 4 6 KING_CASTLE_FLAG ∈ generatePseudoLegalMoves b) ↔
        (b.castlingRights &&& 1 ≠ 0 ∧ b.occAll &&& 0x60 = 0 ∧
         isSquareAttacked b (lsb (b.pieces PieceType.King b.sideToMove))
           b.sideToMove.opp = false ∧
         isSquareAttacked b 5 b.sideToMove.opp = false ∧
         isSquareAttacked b 6 b.sideToMove.opp = false)) ∧
      ((mvNew 4 2 QUEEN_CASTLE_FLAG ∈ generatePseudoLegalMoves b) ↔
        (b.castlingRights &&& 2 ≠ 0 ∧ b.occAll &&& 0xE = 0 ∧
         isSquareAttacked b (lsb (b.pieces PieceType.King b.sideToMove))
           b.sideToMove.opp = false ∧
         isSquareAttacked b 3 b.sideToMove.opp = false ∧
         isSquareAttacked b 2 b.sideToMove.opp = false))) ∧
    (b.sideToMove = Color.Black →
      ((mvNew 60 62 KING_CASTLE_FLAG ∈ generatePseudoLegalMoves b) ↔
        (b.castlingRights &&& 4 ≠ 0 ∧
         b.occAll &&& 0x6000000000000000 = 0 ∧
         isSquareAttacked b (lsb (b.pieces PieceType.King b.sideToMove))
           b.sideToMove.opp = false ∧
         isSquareAttacked b 61 b.sideToMove.opp = false ∧
         isSquareAttacked b 62 b.sideToMove.opp = false)) ∧
      ((mvNew 60 58 QUEEN_CASTLE_FLAG ∈ generatePseudoLegalMoves b) ↔
        (b.castlingRights &&& 8 ≠ 0 ∧
         b.occAll &&& 0xE00000000000000 = 0 ∧
         isSquareAttacked b (lsb (b.pieces PieceType.King b.sideToMove))
           b.sideToMove.opp = false ∧
         isSquareAttacked b 59 b.sideToMove.opp = false ∧
         isSquareAttacked b 58 b.sideToMove.opp = false))) := by
  have hks : lsb (b.pieces PieceType.King b.sideToMove) < 4096 := by
    have := lsb_le_64 (b.pieces PieceType.King b.sideToMove)
    omega
  have fwd : ∀ v, v ∈ generatePseudoLegalMoves b →
      (v ≠ mvNew 4 6 KING_CASTLE_FLAG ∧ v ≠ mvNew 4 2 QUEEN_CASTLE_FLAG ∧
       v ≠ mvNew 60 62 KING_CASTLE_FLAG ∧
       v ≠ mvNew 60 58 QUEEN_CASTLE_FLAG) ∨
      (isSquareAttacked b (lsb (b.pieces PieceType.King b.sideToMove))
          b.sideToMove.opp = false ∧
        ((b.sideToMove = Color.White ∧ v = mvNew 4 6 KING_CASTLE_FLAG ∧
          b.castlingRights &&& 1 ≠ 0 ∧ b.occAll &&& 0x60 = 0 ∧
          ¬ isSquareAttacked b 5 b.sideToMove.opp ∧
          ¬ isSquareAttacked b 6 b.sideToMove.opp) ∨
         (b.sideToMove = Color.White ∧ v = mvNew 4 2 QUEEN_CASTLE_FLAG ∧
          b.castlingRights &&& 2 ≠ 0 ∧ b.occAll &&& 0xE = 0 ∧
          ¬ isSquareAttacked b 3 b.sideToMove.opp ∧
          ¬ isSquareAttacked b 2 b.sideToMove.opp) ∨
         (b.sideToMove = Color.Black ∧ v = mvNew 60 62 KING_CASTLE_FLAG ∧
          b.castlingRights &&& 4 ≠ 0 ∧
          b.occAll &&& 0x6000000000000000 = 0 ∧
          ¬ isSquareAttacked b 61 b.sideToMove.opp ∧
          ¬ isSquareAttacked b 62 b.sideToMove.opp) ∨
         (b.sideToMove = Color.Black ∧ v = mvNew 60 58 QUEEN_CASTLE_FLAG ∧
          b.castlingRights &&& 8 ≠ 0 ∧
          b.occAll &&& 0xE00000000000000 = 0 ∧
          ¬ isSquareAttacked b 59 b.sideToMove.opp ∧
          ¬ isSquareAttacked b 58 b.sideToMove.opp))) := by
    intro v hv
    simp only [generatePseudoLegalMoves, List.mem_append] at hv
    rcases hv with ((hv | hv) | hv) | hv
    · exact Or.inl (pawn_not_castle hv)
    · obtain ⟨f, t, fl, hm, hf, ht, hfl, _⟩ := knightMoves_elim hv
      exact Or.inl (flag04_not_castle (by omega) ht hfl hm)
    · rcases kingMoves_elim hv with ⟨t, hm, ht, _⟩ | ⟨hchk, hcase⟩
      · left
        by_cases hcap : (1 <<< t) &&& b.occ b.sideToMove.opp ≠ 0
        · rw [if_pos hcap] at hm
          exact flag04_not_castle hks ht (Or.inr rfl) hm
        · rw [if_neg hcap] at hm
          exact flag04_not_castle hks ht (Or.inl rfl) hm
      · exact Or.inr ⟨hchk, hcase⟩
    · obtain ⟨f, t, fl, hm, hf, ht, hfl, _⟩ := slidingMoves_elim hv
      exact Or.inl (flag04_not_castle (by omega) ht hfl hm)
  have mkking : ∀ v, v ∈ generateKingMoves b →
      v ∈ generatePseudoLegalMoves b := by
    intro v hv
    exact List.mem_append_left _ (List.mem_append_right _ hv)
  constructor
  · intro hus
    constructor
    · constructor
      · intro h
        rcases fwd _ h with hne | ⟨hchk, hcase⟩
        · exact absurd rfl hne.1
        · rcases hcase with ⟨_, _, hr, hemp, h5, h6⟩ | ⟨_, hmv, _⟩ |
            ⟨hstm, _⟩ | ⟨hstm, _⟩
          · exact ⟨hr, hemp, hchk, by simpa using h5, by simpa using h6⟩
          · exact absurd hmv (by decide)
          · rw [hus] at hstm; cases hstm
          · rw [hus] at hstm; cases hstm
      · rintro ⟨hr, hemp, hchk, h5, h6⟩
        apply mkking
        simp only [generateKingMoves]
        rw [if_neg (by simp [hchk])]
        apply List.mem_append_right
        rw [hus]
        dsimp only
        apply List.mem_append_left
        rw [hus] at h5 h6
        rw [if_pos ⟨hr, hemp, by simp [h5], by simp [h6]⟩]
        exact List.mem_cons_self _ _
    · constructor
      · intro h
        rcases fwd _ h with hne | ⟨hchk, hcase⟩
        · exact absurd rfl hne.2.1
        · rcases hcase with ⟨_, hmv, _⟩ | ⟨_, _, hr, hemp, h3, h2⟩ |
            ⟨hstm, _⟩ | ⟨hstm, _⟩
          · exact absurd hmv (by decide)
          · exact ⟨hr, hemp, hchk, by simpa using h3, by simpa using h2⟩
          · rw [hus] at hstm; cases hstm
          · rw [hus] at hstm; cases hstm
      · rintro ⟨hr, hemp, hchk, h3, h2⟩
        apply mkking
        simp only [generateKingMoves]
        rw [if_neg (by simp [hchk])]
        apply List.mem_append_right
        rw [hus]
        dsimp only
        apply List.mem_append_right
        rw [hus] at h3 h2
        rw [if_pos ⟨hr, hemp, by simp [h3], by simp [h2]⟩]
        exact List.mem_cons_self _ _
  · intro hus
    constructor
    · constructor
      · intro h
        rcases fwd _ h with hne | ⟨hchk, hcase⟩
        · exact absurd rfl hne.2.2.1
        · rcases hcase with ⟨hstm, _⟩ | ⟨hstm, _⟩ |
            ⟨_, _, hr, hemp, h61, h62⟩ | ⟨_, hmv, _⟩
          · rw [hus] at hstm; cases hstm
          · rw [hus] at hstm; cases hstm
          · exact ⟨hr, hemp, hchk, by simpa using h61, by simpa using h62⟩
          · exact absurd hmv (by decide)
      · rintro ⟨hr, hemp, hchk, h61, h62⟩
        apply mkking
        simp only [generateKingMoves]
        rw [if_neg (by simp [hchk])]
        apply List.mem_append_right
        rw [hus]
        dsimp only
        apply List.mem_append_left
        rw [hus] at h61 h62
        rw [if_pos ⟨hr, hemp, by simp [h61], by simp [h62]⟩]
        exact List.mem_cons_self _ _
    · constructor
      · intro h
        rcases fwd _ h with hne | ⟨hchk, hcase⟩
        · exact absurd rfl hne.2.2.2
        · rcases hcase with ⟨hstm, _⟩ | ⟨hstm, _⟩ | ⟨_, hmv, _⟩ |
            ⟨_, _, hr, hemp, h59, h58⟩
          · rw [hus] at hstm; cases hstm
          · rw [hus] at hstm; cases hstm
          · exact absurd hmv (by decide)
          · exact ⟨hr, hemp, hchk, by simpa using h59, by simpa using h58⟩
      · rintro ⟨hr, hemp, hchk, h59, h58⟩
        apply mkking
        simp only [generateKingMoves]
        rw [if_neg (by simp [hchk])]
        apply List.mem_append_right
        rw [hus]
        dsimp only
        apply List.mem_append_right
        rw [hus] at h59 h58
        rw [if_pos ⟨hr, hemp, by simp [h59], by simp [h58]⟩]
        exact List.mem_cons_self _ _

/-- Witness for `c4_castling_iff`: on `bCastle` (white king e1, rook h1,
right K, black king e8) the king-side castle e1g1 is generated. -/
theorem c4_castling_iff_witness :
    bCastle.sideToMove = Color.White ∧
    mvNew 4 6 KING_CASTLE_FLAG ∈ generatePseudoLegalMoves bCastle :=
  ⟨rfl, ((c4_castling_iff bCastle).1 rfl).1.mpr (by decide)⟩

/-! ## Claim C8 : the quiescence candidate moves -/

theorem isCapture_of_testBit14 {m : Nat} (h : m.testBit 14 = true) :
    isCapture m = true := by
  simp only [isCapture, bne_iff_ne, ne_eq]
  intro h0
  have h2 : (flagOf m &&& 4).testBit 2 = true := by
    simp only [Nat.testBit_land, flagOf, Nat.testBit_shiftRight]
    rw [show (0xF : Nat) = 2 ^ 4 - 1 from by norm_num,
      Nat.testBit_two_pow_sub_one]
    simp [show (12 + 2 : Nat) = 14 from rfl, h]
    decide
  rw [h0] at h2
  simp at h2

theorem land_one_shiftLeft_ne {t y : Nat} :
    (1 <<< t) &&& y ≠ 0 ↔ y.testBit t = true := by
  constructor
  · intro h
    by_contra htb
    apply h
    apply Nat.eq_of_testBit_eq
    intro i
    simp only [Nat.testBit_land, testBit_one_shiftLeft, Nat.zero_testBit]
    by_cases hi : t = i
    · subst hi; simp [Bool.eq_false_iff.mpr htb]
    · simp [hi]
  · intro h h0
    have : ((1 <<< t) &&& y).testBit t = true := by
      simp [Nat.testBit_land, testBit_one_shiftLeft, h]
    rw [h0] at this
    simp at this

theorem bits_congr {x y : Nat} (h : ∀ s, s < 64 → x.testBit s = y.testBit s) :
    bits x = bits y := by
  unfold bits
  apply List.filter_congr
  intro s hs
  exact h s (List.mem_range.mp hs)

/-- In the presence of disjoint bounded occupancies, masking slider
attacks by the complement of own pieces does not change their
intersection with enemy pieces. -/
theorem att_mask_their {att our their : Nat}
    (hdisj : our &&& their = 0) :
    bits ((att &&& u64not our) &&& their) = bits (att &&& their) := by
  apply bits_congr
  intro s hs
  simp only [Nat.testBit_land, testBit_u64not]
  by_cases hth : their.testBit s
  · have hno : our.testBit s = false := by
      by_contra hyes
      simp only [Bool.not_eq_false] at hyes
      have : (our &&& their).testBit s = true := by
        simp [Nat.testBit_land, hth, hyes]
      rw [hdisj] at this
      simp at this
    simp [hth, hno, hs]
  · simp [Bool.eq_false_iff.mpr hth]

theorem disj_their_our {b : Board} (hdisj :
    b.occ Color.White &&& b.occ Color.Black = 0) :
    b.occ b.sideToMove &&& b.occ b.sideToMove.opp = 0 := by
  cases hus : b.sideToMove
  · simpa using hdisj
  · simp only [Color.opp]
    apply Nat.eq_of_testBit_eq
    intro i
    have := congrArg (fun x => x.testBit i) hdisj
    simp only [Nat.testBit_land, Nat.zero_testBit] at this ⊢
    rw [Bool.and_comm]
    exact this

theorem our_clear_of_their {b : Board} {t : Nat}
    (hdisj : b.occ Color.White &&& b.occ Color.Black = 0)
    (hth : (b.occ b.sideToMove.opp).testBit t = true) :
    (b.occ b.sideToMove).testBit t = false := by
  have h := disj_their_our hdisj
  by_contra hyes
  simp only [Bool.not_eq_false] at hyes
  have : (b.occ b.sideToMove &&& b.occ b.sideToMove.opp).testBit t = true := by
    simp [Nat.testBit_land, hth, hyes]
  rw [h] at this
  simp at this

theorem pawn_captures_iff {b : Board} {m : Nat} :
    m ∈ generatePawnCaptures b ↔
      m ∈ generatePawnMoves b ∧ isCapture m = true := by
  simp only [generatePawnCaptures, generatePawnMoves, List.mem_flatMap]
  constructor
  · rintro ⟨f, hf, hmem⟩
    have hf64 := (mem_bits.mp hf).1
    refine ⟨⟨f, hf, ?_⟩, ?_⟩
    · simp only [pawnMovesFrom, pawnCapturesFrom, List.mem_append] at hmem ⊢
      tauto
    · simp only [pawnCapturesFrom, List.mem_append] at hmem
      rcases hmem with hmem | hmem
      · obtain ⟨t, fl, hm, hfl, ht, _⟩ := pawnCapMoves_elim hmem
        rw [hm, isCapture_mvNew (by omega) ht (by omega)]
        rcases hfl with rfl | rfl | rfl | rfl | rfl <;> decide
      · obtain ⟨ep, hm, _, _⟩ := pawnEpMoves_elim hmem
        apply isCapture_of_testBit14
        rw [hm, testBit_mvNew]
        simp [(show f.testBit 14 = false from
            testBit_of_lt_pow (show f < 2 ^ 12 by omega) (by omega)),
          (show (EN_PASSANT_CAPTURE_FLAG).testBit 2 = true from by decide)]
  · rintro ⟨⟨f, hf, hmem⟩, hcap⟩
    have hf64 := (mem_bits.mp hf).1
    refine ⟨f, hf, ?_⟩
    simp only [pawnMovesFrom, pawnCapturesFrom, List.mem_append] at hmem ⊢
    rcases hmem with (hmem | hmem) | hmem
    · exfalso
      rcases pawnPushMoves_elim hmem with ⟨t, hm, _, ht, _⟩ |
        ⟨t, fl, hm, hfl, _, ht, _⟩ | ⟨t, hm, _, ht, _⟩
      · rw [hm, isCapture_mvNew (by omega) ht (by decide)] at hcap
        revert hcap; decide
      · rw [hm, isCapture_mvNew (by omega) ht (by omega)] at hcap
        rcases hfl with rfl | rfl | rfl | rfl <;> revert hcap <;> decide
      · rw [hm, isCapture_mvNew (by omega) ht (by decide)] at hcap
        revert hcap; decide
    · exact Or.inl hmem
    · exact Or.inr hmem

theorem knight_captures_iff {b : Board} {m : Nat} :
    m ∈ generateKnightCaptures b ↔
      m ∈ generateKnightMoves b ∧ isCapture m = true := by
  simp only [generateKnightCaptures, generateKnightMoves, List.mem_flatMap]
  constructor
  · rintro ⟨f, hf, hmem⟩
    have hf64 := (mem_bits.mp hf).1
    simp only [List.mem_map] at hmem
    obtain ⟨t, ht, rfl⟩ := hmem
    have ht64 := (mem_bits.mp ht).1
    refine ⟨⟨f, hf, ?_⟩, ?_⟩
    · rw [List.mem_append]
      right
      simp only [List.mem_map]
      exact ⟨t, ht, rfl⟩
    · rw [isCapture_mvNew (by omega) ht64 (by decide)]
      decide
  · rintro ⟨⟨f, hf, hmem⟩, hcap⟩
    have hf64 := (mem_bits.mp hf).1
    refine ⟨f, hf, ?_⟩
    rw [List.mem_append] at hmem
    rcases hmem with hmem | hmem
    · exfalso
      simp only [List.mem_map] at hmem
      obtain ⟨t, ht, rfl⟩ := hmem
      rw [isCapture_mvNew (by omega) (mem_bits.mp ht).1 (by decide)] at hcap
      revert hcap; decide
    · exact hmem

theorem sliding_captures_iff {b : Board} {m : Nat}
    (hdisj : b.occ Color.White &&& b.occ Color.Black = 0) :
    m ∈ generateSlidingCaptures b ↔
      m ∈ generateSlidingMoves b ∧ isCapture m = true := by
  have hmask : ∀ att : Nat,
      bits ((att &&& u64not (b.occ b.sideToMove)) &&& b.occ b.sideToMove.opp)
        = bits (att &&& b.occ b.sideToMove.opp) :=
    fun att => att_mask_their (disj_their_our hdisj)
  simp only [generateSlidingCaptures, generateSlidingMoves, List.mem_append,
    List.mem_flatMap]
  have hpart : ∀ (f att : Nat), f < 64 →
      (m ∈ addSlidingCaptures f (att &&& b.occ b.sideToMove.opp) ↔
        m ∈ addSlidingMoves f (att &&& u64not (b.occ b.sideToMove))
          (b.occ b.sideToMove.opp) ∧ isCapture m = true) := by
    intro f att hf64
    simp only [addSlidingCaptures, addSlidingMoves, List.mem_append,
      List.mem_map]
    constructor
    · rintro ⟨t, ht, rfl⟩
      have ht64 := (mem_bits.mp ht).1
      rw [← hmask att] at ht
      exact ⟨Or.inl ⟨t, ht, rfl⟩,
        by rw [isCapture_mvNew (by omega) ht64 (by decide)]; decide⟩
    · rintro ⟨⟨t, ht, rfl⟩ | ⟨t, ht, rfl⟩, hcap⟩
      · rw [hmask att] at ht
        exact ⟨t, ht, rfl⟩
      · exfalso
        rw [isCapture_mvNew (by omega) (mem_bits.mp ht).1 (by decide)]
          at hcap
        revert hcap; decide
  constructor
  · rintro (⟨f, hf, hmem⟩ | ⟨f, hf, hmem⟩)
    · have := (hpart f _ (mem_bits.mp hf).1).mp hmem
      exact ⟨Or.inl ⟨f, hf, this.1⟩, this.2⟩
    · have := (hpart f _ (mem_bits.mp hf).1).mp hmem
      exact ⟨Or.inr ⟨f, hf, this.1⟩, this.2⟩
  · rintro ⟨⟨f, hf, hmem⟩ | ⟨f, hf, hmem⟩, hcap⟩
    · exact Or.inl ⟨f, hf, (hpart f _ (mem_bits.mp hf).1).mpr ⟨hmem, hcap⟩⟩
    · exact Or.inr ⟨f, hf, (hpart f _ (mem_bits.mp hf).1).mpr ⟨hmem, hcap⟩⟩

theorem king_captures_iff {b : Board} {m : Nat}
    (hdisj : b.occ Color.White &&& b.occ Color.Black = 0) :
    m ∈ generateKingCaptures b ↔
      m ∈ generateKingMoves b ∧ isCapture m = true := by
  have hks : lsb (b.pieces PieceType.King b.sideToMove) < 4096 := by
    have := lsb_le_64 (b.pieces PieceType.King b.sideToMove)
    omega
  constructor
  · intro h
    simp only [generateKingCaptures, List.mem_map] at h
    obtain ⟨t, ht, rfl⟩ := h
    have ht64 := (mem_bits.mp ht).1
    have htb := (mem_bits.mp ht).2
    simp only [Nat.testBit_land, Bool.and_eq_true] at htb
    have hnorm : mvNew (lsb (b.pieces PieceType.King b.sideToMove)) t
        CAPTURE_FLAG ∈
        (bits (kingAttacks (lsb (b.pieces PieceType.King b.sideToMove)) &&&
          u64not (b.occ b.sideToMove))).map (fun t2 =>
            mvNew (lsb (b.pieces PieceType.King b.sideToMove)) t2
              (if (1 <<< t2) &&& b.occ b.sideToMove.opp ≠ 0 then CAPTURE_FLAG
               else QUIET_MOVE_FLAG)) := by
      simp only [List.mem_map]
      refine ⟨t, ?_, ?_⟩
      · apply mem_bits.mpr
        refine ⟨ht64, ?_⟩
        simp only [Nat.testBit_land, testBit_u64not, htb.1,
          our_clear_of_their hdisj htb.2, ht64]
        simp
      · rw [if_pos (land_one_shiftLeft_ne.mpr htb.2)]
    refine ⟨?_, by rw [isCapture_mvNew hks ht64 (by decide)]; decide⟩
    simp only [generateKingMoves]
    by_cases hchk : isSquareAttacked b
        (lsb (b.pieces PieceType.King b.sideToMove)) b.sideToMove.opp
    · rw [if_pos hchk]
      exact hnorm
    · rw [if_neg hchk]
      exact List.mem_append_left _ hnorm
  · rintro ⟨hmem, hcap⟩
    rcases kingMoves_elim hmem with ⟨t, hm, ht64, htb⟩ | ⟨_, hcase⟩
    · simp only [Nat.testBit_land, Bool.and_eq_true] at htb
      by_cases hc : (1 <<< t) &&& b.occ b.sideToMove.opp ≠ 0
      · rw [if_pos hc] at hm
        simp only [generateKingCaptures, List.mem_map]
        refine ⟨t, ?_, hm.symm⟩
        apply mem_bits.mpr
        exact ⟨ht64, by
          simp [Nat.testBit_land, htb.1, land_one_shiftLeft_ne.mp hc]⟩
      · rw [if_neg hc] at hm
        rw [hm, isCapture_mvNew hks ht64 (by decide)] at hcap
        exact absurd hcap (by decide)
    · exfalso
      rcases hcase with ⟨_, hmv, _⟩ | ⟨_, hmv, _⟩ | ⟨_, hmv, _⟩ |
        ⟨_, hmv, _⟩ <;> rw [hmv] at hcap <;> revert hcap <;> decide

/-- C8, as stated, is false: the white pawn on e7 of `bPromo` has the
pseudo-legal non-capturing queen promotion e7e8q, but `generate_captures`
(the quiescence candidate list) does not contain it. -/
theorem c8_counterexample :
    mvNew 52 60 QUEEN_PROMOTION_FLAG ∈ generatePseudoLegalMoves bPromo ∧
    mvNew 52 60 QUEEN_PROMOTION_FLAG ∉ generateCaptures bPromo := by decide

/-- C8 amended: the quiescence candidate list `generate_captures`
contains exactly the pseudo-legal moves carrying a capture flag -
captures, capture-promotions and en passant - and no non-capturing
promotions (on boards whose two occupancy caches are disjoint, as every
reachable board's are). -/
theorem c8_captures_are_captures (b : Board) (m : Nat)
    (hdisj : b.occ Color.White &&& b.occ Color.Black = 0) :
    m ∈ generateCaptures b ↔
      m ∈ generatePseudoLegalMoves b ∧ isCapture m = true := by
  simp only [generateCaptures, generatePseudoLegalMoves, List.mem_append]
  constructor
  · rintro (((h | h) | h) | h)
    · have := pawn_captures_iff.mp h
      exact ⟨Or.inl (Or.inl (Or.inl this.1)), this.2⟩
    · have := knight_captures_iff.mp h
      exact ⟨Or.inl (Or.inl (Or.inr this.1)), this.2⟩
    · have := (king_captures_iff hdisj).mp h
      exact ⟨Or.inl (Or.inr this.1), this.2⟩
    · have := (sliding_captures_iff hdisj).mp h
      exact ⟨Or.inr this.1, this.2⟩
  · rintro ⟨((h | h) | h) | h, hcap⟩
    · exact Or.inl (Or.inl (Or.inl (pawn_captures_iff.mpr ⟨h, hcap⟩)))
    · exact Or.inl (Or.inl (Or.inr (knight_captures_iff.mpr ⟨h, hcap⟩)))
    · exact Or.inl (Or.inr ((king_captures_iff hdisj).mpr ⟨h, hcap⟩))
    · exact Or.inr ((sliding_captures_iff hdisj).mpr ⟨h, hcap⟩)

/-- Witness for `c8_captures_are_captures` on the kiwipete-like capture
board `bSee`: the rook capture is in both lists. -/
theorem c8_captures_are_captures_witness :
    bSee.occ Color.White &&& bSee.occ Color.Black = 0 ∧
    (mvNew 0 32 CAPTURE_FLAG ∈ generateCaptures bSee ↔
      mvNew 0 32 CAPTURE_FLAG ∈ generatePseudoLegalMoves bSee ∧
      isCapture (mvNew 0 32 CAPTURE_FLAG) = true) :=
  ⟨by decide, c8_captures_are_captures bSee (mvNew 0 32 CAPTURE_FLAG)
    (by decide)⟩

theorem findSome?_map_eq {α β γ : Type} (f : α → Option β) (g : β → γ)
    (l : List α) :
    List.findSome? (fun a => (f a).map g) l = (List.findSome? f l).map g := by
  induction l with
  | nil => simp
  | cons a t IH =>
    rw [List.findSome?_cons, List.findSome?_cons]
    cases f a <;> simp [IH]

theorem findSome?_eq_some_of_unique {α β : Type} [DecidableEq α]
    {l : List α} {f : α → Option β} {a : α} {v : β}
    (hmem : a ∈ l) (ha : f a = some v)
    (hother : ∀ x ∈ l, x ≠ a → f x = none) :
    l.findSome? f = some v := by
  induction l with
  | nil => cases hmem
  | cons hd tl IH =>
    rw [List.findSome?_cons]
    by_cases hh : hd = a
    · subst hh; rw [ha]
    · rw [hother hd (by simp) hh]
      have hm2 : a ∈ tl := by
        rcases List.mem_cons.mp hmem with h2 | h2
        · exact absurd h2.symm hh
        · exact h2
      exact IH hm2 (fun x hx hxa => hother x (List.mem_cons_of_mem _ hx) hxa)

theorem pieceCharAt_eq_map (b : Board) (sq : Nat) :
    pieceCharAt b sq = (pieceColAt b sq).map pcChar := by
  unfold pieceCharAt pieceColAt
  rw [← findSome?_map_eq]
  congr 1
  funext pt
  cases pt <;> simp [apply_ite (Option.map pcChar), pcChar]

theorem pieceColAt_some_testBit {b : Board} {sq : Nat}
    {pt : PieceType} {c : Color} (h : pieceColAt b sq = some (pt, c)) :
    (b.pieces pt c).testBit sq = true := by
  unfold pieceColAt at h
  obtain ⟨pt0, _, h0⟩ := List.exists_of_findSome?_eq_some h
  split_ifs at h0 with h1 h2 <;> simp_all

theorem pieceColAt_none_testBit {b : Board} {sq : Nat}
    (h : pieceColAt b sq = none) (pt : PieceType) (c : Color) :
    (b.pieces pt c).testBit sq = false := by
  unfold pieceColAt at h
  have h2 := List.findSome?_eq_none.mp h pt (by cases pt <;> simp [ptList])
  split_ifs at h2 with h3 h4
  cases c
  · simpa using h3
  · simpa using h4

theorem pieceColAt_unique {b : Board} (hD : disjointPieces b) {sq : Nat}
    {pt : PieceType} {c : Color} (h : (b.pieces pt c).testBit sq = true) :
    pieceColAt b sq = some (pt, c) := by
  have hbitW : c = Color.Black →
      (b.pieces pt Color.White).testBit sq = false := by
    intro hc
    have hz := hD pt Color.White pt c (by simp [hc])
    have hb := congrArg (fun x => x.testBit sq) hz
    simp only [Nat.testBit_land, h, Nat.zero_testBit, Bool.and_eq_false_imp]
      at hb
    cases hW : (b.pieces pt Color.White).testBit sq
    · rfl
    · simpa [hW] using hb
  unfold pieceColAt
  apply findSome?_eq_some_of_unique (a := pt)
  · cases pt <;> simp [ptList]
  · cases hc : c
    · rw [if_pos (hc ▸ h)]
    · rw [if_neg (by simp [hbitW hc]), if_pos (hc ▸ h)]
  · intro x _ hx
    have hzW := hD x Color.White pt c (fun hcon => hx hcon.1)
    have hzB := hD x Color.Black pt c (fun hcon => hx hcon.1)
    have hbW := congrArg (fun y => y.testBit sq) hzW
    have hbB := congrArg (fun y => y.testBit sq) hzB
    simp only [Nat.testBit_land, h, Bool.and_true, Nat.zero_testBit] at hbW hbB
    rw [if_neg (by simp [hbW]), if_neg (by simp [hbB])]

theorem pcChar_decode (pc : PieceType × Color) :
    pieceOfChar (toLowerCh (pcChar pc)) = some pc.1 ∧
    (if isUpperCh (pcChar pc) then Color.White else Color.Black) = pc.2 ∧
    digitOf (pcChar pc) = none ∧ pcChar pc ≠ '/' ∧
    (pcChar pc).isWhitespace = false := by
  rcases pc with ⟨pt, c⟩
  cases pt <;> cases c <;> decide

theorem digitOf_ofNat {d : Nat} (hd : d < 10) :
    digitOf (Char.ofNat (48 + d)) = some d := by
  interval_cases d <;> decide

theorem toNat_digitChar {k : Nat} (h : k < 10) :
    (Char.ofNat (48 + k)).toNat = 48 + k := by
  interval_cases k <;> decide

theorem toNat_fileChar {k : Nat} (h : k < 8) :
    (Char.ofNat (97 + k)).toNat = 97 + k := by
  interval_cases k <;> decide

theorem nonws_of_digitRange {c : Char} (h1 : 48 ≤ c.toNat)
    (h2 : c.toNat ≤ 57) : c.isWhitespace = false := by
  have w1 : ¬(c = ' ') := fun hc => absurd (hc ▸ h1) (by decide)
  have w2 : ¬(c = '\t') := fun hc => absurd (hc ▸ h1) (by decide)
  have w3 : ¬(c = '\r') := fun hc => absurd (hc ▸ h1) (by decide)
  have w4 : ¬(c = '\n') := fun hc => absurd (hc ▸ h1) (by decide)
  simp [Char.isWhitespace, w1, w2, w3, w4]

theorem fileChar_nonws {k : Nat} (h : k < 8) :
    (Char.ofNat (97 + k)).isWhitespace = false := by
  interval_cases k <;> decide

theorem emitCells_ne_nil :
    ∀ (cs : List (Option Char)) (e : Nat), cs ≠ [] ∨ 0 < e →
      emitCells cs e ≠ [] := by
  intro cs
  induction cs with
  | nil =>
    intro e he
    rcases he with he | he
    · exact absurd rfl he
    · simp [emitCells, he]
  | cons oc rest IH =>
    intro e _
    cases oc with
    | none => exact IH (e + 1) (Or.inr (by omega))
    | some ch => simp [emitCells]

theorem emitCells_mem :
    ∀ (cs : List (Option Char)) (e : Nat) (c : Char), c ∈ emitCells cs e →
      (some c ∈ cs) ∨
      ∃ k, 1 ≤ k ∧ k ≤ e + cs.length ∧ c = Char.ofNat (48 + k) := by
  intro cs
  induction cs with
  | nil =>
    intro e c hc
    simp only [emitCells] at hc
    split_ifs at hc with he
    · right
      simp only [List.mem_singleton] at hc
      exact ⟨e, by omega, by simp, hc⟩
    · cases hc
  | cons oc rest IH =>
    intro e c hc
    cases oc with
    | none =>
      simp only [emitCells] at hc
      rcases IH (e + 1) c hc with h | ⟨k, h1, h2, h3⟩
      · exact Or.inl (List.mem_cons_of_mem _ h)
      · exact Or.inr ⟨k, h1, by simp at h2 ⊢; omega, h3⟩
    | some ch =>
      simp only [emitCells, List.mem_append, List.mem_cons] at hc
      rcases hc with hpre | rfl | hrest
      · split_ifs at hpre with he
        · right
          simp only [List.mem_singleton] at hpre
          exact ⟨e, by omega, by simp, hpre⟩
        · cases hpre
      · exact Or.inl (by simp)
      · rcases IH 0 c hrest with h | ⟨k, h1, h2, h3⟩
        · exact Or.inl (List.mem_cons_of_mem _ h)
        · exact Or.inr ⟨k, h1, by simp at h2 ⊢; omega, h3⟩

theorem digitChar_ne_slash {k : Nat} (h : k < 10) :
    Char.ofNat (48 + k) ≠ '/' := by
  interval_cases k <;> decide

theorem parsePlacement_nil (r f : Nat) (bb : Board) :
    parsePlacement [] r f bb = some bb := rfl

theorem parsePlacement_slash (rest : List Char) (r f : Nat) (bb : Board)
    (hr : r ≠ 0) :
    parsePlacement ('/' :: rest) r f bb = parsePlacement rest (r - 1) 0 bb := by
  simp [parsePlacement, hr]

theorem parsePlacement_cons_digit {c : Char} {d : Nat} (hs : c ≠ '/')
    (hd : digitOf c = some d) (rest : List Char) (r f : Nat) (bb : Board) :
    parsePlacement (c :: rest) r f bb = parsePlacement rest r (f + d) bb := by
  simp only [parsePlacement]
  rw [if_neg hs, hd]

theorem parsePlacement_cons_piece {c : Char} {pt : PieceType} (hs : c ≠ '/')
    (hd : digitOf c = none) (hp : pieceOfChar (toLowerCh c) = some pt)
    (rest : List Char) (r f : Nat) (bb : Board) (hf : f ≤ 7) :
    parsePlacement (c :: rest) r f bb =
      parsePlacement rest r (f + 1)
        (addPieceB bb pt (if isUpperCh c then Color.White else Color.Black)
          (r * 8 + f)) := by
  simp only [parsePlacement]
  rw [if_neg hs, hd]
  simp only [if_neg (by omega : ¬ f > 7), hp]

theorem parsePlacement_emitCells :
    ∀ (cs : List (Option Char)) (g e r : Nat) (acc : Board)
      (suffix : List Char),
    g + cs.length = 8 → e ≤ g →
    (∀ c, some c ∈ cs → digitOf c = none ∧ c ≠ '/' ∧
      (pieceOfChar (toLowerCh c)).isSome = true) →
    parsePlacement (emitCells cs e ++ suffix) r (g - e) acc =
      parsePlacement suffix r 8 (addCellsB r acc g cs) := by
  intro cs
  induction cs with
  | nil =>
    intro g e r acc suffix hlen he _
    have hg : g = 8 := by simpa using hlen
    subst hg
    by_cases he0 : 0 < e
    · have hee : e ≤ 8 := he
      simp only [emitCells, if_pos he0, List.cons_append, List.nil_append]
      rw [parsePlacement_cons_digit (digitChar_ne_slash (by omega))
        (digitOf_ofNat (by omega)) suffix r (8 - e) acc]
      rw [show 8 - e + e = 8 from by omega]
      rfl
    · have he0 : e = 0 := by omega
      subst he0
      simp [emitCells, addCellsB]
  | cons oc rest IH =>
    intro g e r acc suffix hlen he hgood
    have hg7 : g ≤ 7 := by simp at hlen; omega
    cases oc with
    | none =>
      have h1 := IH (g + 1) (e + 1) r acc suffix (by simp at hlen ⊢; omega)
        (by omega) (fun c hc => hgood c (List.mem_cons_of_mem _ hc))
      rw [show g + 1 - (e + 1) = g - e from by omega] at h1
      simpa [emitCells, addCellsB] using h1
    | some ch =>
      obtain ⟨hdg, hsl, hps⟩ := hgood ch (by simp)
      obtain ⟨pt, hpt⟩ := Option.isSome_iff_exists.mp hps
      have hstep :
          parsePlacement (ch :: (emitCells rest 0 ++ suffix)) r g acc =
            parsePlacement (emitCells rest 0 ++ suffix) r (g + 1)
              (addPieceB acc pt
                (if isUpperCh ch then Color.White else Color.Black)
                (r * 8 + g)) :=
        parsePlacement_cons_piece hsl hdg hpt _ r g acc hg7
      have h1 := IH (g + 1) 0 r
        (addPieceB acc pt
          (if isUpperCh ch then Color.White else Color.Black) (r * 8 + g))
        suffix (by simp at hlen ⊢; omega) (by omega)
        (fun c hc => hgood c (List.mem_cons_of_mem _ hc))
      simp only [Nat.sub_zero] at h1
      by_cases he0 : 0 < e
      · simp only [emitCells, if_pos he0, List.append_assoc,
          List.cons_append, List.nil_append]
        rw [parsePlacement_cons_digit (digitChar_ne_slash (by omega))
          (digitOf_ofNat (by omega)) _ r (g - e) acc]
        rw [show g - e + e = g from by omega, hstep, h1]
        simp only [addCellsB, hpt]
      · have he0 : e = 0 := by omega
        subst he0
        simp only [emitCells, if_neg (by omega : ¬ (0 : Nat) > 0),
          List.nil_append, List.cons_append, Nat.sub_zero]
        rw [hstep, h1]
        simp only [addCellsB, hpt]

theorem addPieceB_pieces_testBit (a : Board) (pt0 : PieceType) (c0 : Color)
    (sq : Nat) (pt : PieceType) (c : Color) (j : Nat) :
    ((addPieceB a pt0 c0 sq).pieces pt c).testBit j =
      ((a.pieces pt c).testBit j || decide (pt = pt0 ∧ c = c0 ∧ j = sq)) := by
  simp only [addPieceB, updPieces]
  by_cases h : pt = pt0 ∧ c = c0
  · rw [if_pos h]
    simp only [Nat.testBit_lor, testBit_one_shiftLeft, h.1, h.2]
    congr 1
    rw [decide_eq_decide]
    constructor
    · exact fun hx => ⟨trivial, trivial, hx.symm⟩
    · exact fun hx => hx.2.2.symm
  · rw [if_neg h]
    have : decide (pt = pt0 ∧ c = c0 ∧ j = sq) = false := by
      simp only [decide_eq_false_iff_not]
      exact fun hx => h ⟨hx.1, hx.2.1⟩
    rw [this, Bool.or_false]

theorem addCellsB_pieces {b : Board} (hD : disjointPieces b) :
    ∀ (cs : List (Option Char)) (g r : Nat) (acc : Board),
    (∀ i (hi : i < cs.length), cs.get ⟨i, hi⟩ = pieceCharAt b (r * 8 + g + i)) →
    ∀ pt c j, ((addCellsB r acc g cs).pieces pt c).testBit j =
      ((acc.pieces pt c).testBit j ||
       ((b.pieces pt c).testBit j &&
        decide (r * 8 + g ≤ j ∧ j < r * 8 + g + cs.length))) := by
  intro cs
  induction cs with
  | nil =>
    intro g r acc _ pt c j
    simp only [addCellsB, List.length_nil, Nat.add_zero]
    rw [decide_eq_false (by omega : ¬(r * 8 + g ≤ j ∧ j < r * 8 + g))]
    simp
  | cons oc rest IH =>
    intro g r acc hcs pt c j
    have hhead : oc = pieceCharAt b (r * 8 + g) := by
      have := hcs 0 (by simp)
      simpa using this
    have htail : ∀ i (hi : i < rest.length),
        rest.get ⟨i, hi⟩ = pieceCharAt b (r * 8 + (g + 1) + i) := by
      intro i hi
      have := hcs (i + 1) (by simp; omega)
      simp only [List.get_cons_succ] at this
      rw [this]
      congr 1
      omega
    cases hpc : pieceColAt b (r * 8 + g) with
    | none =>
      have hocn : oc = none := by
        rw [hhead, pieceCharAt_eq_map, hpc]; rfl
      subst hocn
      have h1 := IH (g + 1) r acc htail pt c j
      simp only [addCellsB] at h1 ⊢
      rw [h1]
      by_cases hbb : (b.pieces pt c).testBit j = true
      · by_cases hj : j = r * 8 + g
        · exact absurd (hj ▸ hbb)
            (by simp [pieceColAt_none_testBit hpc pt c])
        · congr 1
          rw [hbb, Bool.true_and, Bool.true_and, decide_eq_decide]
          constructor
          · intro hx; simp at hx ⊢; omega
          · intro hx; simp at hx ⊢; omega
      · simp only [Bool.not_eq_true] at hbb
        rw [hbb]
        simp
    | some pc =>
      have hocs : oc = some (pcChar pc) := by
        rw [hhead, pieceCharAt_eq_map, hpc]; rfl
      subst hocs
      obtain ⟨hdec, hcol, _, _, _⟩ := pcChar_decode pc
      have h1 := IH (g + 1) r
        (addPieceB acc pc.1 pc.2 (r * 8 + g)) htail pt c j
      simp only [addCellsB, hdec, hcol] at h1 ⊢
      rw [h1, addPieceB_pieces_testBit]
      by_cases hj : j = r * 8 + g
      · subst hj
        have htb : (b.pieces pt c).testBit (r * 8 + g) =
            decide (pt = pc.1 ∧ c = pc.2 ∧ r * 8 + g = r * 8 + g) := by
          by_cases hpcc : pt = pc.1 ∧ c = pc.2
          · rw [decide_eq_true (by exact ⟨hpcc.1, hpcc.2, rfl⟩)]
            have : pc = (pt, c) := by
              rcases pc with ⟨x, y⟩
              simp only at hpcc
              simp [hpcc.1, hpcc.2]
            exact pieceColAt_some_testBit (this ▸ hpc)
          · rw [decide_eq_false (fun hx => hpcc ⟨hx.1, hx.2.1⟩)]
            cases hbt : (b.pieces pt c).testBit (r * 8 + g)
            · rfl
            · have hu := pieceColAt_unique hD hbt
              rw [hpc] at hu
              have hpceq : pc = (pt, c) := Option.some.inj hu
              exact absurd ⟨by rw [hpceq], by rw [hpceq]⟩ hpcc
        have hrt : decide (r * 8 + (g + 1) ≤ r * 8 + g ∧
            r * 8 + g < r * 8 + (g + 1) + rest.length) = false :=
          decide_eq_false (by omega)
        have hrf : decide (r * 8 + g ≤ r * 8 + g ∧
            r * 8 + g < r * 8 + g + (rest.length + 1)) = true :=
          decide_eq_true (by constructor <;> omega)
        simp only [List.length_cons, hrt, hrf, Bool.and_false, Bool.or_false,
          Bool.and_true]
        rw [htb]
        congr 1
        rw [decide_eq_decide]
        constructor
        · exact fun hx => ⟨hx.1, hx.2.1, rfl⟩
        · exact fun hx => ⟨hx.1, hx.2.1, trivial⟩
      · have hD2 : decide (pt = pc.1 ∧ c = pc.2 ∧ j = r * 8 + g) = false :=
          decide_eq_false (fun hx => hj hx.2.2)
        have hrr : decide (r * 8 + (g + 1) ≤ j ∧
            j < r * 8 + (g + 1) + rest.length) =
            decide (r * 8 + g ≤ j ∧ j < r * 8 + g + (rest.length + 1)) := by
          rw [decide_eq_decide]
          constructor
          · intro hx; omega
          · intro hx
            rcases hx with ⟨hx1, hx2⟩
            constructor <;> omega
        simp only [List.length_cons, hD2, Bool.or_false, hrr]

theorem rankCells_get (b : Board) (r : Nat) :
    ∀ i (hi : i < (rankCells b r).length),
      (rankCells b r).get ⟨i, hi⟩ = pieceCharAt b (r * 8 + 0 + i) := by
  intro i hi
  simp [rankCells]

theorem rankCells_length (b : Board) (r : Nat) :
    (rankCells b r).length = 8 := by
  simp [rankCells]

theorem addCellsB_ranks {b : Board} (hD : disjointPieces b) :
    ∀ (rs : List Nat) (acc : Board) (pt : PieceType) (c : Color) (j : Nat),
    (((rs.foldl (fun a r => addCellsB r a 0 (rankCells b r)) acc)).pieces
        pt c).testBit j =
      ((acc.pieces pt c).testBit j ||
       ((b.pieces pt c).testBit j &&
        decide (∃ r ∈ rs, r * 8 ≤ j ∧ j < r * 8 + 8))) := by
  intro rs
  induction rs with
  | nil =>
    intro acc pt c j
    simp
  | cons r0 rtl IH =>
    intro acc pt c j
    simp only [List.foldl_cons]
    rw [IH]
    rw [addCellsB_pieces hD (rankCells b r0) 0 r0 acc (rankCells_get b r0)
      pt c j]
    rw [rankCells_length]
    cases hbb : (b.pieces pt c).testBit j
    · simp
    · simp only [Bool.true_and]
      rw [Bool.or_assoc]
      congr 1
      rw [← Bool.decide_or, decide_eq_decide]
      constructor
      · intro hx
        rcases hx with hx | ⟨rr, hrr, hx⟩
        · exact ⟨r0, by simp, by omega⟩
        · exact ⟨rr, List.mem_cons_of_mem _ hrr, hx⟩
      · intro hx
        rcases hx with ⟨rr, hrr, hx⟩
        rcases List.mem_cons.mp hrr with rfl | hrr2
        · exact Or.inl (by omega)
        · exact Or.inr ⟨rr, hrr2, hx⟩

theorem rank_good (b : Board) (r : Nat) :
    ∀ c, some c ∈ rankCells b r → digitOf c = none ∧ c ≠ '/' ∧
      (pieceOfChar (toLowerCh c)).isSome = true := by
  intro c hc
  simp only [rankCells, List.mem_map] at hc
  obtain ⟨f, _, hf⟩ := hc
  rw [pieceCharAt_eq_map] at hf
  cases hcol : pieceColAt b (r * 8 + f) with
  | none => rw [hcol] at hf; cases hf
  | some pc =>
    rw [hcol] at hf
    have hceq : pcChar pc = c := Option.some.inj hf
    obtain ⟨h1, _, h2, h3, _⟩ := pcChar_decode pc
    rw [← hceq]
    exact ⟨h2, h3, by rw [h1]; rfl⟩

theorem parsePlacement_rank (b : Board) (r : Nat) (acc : Board)
    (suffix : List Char) :
    parsePlacement (emitCells (rankCells b r) 0 ++ suffix) r 0 acc =
      parsePlacement suffix r 8 (addCellsB r acc 0 (rankCells b r)) := by
  have h := parsePlacement_emitCells (rankCells b r) 0 0 r acc suffix
    (by rw [rankCells_length]) (by omega) (rank_good b r)
  simpa using h

theorem emit_rank_nonws (b : Board) (r : Nat) :
    ∀ c ∈ emitCells (rankCells b r) 0, c.isWhitespace = false := by
  intro c hc
  rcases emitCells_mem (rankCells b r) 0 c hc with h | ⟨k, h1, h2, h3⟩
  · simp only [rankCells, List.mem_map] at h
    obtain ⟨f, _, hf⟩ := h
    rw [pieceCharAt_eq_map] at hf
    cases hcol : pieceColAt b (r * 8 + f) with
    | none => rw [hcol] at hf; cases hf
    | some pc =>
      rw [hcol] at hf
      have hceq : pcChar pc = c := Option.some.inj hf
      rw [← hceq]
      exact (pcChar_decode pc).2.2.2.2
  · rw [rankCells_length] at h2
    rw [h3]
    exact nonws_of_digitRange (by rw [toNat_digitChar (by omega)]; omega)
      (by rw [toNat_digitChar (by omega)]; omega)

theorem wordsAux_step_gen :
    ∀ (w acc rest : List Char),
    (∀ c ∈ w, c.isWhitespace = false) → (acc ≠ [] ∨ w ≠ []) →
    wordsAux (w ++ ' ' :: rest) acc =
      (acc.reverse ++ w) :: wordsAux rest [] := by
  intro w
  induction w with
  | nil =>
    intro acc rest _ hne
    rcases hne with hne | hne
    · simp only [List.nil_append, wordsAux]
      rw [if_pos (by decide)]
      rw [if_neg (by simp [List.isEmpty_iff, hne])]
      simp
    · exact absurd rfl hne
  | cons c w IH =>
    intro acc rest hws hne
    have hc : c.isWhitespace = false := hws c (by simp)
    simp only [List.cons_append, wordsAux]
    rw [if_neg (by simp [hc])]
    rw [List.append_eq]
    rw [IH (c :: acc) rest (fun d hd => hws d (List.mem_cons_of_mem _ hd))
      (Or.inl (by simp))]
    simp

theorem wordsAux_last_gen :
    ∀ (w acc : List Char),
    (∀ c ∈ w, c.isWhitespace = false) → (acc ≠ [] ∨ w ≠ []) →
    wordsAux w acc = [acc.reverse ++ w] := by
  intro w
  induction w with
  | nil =>
    intro acc _ hne
    rcases hne with hne | hne
    · simp only [wordsAux]
      rw [if_neg (by simp [List.isEmpty_iff, hne])]
      simp
    · exact absurd rfl hne
  | cons c w IH =>
    intro acc hws _
    have hc : c.isWhitespace = false := hws c (by simp)
    simp only [wordsAux]
    rw [if_neg (by simp [hc])]
    rw [IH (c :: acc) (fun d hd => hws d (List.mem_cons_of_mem _ hd))
      (Or.inl (by simp))]
    simp

theorem wordsAux_split (w rest : List Char)
    (hws : ∀ c ∈ w, c.isWhitespace = false) (hne : w ≠ []) :
    wordsAux (w ++ ' ' :: rest) [] = w :: wordsAux rest [] := by
  rw [wordsAux_step_gen w [] rest hws (Or.inr hne)]
  simp

theorem wordsAux_final (w : List Char)
    (hws : ∀ c ∈ w, c.isWhitespace = false) (hne : w ≠ []) :
    wordsAux w [] = [w] := by
  rw [wordsAux_last_gen w [] hws (Or.inr hne)]
  simp

theorem printDec_ne_nil (n : Nat) : printDec n ≠ [] := by
  unfold printDec
  split <;> simp

theorem printDec_digits (n : Nat) :
    ∀ c ∈ printDec n, 48 ≤ c.toNat ∧ c.toNat ≤ 57 := by
  induction n using Nat.strong_induction_on with
  | _ n IH =>
    intro c hc
    unfold printDec at hc
    split at hc
    · simp only [List.mem_singleton] at hc
      subst hc
      rw [toNat_digitChar (by omega)]
      omega
    · simp only [List.mem_append, List.mem_singleton] at hc
      rcases hc with hc | hc
      · exact IH (n / 10) (Nat.div_lt_self (by omega) (by omega)) c hc
      · subst hc
        rw [toNat_digitChar (by omega)]
        omega

theorem printDec_nonws (n : Nat) :
    ∀ c ∈ printDec n, c.isWhitespace = false := by
  intro c hc
  obtain ⟨h1, h2⟩ := printDec_digits n c hc
  exact nonws_of_digitRange h1 h2

theorem parseDecAux_append (l1 l2 : List Char) (acc v : Nat)
    (h : parseDecAux l1 acc = some v) :
    parseDecAux (l1 ++ l2) acc = parseDecAux l2 v := by
  induction l1 generalizing acc with
  | nil =>
    simp only [parseDecAux] at h
    rw [List.nil_append, Option.some.inj h]
  | cons c rest IH =>
    simp only [parseDecAux, List.cons_append] at h ⊢
    cases hd : digitOf c with
    | none => rw [hd] at h; simp at h
    | some d =>
      rw [hd] at h
      exact IH _ h

theorem parseDecAux_printDec (n : Nat) :
    ∀ acc, parseDecAux (printDec n) acc =
      some (acc * 10 ^ (printDec n).length + n) := by
  induction n using Nat.strong_induction_on with
  | _ n IH =>
    intro acc
    unfold printDec
    split
    · simp only [parseDecAux, digitOf_ofNat (by omega : n < 10),
        List.length_singleton, pow_one]
    · have hrec := IH (n / 10) (Nat.div_lt_self (by omega) (by omega)) acc
      rw [parseDecAux_append _ _ _ _ hrec]
      simp only [parseDecAux, digitOf_ofNat (Nat.mod_lt n (by omega))]
      congr 1
      rw [List.length_append, List.length_singleton, pow_succ]
      have hdm : 10 * (n / 10) + n % 10 = n := Nat.div_add_mod n 10
      calc (acc * 10 ^ (printDec (n / 10)).length + n / 10) * 10 + n % 10
          = acc * (10 ^ (printDec (n / 10)).length * 10) +
            (10 * (n / 10) + n % 10) := by ring
        _ = acc * (10 ^ (printDec (n / 10)).length * 10) + n := by rw [hdm]

theorem parseDec_printDec (n : Nat) : parseDec (printDec n) = some n := by
  cases hp : printDec n with
  | nil => exact absurd hp (printDec_ne_nil n)
  | cons c l =>
    have h := parseDecAux_printDec n 0
    rw [hp] at h
    have : parseDec (c :: l) = parseDecAux (c :: l) 0 := rfl
    rw [this, h]
    simp

theorem castlingChars_facts (b : Board) (hr : b.castlingRights < 16) :
    castlingChars b ≠ [] ∧
    (∀ c ∈ castlingChars b, c.isWhitespace = false) ∧
    (castlingChars b).foldl (fun r c =>
      if c = 'K' then r ||| 1
      else if c = 'Q' then r ||| 2
      else if c = 'k' then r ||| 4
      else if c = 'q' then r ||| 8
      else r) 0 = b.castlingRights := by
  obtain ⟨x, hx⟩ : ∃ x, b.castlingRights = x := ⟨_, rfl⟩
  rw [hx] at hr
  simp only [castlingChars, hx]
  interval_cases x <;> exact ⟨by decide, by decide, by decide⟩

theorem toFen_congr {x y : Board} (hp : x.pieces = y.pieces)
    (h1 : x.sideToMove = y.sideToMove)
    (h2 : x.castlingRights = y.castlingRights)
    (h3 : x.enPassant = y.enPassant)
    (h4 : x.halfmoveClock = y.halfmoveClock)
    (h5 : x.fullmoveNumber = y.fullmoveNumber) : toFen x = toFen y := by
  unfold toFen placementChars rankCells pieceCharAt castlingChars epChars
  simp only [hp, h1, h2, h3, h4, h5]

theorem placementChars_explicit (b : Board) :
    placementChars b =
      emitCells (rankCells b 7) 0 ++ '/' ::
      (emitCells (rankCells b 6) 0 ++ '/' ::
      (emitCells (rankCells b 5) 0 ++ '/' ::
      (emitCells (rankCells b 4) 0 ++ '/' ::
      (emitCells (rankCells b 3) 0 ++ '/' ::
      (emitCells (rankCells b 2) 0 ++ '/' ::
      (emitCells (rankCells b 1) 0 ++ '/' ::
      emitCells (rankCells b 0) 0)))))) := by
  simp [placementChars, List.intercalate, List.range_succ]

theorem placementChars_nonws (b : Board) :
    ∀ c ∈ placementChars b, c.isWhitespace = false := by
  rw [placementChars_explicit]
  intro c hc
  simp only [List.mem_append, List.mem_cons] at hc
  rcases hc with h|rfl|h|rfl|h|rfl|h|rfl|h|rfl|h|rfl|h|rfl|h
  all_goals first
    | exact emit_rank_nonws _ _ _ h
    | decide

theorem placementChars_ne_nil (b : Board) : placementChars b ≠ [] := by
  rw [placementChars_explicit]
  simp

/-- C3: for every valid six-field FEN string - formalised as the
canonical FEN `toFen b` of any board whose fields are in range, which is
exactly the set of FEN strings the engine itself emits - `from_fen`
succeeds and `to_fen` of the resulting board reproduces the string
identically. -/
theorem c3_fen_round_trip (K : ZKeys) (b : Board)
    (hB : ∀ pt c, b.pieces pt c < 2 ^ 64)
    (hD : disjointPieces b)
    (hcr : b.castlingRights < 16)
    (hep : ∀ sq, b.enPassant = some sq → sq < 64)
    (hhm : b.halfmoveClock < 256)
    (hfm : b.fullmoveNumber < 2 ^ 32) :
    ∃ b2, fromFen K (toFen b) = some b2 ∧ toFen b2 = toFen b := by
  have hw1ws : ∀ c ∈ [if b.sideToMove = Color.White then 'w' else 'b'],
      c.isWhitespace = false := by
    intro c hc
    simp only [List.mem_singleton] at hc
    subst hc
    cases b.sideToMove <;> decide
  obtain ⟨hc1, hc2, hc3⟩ := castlingChars_facts b hcr
  have hw3ws : ∀ c ∈ epChars b, c.isWhitespace = false := by
    cases hepc : b.enPassant with
    | none =>
      intro c hc
      simp only [epChars, hepc, List.mem_singleton] at hc
      subst hc
      decide
    | some sq =>
      intro c hc
      simp only [epChars, hepc, List.mem_cons, List.mem_singleton,
        List.not_mem_nil, or_false] at hc
      rcases hc with rfl | rfl
      · exact fileChar_nonws (Nat.mod_lt _ (by omega))
      · rw [show (49 : Nat) + sq / 8 = 48 + (sq / 8 + 1) from by omega]
        have hsq := hep sq hepc
        exact nonws_of_digitRange
          (by rw [toNat_digitChar (by omega)]; omega)
          (by rw [toNat_digitChar (by omega)]; omega)
  have hw3ne : epChars b ≠ [] := by
    cases hepc : b.enPassant <;> simp [epChars, hepc]
  have hdata : (toFen b).data =
      placementChars b ++ ' ' ::
      ([if b.sideToMove = Color.White then 'w' else 'b'] ++ ' ' ::
      (castlingChars b ++ ' ' ::
      (epChars b ++ ' ' ::
      (printDec b.halfmoveClock ++ ' ' :: printDec b.fullmoveNumber)))) := by
    simp [toFen, List.append_assoc]
  have hwords : wordsAux (toFen b).data [] =
      [placementChars b,
       [if b.sideToMove = Color.White then 'w' else 'b'],
       castlingChars b, epChars b,
       printDec b.halfmoveClock, printDec b.fullmoveNumber] := by
    rw [hdata,
      wordsAux_split _ _ (placementChars_nonws b) (placementChars_ne_nil b),
      wordsAux_split _ _ hw1ws (by simp),
      wordsAux_split _ _ hc2 hc1,
      wordsAux_split _ _ hw3ws hw3ne,
      wordsAux_split _ _ (printDec_nonws _) (printDec_ne_nil _),
      wordsAux_final _ (printDec_nonws _) (printDec_ne_nil _)]
  have hpp : parsePlacement (placementChars b) 7 0 boardDefault =
      some (List.foldl (fun a r => addCellsB r a 0 (rankCells b r))
        boardDefault [7, 6, 5, 4, 3, 2, 1, 0]) := by
    simp only [List.foldl_cons, List.foldl_nil]
    rw [placementChars_explicit,
      parsePlacement_rank b 7 boardDefault _,
      parsePlacement_slash _ 7 8 _ (by omega),
      parsePlacement_rank b 6 _ _,
      parsePlacement_slash _ 6 8 _ (by omega),
      parsePlacement_rank b 5 _ _,
      parsePlacement_slash _ 5 8 _ (by omega),
      parsePlacement_rank b 4 _ _,
      parsePlacement_slash _ 4 8 _ (by omega),
      parsePlacement_rank b 3 _ _,
      parsePlacement_slash _ 3 8 _ (by omega),
      parsePlacement_rank b 2 _ _,
      parsePlacement_slash _ 2 8 _ (by omega),
      parsePlacement_rank b 1 _ _,
      parsePlacement_slash _ 1 8 _ (by omega)]
    rw [show emitCells (rankCells b 0) 0 =
      emitCells (rankCells b 0) 0 ++ [] from (List.append_nil _).symm]
    rw [parsePlacement_rank b 0 _ _]
    exact parsePlacement_nil 0 8 _
  have hpieces : ∀ pt c,
      (List.foldl (fun a r => addCellsB r a 0 (rankCells b r))
        boardDefault [7, 6, 5, 4, 3, 2, 1, 0]).pieces pt c =
        b.pieces pt c := by
    intro pt c
    apply Nat.eq_of_testBit_eq
    intro j
    rw [addCellsB_ranks hD [7, 6, 5, 4, 3, 2, 1, 0] boardDefault pt c j]
    have hbd : (boardDefault.pieces pt c).testBit j = false := by
      simp [boardDefault]
    rw [hbd, Bool.false_or]
    cases hbb : (b.pieces pt c).testBit j
    · simp
    · have hj : j < 64 := by
        by_contra hge
        rw [testBit_ge_64 (hB pt c) (by omega)] at hbb
        cases hbb
      simp only [Bool.true_and]
      apply decide_eq_true
      have hmem : ∀ k, k < 8 → k ∈ ([7, 6, 5, 4, 3, 2, 1, 0] : List Nat) :=
        by decide
      exact ⟨j / 8, hmem (j / 8) (by omega), by omega, by omega⟩
  have hu8 : parseU8field (printDec b.halfmoveClock) = b.halfmoveClock := by
    unfold parseU8field
    rw [parseDec_printDec]
    exact if_pos hhm
  have hu32 : parseU32field (printDec b.fullmoveNumber) =
      b.fullmoveNumber := by
    unfold parseU32field
    rw [parseDec_printDec]
    exact if_pos hfm
  unfold fromFen
  rw [hwords]
  dsimp only
  rw [hpp]
  dsimp only
  rw [hc3, hu8, hu32]
  cases hstm : b.sideToMove with
  | White =>
    rw [if_pos (rfl : Color.White = Color.White),
      if_pos (rfl : (['w'] : List Char) = ['w'])]
    dsimp only
    cases hepc : b.enPassant with
    | none =>
      rw [show epChars b = ['-'] from by simp [epChars, hepc],
        if_pos (rfl : (['-'] : List Char) = ['-'])]
      dsimp only
      refine ⟨_, rfl, ?_⟩
      apply toFen_congr
      · funext pt c; exact hpieces pt c
      · exact hstm.symm
      · rfl
      · exact hepc.symm
      · rfl
      · rfl
    | some sq =>
      have hsq := hep sq hepc
      rw [show epChars b = [Char.ofNat (97 + sq % 8), Char.ofNat (49 + sq / 8)]
          from by simp [epChars, hepc]]
      rw [if_neg (by simp)]
      dsimp only
      rw [toNat_fileChar (Nat.mod_lt _ (by omega)),
        show (49 : Nat) + sq / 8 = 48 + (sq / 8 + 1) from by omega,
        toNat_digitChar (by omega)]
      rw [show (48 + (sq / 8 + 1) - 49) * 8 + (97 + sq % 8 - 97) = sq from
        by omega]
      refine ⟨_, rfl, ?_⟩
      apply toFen_congr
      · funext pt c; exact hpieces pt c
      · exact hstm.symm
      · rfl
      · exact hepc.symm
      · rfl
      · rfl
  | Black =>
    rw [if_neg (by decide : ¬(Color.Black = Color.White)),
      if_neg (by decide : ¬((['b'] : List Char) = ['w'])),
      if_pos (rfl : (['b'] : List Char) = ['b'])]
    dsimp only
    cases hepc : b.enPassant with
    | none =>
      rw [show epChars b = ['-'] from by simp [epChars, hepc],
        if_pos (rfl : (['-'] : List Char) = ['-'])]
      dsimp only
      refine ⟨_, rfl, ?_⟩
      apply toFen_congr
      · funext pt c; exact hpieces pt c
      · exact hstm.symm
      · rfl
      · exact hepc.symm
      · rfl
      · rfl
    | some sq =>
      have hsq := hep sq hepc
      rw [show epChars b = [Char.ofNat (97 + sq % 8), Char.ofNat (49 + sq / 8)]
          from by simp [epChars, hepc]]
      rw [if_neg (by simp)]
      dsimp only
      rw [toNat_fileChar (Nat.mod_lt _ (by omega)),
        show (49 : Nat) + sq / 8 = 48 + (sq / 8 + 1) from by omega,
        toNat_digitChar (by omega)]
      rw [show (48 + (sq / 8 + 1) - 49) * 8 + (97 + sq % 8 - 97) = sq from
        by omega]
      refine ⟨_, rfl, ?_⟩
      apply toFen_congr
      · funext pt c; exact hpieces pt c
      · exact hstm.symm
      · rfl
      · exact hepc.symm
      · rfl
      · rfl

/-- Witness for `c3_fen_round_trip` on the concrete board `bKP`. -/
theorem c3_fen_round_trip_witness :
    ∃ b2, fromFen K1 (toFen bKP) = some b2 ∧ toFen b2 = toFen bKP :=
  c3_fen_round_trip K1 bKP (by decide) (by decide) (by decide)
    (fun sq h => by
      have hn : bKP.enPassant = none := by decide
      rw [hn] at h
      exact Option.noConfusion h)
    (by decide) (by decide)

theorem board_ext {x y : Board} (h1 : x.pieces = y.pieces)
    (h2 : x.occ = y.occ) (h3 : x.occAll = y.occAll)
    (h4 : x.sideToMove = y.sideToMove)
    (h5 : x.castlingRights = y.castlingRights)
    (h6 : x.enPassant = y.enPassant) (h7 : x.halfmoveClock = y.halfmoveClock)
    (h8 : x.fullmoveNumber = y.fullmoveNumber)
    (h9 : x.zobristHash = y.zobristHash) (h10 : x.history = y.history) :
    x = y := by
  cases x
  cases y
  simp_all

theorem opp_opp (c : Color) : c.opp.opp = c := by cases c <;> rfl

theorem piece_le_occ {b : Board} (hocc : occConsistent b) (pt : PieceType)
    (c : Color) {j : Nat} (h : (b.pieces pt c).testBit j = true) :
    (b.occ c).testBit j = true := by
  rw [hocc.1 c]
  simp only [sideUnion, ptList, List.foldl_cons, List.foldl_nil,
    Nat.testBit_lor, Bool.or_eq_true]
  cases pt <;> simp [h]

theorem occ_le_occAll {b : Board} (hocc : occConsistent b) {c : Color}
    {j : Nat} (h : (b.occ c).testBit j = true) :
    b.occAll.testBit j = true := by
  rw [hocc.2]
  simp only [Nat.testBit_lor, Bool.or_eq_true]
  cases c
  · exact Or.inl h
  · exact Or.inr h

theorem occ_clear_piece {b : Board} (hocc : occConsistent b) {c : Color}
    {j : Nat} (h : (b.occ c).testBit j = false) (pt : PieceType) :
    (b.pieces pt c).testBit j = false := by
  cases hb : (b.pieces pt c).testBit j
  · rfl
  · rw [piece_le_occ hocc pt c hb] at h
    cases h

theorem occAll_clear_occ {b : Board} (hocc : occConsistent b) {j : Nat}
    (h : b.occAll.testBit j = false) (c : Color) :
    (b.occ c).testBit j = false := by
  cases hb : (b.occ c).testBit j
  · rfl
  · rw [occ_le_occAll hocc hb] at h
    cases h

theorem occAll_clear_piece {b : Board} (hocc : occConsistent b) {j : Nat}
    (h : b.occAll.testBit j = false) (pt : PieceType) (c : Color) :
    (b.pieces pt c).testBit j = false :=
  occ_clear_piece hocc (occAll_clear_occ hocc h c) pt

theorem pieceTypeOn_eq_some {bd : Board} {sq : Nat} {pt : PieceType}
    (h : (bd.pieces pt Color.White ||| bd.pieces pt Color.Black).testBit sq
      = true)
    (hothers : ∀ pt2, pt2 ≠ pt →
      (bd.pieces pt2 Color.White |||
        bd.pieces pt2 Color.Black).testBit sq = false) :
    pieceTypeOn bd sq = some pt := by
  cases pt <;> simp [pieceTypeOn, ptList, List.find?, h, hothers]

theorem updPieces_apply (p : PieceType → Color → Nat) (pt : PieceType)
    (c : Color) (v : Nat) : updPieces p pt c v pt c = v := by
  simp [updPieces]

theorem updPieces_apply_ne (p : PieceType → Color → Nat) {pt pt2 : PieceType}
    {c c2 : Color} (v : Nat) (h : ¬(pt2 = pt ∧ c2 = c)) :
    updPieces p pt c v pt2 c2 = p pt2 c2 := by
  simp only [updPieces]
  rw [if_neg h]

theorem updPieces_updPieces (p : PieceType → Color → Nat) (pt : PieceType)
    (c : Color) (v w : Nat) :
    updPieces (updPieces p pt c v) pt c w = updPieces p pt c w := by
  funext pt2 c2
  simp only [updPieces]
  split_ifs with h1
  · rfl
  · rfl

theorem updPieces_self (p : PieceType → Color → Nat) (pt : PieceType)
    (c : Color) : updPieces p pt c (p pt c) = p := by
  funext pt2 c2
  simp only [updPieces]
  split_ifs with h1
  · rw [h1.1, h1.2]
  · rfl

theorem updOcc_apply (o : Color → Nat) (c : Color) (v : Nat) :
    updOcc o c v c = v := by
  simp [updOcc]

theorem updOcc_updOcc (o : Color → Nat) (c : Color) (v w : Nat) :
    updOcc (updOcc o c v) c w = updOcc o c w := by
  funext c2
  simp only [updOcc]
  split_ifs with h1
  · rfl
  · rfl

theorem updOcc_self (o : Color → Nat) (c : Color) :
    updOcc o c (o c) = o := by
  funext c2
  simp only [updOcc]
  split_ifs with h1
  · rw [h1]
  · rfl

theorem union_testBit_of_color {P : PieceType → Color → Nat}
    {pt : PieceType} {c : Color} {j : Nat} (h : (P pt c).testBit j = true) :
    (P pt Color.White ||| P pt Color.Black).testBit j = true := by
  rw [Nat.testBit_lor]
  cases c
  · simp [h]
  · simp [h]

theorem pieceTypeOn_of_pieces {bd : Board} (sq : Nat) {pt : PieceType}
    (P : PieceType → Color → Nat) (hbd : bd.pieces = P)
    (h : (P pt Color.White ||| P pt Color.Black).testBit sq = true)
    (hothers : ∀ pt2, pt2 ≠ pt →
      (P pt2 Color.White ||| P pt2 Color.Black).testBit sq = false) :
    pieceTypeOn bd sq = some pt := by
  apply pieceTypeOn_eq_some
  · rw [hbd]; exact h
  · intro pt2 hne
    rw [hbd]
    exact hothers pt2 hne

theorem lor_swap_xor_cancel (x f t : Nat) :
    (x ^^^ ((1 <<< f) ||| (1 <<< t))) ^^^ ((1 <<< t) ||| (1 <<< f)) = x := by
  rw [Nat.lor_comm (1 <<< t), Nat.xor_assoc, Nat.xor_self, Nat.xor_zero]

theorem makeMove_quiet_fields (K : ZKeys) (b : Board) {m f t fl : Nat}
    (hm : m = mvNew f t fl) (hf : f < 64) (ht : t < 64)
    (hfl : fl = 0 ∨ fl = 1) :
    (makeMove K b m).1.pieces =
      updPieces b.pieces ((pieceTypeOn b f).getD PieceType.King) b.sideToMove
        (b.pieces ((pieceTypeOn b f).getD PieceType.King) b.sideToMove ^^^
          ((1 <<< f) ||| (1 <<< t))) ∧
    (makeMove K b m).1.occ =
      updOcc b.occ b.sideToMove
        (b.occ b.sideToMove ^^^ ((1 <<< f) ||| (1 <<< t))) ∧
    (makeMove K b m).1.occAll = b.occAll ^^^ ((1 <<< f) ||| (1 <<< t)) ∧
    (makeMove K b m).1.sideToMove = b.sideToMove.opp ∧
    (makeMove K b m).1.fullmoveNumber =
      (if b.sideToMove = Color.Black then b.fullmoveNumber + 1
       else b.fullmoveNumber) ∧
    (makeMove K b m).1.history =
      (⟨b.castlingRights, b.enPassant, b.halfmoveClock, none,
        b.zobristHash⟩ : UndoInfo) :: b.history ∧
    (makeMove K b m).2 =
      (⟨b.castlingRights, b.enPassant, b.halfmoveClock, none,
        b.zobristHash⟩ : UndoInfo) := by
  have hfrom : fromSq m = f := by rw [hm]; exact fromSq_mvNew hf
  have hto : toSq m = t := by rw [hm]; exact toSq_mvNew hf ht
  have hflag : flagOf m = fl := by
    rw [hm]; exact flagOf_mvNew (by omega) ht (by omega)
  have hic : isCapture m = false := by
    rw [hm, isCapture_mvNew (by omega) ht (by omega)]
    rcases hfl with rfl | rfl <;> decide
  have hip : isPromotion m = false := by
    rw [hm, isPromotion_mvNew (by omega) ht (by omega)]
    rcases hfl with rfl | rfl <;> decide
  have h5 : (fl = EN_PASSANT_CAPTURE_FLAG) = False :=
    eq_false (by rcases hfl with rfl | rfl <;> decide)
  have h2 : (fl = KING_CASTLE_FLAG) = False :=
    eq_false (by rcases hfl with rfl | rfl <;> decide)
  have h3 : (fl = QUEEN_CASTLE_FLAG) = False :=
    eq_false (by rcases hfl with rfl | rfl <;> decide)
  unfold makeMove
  simp only [hfrom, hto, hflag, hic, hip, h5, h2, h3, Bool.false_eq_true,
    if_false, movePiece]
  exact ⟨trivial, trivial, trivial, trivial, trivial, trivial, trivial⟩

theorem unmake_quiet (b M : Board) (u0 : UndoInfo) {m f t fl : Nat}
    (hocc : occConsistent b)
    (hm : m = mvNew f t fl) (hf : f < 64) (ht : t < 64)
    (hfl : fl = 0 ∨ fl = 1)
    (hempty : b.occAll.testBit t = false)
    (hMp : M.pieces = updPieces b.pieces
      ((pieceTypeOn b f).getD PieceType.King) b.sideToMove
      (b.pieces ((pieceTypeOn b f).getD PieceType.King) b.sideToMove ^^^
        ((1 <<< f) ||| (1 <<< t))))
    (hMo : M.occ = updOcc b.occ b.sideToMove
      (b.occ b.sideToMove ^^^ ((1 <<< f) ||| (1 <<< t))))
    (hMa : M.occAll = b.occAll ^^^ ((1 <<< f) ||| (1 <<< t)))
    (hMs : M.sideToMove = b.sideToMove.opp)
    (hMf : M.fullmoveNumber = if b.sideToMove = Color.Black then
      b.fullmoveNumber + 1 else b.fullmoveNumber)
    (hMh : M.history = u0 :: b.history) :
    unmakeMove M m
      ⟨b.castlingRights, b.enPassant, b.halfmoveClock, none, b.zobristHash⟩
      = b := by
  have hfrom : fromSq m = f := by rw [hm]; exact fromSq_mvNew hf
  have hto : toSq m = t := by rw [hm]; exact toSq_mvNew hf ht
  have hflag : flagOf m = fl := by
    rw [hm]; exact flagOf_mvNew (by omega) ht (by omega)
  have hip : isPromotion m = false := by
    rw [hm, isPromotion_mvNew (by omega) ht (by omega)]
    rcases hfl with rfl | rfl <;> decide
  have h2 : (fl = KING_CASTLE_FLAG) = False :=
    eq_false (by rcases hfl with rfl | rfl <;> decide)
  have h3 : (fl = QUEEN_CASTLE_FLAG) = False :=
    eq_false (by rcases hfl with rfl | rfl <;> decide)
  have hmpbit : (b.pieces ((pieceTypeOn b f).getD PieceType.King)
      b.sideToMove).testBit t = false :=
    occAll_clear_piece hocc hempty _ _
  have hbit : ((updPieces b.pieces ((pieceTypeOn b f).getD PieceType.King)
        b.sideToMove
        (b.pieces ((pieceTypeOn b f).getD PieceType.King) b.sideToMove ^^^
          ((1 <<< f) ||| (1 <<< t))))
        ((pieceTypeOn b f).getD PieceType.King) Color.White |||
      (updPieces b.pieces ((pieceTypeOn b f).getD PieceType.King)
        b.sideToMove
        (b.pieces ((pieceTypeOn b f).getD PieceType.King) b.sideToMove ^^^
          ((1 <<< f) ||| (1 <<< t))))
        ((pieceTypeOn b f).getD PieceType.King) Color.Black).testBit t
      = true := by
    apply union_testBit_of_color (c := b.sideToMove)
    rw [updPieces_apply, Nat.testBit_xor, hmpbit]
    simp [Nat.testBit_lor, testBit_one_shiftLeft]
  have hothers : ∀ pt2, pt2 ≠ (pieceTypeOn b f).getD PieceType.King →
      ((updPieces b.pieces ((pieceTypeOn b f).getD PieceType.King)
          b.sideToMove
          (b.pieces ((pieceTypeOn b f).getD PieceType.King) b.sideToMove ^^^
            ((1 <<< f) ||| (1 <<< t)))) pt2 Color.White |||
        (updPieces b.pieces ((pieceTypeOn b f).getD PieceType.King)
          b.sideToMove
          (b.pieces ((pieceTypeOn b f).getD PieceType.King) b.sideToMove ^^^
            ((1 <<< f) ||| (1 <<< t)))) pt2 Color.Black).testBit t
        = false := by
    intro pt2 hne
    rw [Nat.testBit_lor,
      updPieces_apply_ne _ _ (fun hc => hne hc.1),
      updPieces_apply_ne _ _ (fun hc => hne hc.1),
      occAll_clear_piece hocc hempty pt2 Color.White,
      occAll_clear_piece hocc hempty pt2 Color.Black]
    rfl
  unfold unmakeMove
  simp only [hfrom, hto, hflag, hip, h2, h3, Bool.false_eq_true, if_false,
    hMs, hMf, hMh, opp_opp]
  rw [hMp, hMo, hMa]
  rw [pieceTypeOn_of_pieces t _ rfl hbit hothers]
  simp only [Option.getD_some, movePiece]
  apply board_ext
  · dsimp only
    rw [updPieces_apply, lor_swap_xor_cancel, updPieces_updPieces,
      updPieces_self]
  · dsimp only
    rw [updOcc_apply, lor_swap_xor_cancel, updOcc_updOcc, updOcc_self]
  · dsimp only
    rw [lor_swap_xor_cancel]
  · rfl
  · rfl
  · rfl
  · rfl
  · dsimp only
    cases b.sideToMove <;> simp
  · rfl
  · rfl

theorem restore_quiet (K : ZKeys) (b : Board) {m f t fl : Nat}
    (hocc : occConsistent b)
    (hm : m = mvNew f t fl) (hf : f < 64) (ht : t < 64)
    (hfl : fl = 0 ∨ fl = 1)
    (hempty : b.occAll.testBit t = false) :
    RestoresC1 K b m := by
  obtain ⟨hp, ho, ha, hs, hfm, hh, hu⟩ :=
    makeMove_quiet_fields K b hm hf ht hfl
  unfold RestoresC1
  rw [hu]
  exact unmake_quiet b (makeMove K b m).1 _ hocc hm hf ht hfl hempty
    hp ho ha hs hfm hh

theorem opp_ne (c : Color) : c.opp ≠ c := by cases c <;> decide

theorem ne_opp (c : Color) : c ≠ c.opp := by cases c <;> decide

theorem makeMove_capture_fields (K : ZKeys) (b : Board)
    {m f t fl : Nat} {cap : PieceType}
    (hm : m = mvNew f t fl) (hf : f < 64) (ht : t < 64) (hfl : fl = 4)
    (hcapt : pieceTypeOn b t = some cap) :
    (makeMove K b m).1.pieces =
      updPieces
        (updPieces b.pieces cap b.sideToMove.opp
          (b.pieces cap b.sideToMove.opp &&& u64not (1 <<< t)))
        ((pieceTypeOn b f).getD PieceType.King) b.sideToMove
        ((updPieces b.pieces cap b.sideToMove.opp
          (b.pieces cap b.sideToMove.opp &&& u64not (1 <<< t)))
          ((pieceTypeOn b f).getD PieceType.King) b.sideToMove ^^^
          ((1 <<< f) ||| (1 <<< t))) ∧
    (makeMove K b m).1.occ =
      updOcc
        (updOcc b.occ b.sideToMove.opp
          (b.occ b.sideToMove.opp &&& u64not (1 <<< t)))
        b.sideToMove
        ((updOcc b.occ b.sideToMove.opp
          (b.occ b.sideToMove.opp &&& u64not (1 <<< t))) b.sideToMove ^^^
          ((1 <<< f) ||| (1 <<< t))) ∧
    (makeMove K b m).1.occAll =
      (b.occAll &&& u64not (1 <<< t)) ^^^ ((1 <<< f) ||| (1 <<< t)) ∧
    (makeMove K b m).1.sideToMove = b.sideToMove.opp ∧
    (makeMove K b m).1.fullmoveNumber =
      (if b.sideToMove = Color.Black then b.fullmoveNumber + 1
       else b.fullmoveNumber) ∧
    (makeMove K b m).1.history =
      (⟨b.castlingRights, b.enPassant, b.halfmoveClock, some cap,
        b.zobristHash⟩ : UndoInfo) :: b.history ∧
    (makeMove K b m).2 =
      (⟨b.castlingRights, b.enPassant, b.halfmoveClock, some cap,
        b.zobristHash⟩ : UndoInfo) := by
  have hfrom : fromSq m = f := by rw [hm]; exact fromSq_mvNew hf
  have hto : toSq m = t := by rw [hm]; exact toSq_mvNew hf ht
  have hflag : flagOf m = fl := by
    rw [hm]; exact flagOf_mvNew (by omega) ht (by omega)
  have hic : isCapture m = true := by
    rw [hm, isCapture_mvNew (by omega) ht (by omega), hfl]
    decide
  have hip : isPromotion m = false := by
    rw [hm, isPromotion_mvNew (by omega) ht (by omega), hfl]
    decide
  have h5 : (fl = EN_PASSANT_CAPTURE_FLAG) = False :=
    eq_false (by rw [hfl]; decide)
  have h2 : (fl = KING_CASTLE_FLAG) = False :=
    eq_false (by rw [hfl]; decide)
  have h3 : (fl = QUEEN_CASTLE_FLAG) = False :=
    eq_false (by rw [hfl]; decide)
  unfold makeMove
  simp only [hfrom, hto, hflag, hic, hip, h5, h2, h3, hcapt,
    Bool.false_eq_true, if_false, eq_self_iff_true, if_true,
    movePiece, removePieceB]
  exact ⟨trivial, trivial, trivial, trivial, trivial, trivial, trivial⟩

theorem updOcc_apply_ne (o : Color → Nat) {c c2 : Color} (v : Nat)
    (h : ¬(c2 = c)) : updOcc o c v c2 = o c2 := by
  simp only [updOcc]
  rw [if_neg h]

theorem unmake_capture (b M : Board) (u0 : UndoInfo)
    {m f t fl : Nat} {cap : PieceType}
    (hbnd : boundedPieces b) (hocc : occConsistent b) (hD : disjointPieces b)
    (hm : m = mvNew f t fl) (hf : f < 64) (ht : t < 64) (hfl : fl = 4)
    (hcapbit : (b.pieces cap b.sideToMove.opp).testBit t = true)
    (hust : (b.occ b.sideToMove).testBit t = false)
    (hMp : M.pieces =
      updPieces
        (updPieces b.pieces cap b.sideToMove.opp
          (b.pieces cap b.sideToMove.opp &&& u64not (1 <<< t)))
        ((pieceTypeOn b f).getD PieceType.King) b.sideToMove
        ((updPieces b.pieces cap b.sideToMove.opp
          (b.pieces cap b.sideToMove.opp &&& u64not (1 <<< t)))
          ((pieceTypeOn b f).getD PieceType.King) b.sideToMove ^^^
          ((1 <<< f) ||| (1 <<< t))))
    (hMo : M.occ =
      updOcc
        (updOcc b.occ b.sideToMove.opp
          (b.occ b.sideToMove.opp &&& u64not (1 <<< t)))
        b.sideToMove
        ((updOcc b.occ b.sideToMove.opp
          (b.occ b.sideToMove.opp &&& u64not (1 <<< t))) b.sideToMove ^^^
          ((1 <<< f) ||| (1 <<< t))))
    (hMa : M.occAll =
      (b.occAll &&& u64not (1 <<< t)) ^^^ ((1 <<< f) ||| (1 <<< t)))
    (hMs : M.sideToMove = b.sideToMove.opp)
    (hMf : M.fullmoveNumber = if b.sideToMove = Color.Black then
      b.fullmoveNumber + 1 else b.fullmoveNumber)
    (hMh : M.history = u0 :: b.history) :
    unmakeMove M m
      ⟨b.castlingRights, b.enPassant, b.halfmoveClock, some cap,
        b.zobristHash⟩ = b := by
  have hfrom : fromSq m = f := by rw [hm]; exact fromSq_mvNew hf
  have hto : toSq m = t := by rw [hm]; exact toSq_mvNew hf ht
  have hflag : flagOf m = fl := by
    rw [hm]; exact flagOf_mvNew (by omega) ht (by omega)
  have hip : isPromotion m = false := by
    rw [hm, isPromotion_mvNew (by omega) ht (by omega), hfl]
    decide
  have h5 : (fl = EN_PASSANT_CAPTURE_FLAG) = False :=
    eq_false (by rw [hfl]; decide)
  have h2 : (fl = KING_CASTLE_FLAG) = False :=
    eq_false (by rw [hfl]; decide)
  have h3 : (fl = QUEEN_CASTLE_FLAG) = False :=
    eq_false (by rw [hfl]; decide)
  have hoccthem : (b.occ b.sideToMove.opp).testBit t = true :=
    piece_le_occ hocc cap b.sideToMove.opp hcapbit
  have hAllT : b.occAll.testBit t = true := occ_le_occAll hocc hoccthem
  have horig : ∀ pt2 c2, ¬(pt2 = cap ∧ c2 = b.sideToMove.opp) →
      (b.pieces pt2 c2).testBit t = false := by
    intro pt2 c2 hne2
    by_cases hc2 : c2 = b.sideToMove.opp
    · have hpt2 : ¬(pt2 = cap) := fun hcon => hne2 ⟨hcon, hc2⟩
      have hz := hD pt2 c2 cap b.sideToMove.opp
        (fun hcon => hpt2 hcon.1)
      have hb2 := congrArg (fun y => y.testBit t) hz
      simp only [Nat.testBit_land, hcapbit, Bool.and_true,
        Nat.zero_testBit] at hb2
      exact hb2
    · have hc2u : c2 = b.sideToMove := by
        cases c2 <;> cases hsm : b.sideToMove <;> simp_all [Color.opp]
      rw [hc2u]
      exact occ_clear_piece hocc hust pt2
  have hbit : ((updPieces
        (updPieces b.pieces cap b.sideToMove.opp
          (b.pieces cap b.sideToMove.opp &&& u64not (1 <<< t)))
        ((pieceTypeOn b f).getD PieceType.King) b.sideToMove
        ((updPieces b.pieces cap b.sideToMove.opp
          (b.pieces cap b.sideToMove.opp &&& u64not (1 <<< t)))
          ((pieceTypeOn b f).getD PieceType.King) b.sideToMove ^^^
          ((1 <<< f) ||| (1 <<< t))))
        ((pieceTypeOn b f).getD PieceType.King) Color.White |||
      (updPieces
        (updPieces b.pieces cap b.sideToMove.opp
          (b.pieces cap b.sideToMove.opp &&& u64not (1 <<< t)))
        ((pieceTypeOn b f).getD PieceType.King) b.sideToMove
        ((updPieces b.pieces cap b.sideToMove.opp
          (b.pieces cap b.sideToMove.opp &&& u64not (1 <<< t)))
          ((pieceTypeOn b f).getD PieceType.King) b.sideToMove ^^^
          ((1 <<< f) ||| (1 <<< t))))
        ((pieceTypeOn b f).getD PieceType.King) Color.Black).testBit t
      = true := by
    apply union_testBit_of_color (c := b.sideToMove)
    rw [updPieces_apply,
      updPieces_apply_ne _ _ (fun hc => ne_opp b.sideToMove hc.2),
      Nat.testBit_xor, occ_clear_piece hocc hust]
    simp [Nat.testBit_lor, testBit_one_shiftLeft]
  have hothers : ∀ pt2, pt2 ≠ (pieceTypeOn b f).getD PieceType.King →
      ((updPieces
          (updPieces b.pieces cap b.sideToMove.opp
            (b.pieces cap b.sideToMove.opp &&& u64not (1 <<< t)))
          ((pieceTypeOn b f).getD PieceType.King) b.sideToMove
          ((updPieces b.pieces cap b.sideToMove.opp
            (b.pieces cap b.sideToMove.opp &&& u64not (1 <<< t)))
            ((pieceTypeOn b f).getD PieceType.King) b.sideToMove ^^^
            ((1 <<< f) ||| (1 <<< t)))) pt2 Color.White |||
        (updPieces
          (updPieces b.pieces cap b.sideToMove.opp
            (b.pieces cap b.sideToMove.opp &&& u64not (1 <<< t)))
          ((pieceTypeOn b f).getD PieceType.King) b.sideToMove
          ((updPieces b.pieces cap b.sideToMove.opp
            (b.pieces cap b.sideToMove.opp &&& u64not (1 <<< t)))
            ((pieceTypeOn b f).getD PieceType.King) b.sideToMove ^^^
            ((1 <<< f) ||| (1 <<< t)))) pt2 Color.Black).testBit t
        = false := by
    intro pt2 hne
    have hcolor : ∀ c2, ((updPieces
        (updPieces b.pieces cap b.sideToMove.opp
          (b.pieces cap b.sideToMove.opp &&& u64not (1 <<< t)))
        ((pieceTypeOn b f).getD PieceType.King) b.sideToMove
        ((updPieces b.pieces cap b.sideToMove.opp
          (b.pieces cap b.sideToMove.opp &&& u64not (1 <<< t)))
          ((pieceTypeOn b f).getD PieceType.King) b.sideToMove ^^^
          ((1 <<< f) ||| (1 <<< t)))) pt2 c2).testBit t = false := by
      intro c2
      rw [updPieces_apply_ne _ _ (fun hc => hne hc.1)]
      by_cases hc : pt2 = cap ∧ c2 = b.sideToMove.opp
      · rw [hc.1, hc.2, updPieces_apply]
        simp [Nat.testBit_land, testBit_u64not, testBit_one_shiftLeft, ht]
      · rw [updPieces_apply_ne _ _ hc]
        exact horig pt2 c2 hc
    rw [Nat.testBit_lor, hcolor Color.White, hcolor Color.Black]
    rfl
  unfold unmakeMove
  simp only [hfrom, hto, hflag, hip, h5, h2, h3, Bool.false_eq_true,
    if_false, hMs, hMf, hMh, opp_opp]
  rw [hMp, hMo, hMa]
  rw [pieceTypeOn_of_pieces t _ rfl hbit hothers]
  simp only [Option.getD_some, movePiece, addPieceB]
  apply board_ext
  · dsimp only
    rw [updPieces_apply,
      updPieces_apply_ne _ _ (fun hc => ne_opp b.sideToMove hc.2),
      lor_swap_xor_cancel,
      updPieces_apply_ne _ _ (fun hc => opp_ne b.sideToMove hc.2),
      updPieces_apply_ne _ _ (fun hc => opp_ne b.sideToMove hc.2),
      updPieces_apply,
      and_not_or_cancel (hbnd.1 cap b.sideToMove.opp) ht hcapbit,
      updPieces_updPieces]
    funext pt2 c2
    simp only [updPieces]
    split_ifs with ha hb
    · rw [ha.1, ha.2]
    · rw [hb.1, hb.2]
    · rfl
  · dsimp only
    rw [updOcc_apply _ b.sideToMove,
      updOcc_apply_ne _ _ (ne_opp b.sideToMove),
      lor_swap_xor_cancel,
      updOcc_apply_ne _ _ (opp_ne b.sideToMove),
      updOcc_apply_ne _ _ (opp_ne b.sideToMove),
      updOcc_apply _ b.sideToMove.opp,
      and_not_or_cancel (hbnd.2.1 b.sideToMove.opp) ht hoccthem,
      updOcc_updOcc]
    funext c2
    simp only [updOcc]
    split_ifs with ha hb
    · rw [ha]
    · rw [hb]
    · rfl
  · dsimp only
    rw [lor_swap_xor_cancel,
      and_not_or_cancel hbnd.2.2 ht hAllT]
  · rfl
  · rfl
  · rfl
  · rfl
  · dsimp only
    cases b.sideToMove <;> simp
  · rfl
  · rfl

theorem occ_exists_piece {b : Board} (hocc : occConsistent b) {c : Color}
    {j : Nat} (h : (b.occ c).testBit j = true) :
    ∃ pt, (b.pieces pt c).testBit j = true := by
  rw [hocc.1 c] at h
  simp only [sideUnion, ptList, List.foldl_cons, List.foldl_nil,
    Nat.testBit_lor, Bool.or_eq_true, Nat.zero_testBit, Bool.false_eq_true,
    false_or] at h
  rcases h with ((((h | h) | h) | h) | h) | h
  · exact ⟨PieceType.Pawn, h⟩
  · exact ⟨PieceType.Knight, h⟩
  · exact ⟨PieceType.Bishop, h⟩
  · exact ⟨PieceType.Rook, h⟩
  · exact ⟨PieceType.Queen, h⟩
  · exact ⟨PieceType.King, h⟩

theorem capture_target {b : Board} (hocc : occConsistent b)
    (hD : disjointPieces b) {t : Nat}
    (hthem : (b.occ b.sideToMove.opp).testBit t = true)
    (hust : (b.occ b.sideToMove).testBit t = false) :
    ∃ cap, pieceTypeOn b t = some cap ∧
      (b.pieces cap b.sideToMove.opp).testBit t = true := by
  obtain ⟨cap, hcap⟩ := occ_exists_piece hocc hthem
  refine ⟨cap, ?_, hcap⟩
  apply pieceTypeOn_eq_some
  · exact union_testBit_of_color (c := b.sideToMove.opp) hcap
  · intro pt2 hne
    have hcol : ∀ c2, (b.pieces pt2 c2).testBit t = false := by
      intro c2
      by_cases hc2 : c2 = b.sideToMove.opp
      · have hz := hD pt2 b.sideToMove.opp cap b.sideToMove.opp
          (fun hcon => hne hcon.1)
        have hb2 := congrArg (fun y => y.testBit t) hz
        simp only [Nat.testBit_land, hcap, Bool.and_true,
          Nat.zero_testBit] at hb2
        rw [hc2]
        exact hb2
      · have hc2u : c2 = b.sideToMove := by
          cases c2 <;> cases hsm : b.sideToMove <;> simp_all [Color.opp]
        rw [hc2u]
        exact occ_clear_piece hocc hust pt2
    rw [Nat.testBit_lor, hcol Color.White, hcol Color.Black]
    rfl

theorem restore_capture (K : ZKeys) (b : Board) {m f t fl : Nat}
    (hbnd : boundedPieces b) (hocc : occConsistent b) (hD : disjointPieces b)
    (hm : m = mvNew f t fl) (hf : f < 64) (ht : t < 64) (hfl : fl = 4)
    (hthem : (b.occ b.sideToMove.opp).testBit t = true)
    (hust : (b.occ b.sideToMove).testBit t = false) :
    RestoresC1 K b m := by
  obtain ⟨cap, hcapt, hcapbit⟩ := capture_target hocc hD hthem hust
  obtain ⟨hp, ho, ha, hs, hfm, hh, hu⟩ :=
    makeMove_capture_fields K b hm hf ht hfl hcapt
  unfold RestoresC1
  rw [hu]
  exact unmake_capture b (makeMove K b m).1 _ hbnd hocc hD hm hf ht hfl
    hcapbit hust hp ho ha hs hfm hh

theorem promotionPiece_ne_pawn (m : Nat) :
    promotionPiece m ≠ PieceType.Pawn := by
  unfold promotionPiece
  split <;> decide

theorem makeMove_promo_fields (K : ZKeys) (b : Board) {m f t fl : Nat}
    (hm : m = mvNew f t fl) (hf : f < 64) (ht : t < 64)
    (hfl : fl = 8 ∨ fl = 9 ∨ fl = 10 ∨ fl = 11)
    (hmpf : pieceTypeOn b f = some PieceType.Pawn) :
    (makeMove K b m).1.pieces =
      updPieces
        (updPieces
          (updPieces b.pieces PieceType.Pawn b.sideToMove
            (b.pieces PieceType.Pawn b.sideToMove ^^^
              ((1 <<< f) ||| (1 <<< t))))
          PieceType.Pawn b.sideToMove
          ((updPieces b.pieces PieceType.Pawn b.sideToMove
            (b.pieces PieceType.Pawn b.sideToMove ^^^
              ((1 <<< f) ||| (1 <<< t)))) PieceType.Pawn b.sideToMove &&&
            u64not (1 <<< t)))
        (promotionPiece m) b.sideToMove
        ((updPieces
          (updPieces b.pieces PieceType.Pawn b.sideToMove
            (b.pieces PieceType.Pawn b.sideToMove ^^^
              ((1 <<< f) ||| (1 <<< t))))
          PieceType.Pawn b.sideToMove
          ((updPieces b.pieces PieceType.Pawn b.sideToMove
            (b.pieces PieceType.Pawn b.sideToMove ^^^
              ((1 <<< f) ||| (1 <<< t)))) PieceType.Pawn b.sideToMove &&&
            u64not (1 <<< t))) (promotionPiece m) b.sideToMove |||
          (1 <<< t)) ∧
    (makeMove K b m).1.occ =
      updOcc
        (updOcc
          (updOcc b.occ b.sideToMove
            (b.occ b.sideToMove ^^^ ((1 <<< f) ||| (1 <<< t))))
          b.sideToMove
          ((updOcc b.occ b.sideToMove
            (b.occ b.sideToMove ^^^ ((1 <<< f) ||| (1 <<< t))))
            b.sideToMove &&& u64not (1 <<< t)))
        b.sideToMove
        ((updOcc
          (updOcc b.occ b.sideToMove
            (b.occ b.sideToMove ^^^ ((1 <<< f) ||| (1 <<< t))))
          b.sideToMove
          ((updOcc b.occ b.sideToMove
            (b.occ b.sideToMove ^^^ ((1 <<< f) ||| (1 <<< t))))
            b.sideToMove &&& u64not (1 <<< t))) b.sideToMove |||
          (1 <<< t)) ∧
    (makeMove K b m).1.occAll =
      ((b.occAll ^^^ ((1 <<< f) ||| (1 <<< t))) &&& u64not (1 <<< t)) |||
        (1 <<< t) ∧
    (makeMove K b m).1.sideToMove = b.sideToMove.opp ∧
    (makeMove K b m).1.fullmoveNumber =
      (if b.sideToMove = Color.Black then b.fullmoveNumber + 1
       else b.fullmoveNumber) ∧
    (makeMove K b m).1.history =
      (⟨b.castlingRights, b.enPassant, b.halfmoveClock, none,
        b.zobristHash⟩ : UndoInfo) :: b.history ∧
    (makeMove K b m).2 =
      (⟨b.castlingRights, b.enPassant, b.halfmoveClock, none,
        b.zobristHash⟩ : UndoInfo) := by
  have hfrom : fromSq m = f := by rw [hm]; exact fromSq_mvNew hf
  have hto : toSq m = t := by rw [hm]; exact toSq_mvNew hf ht
  have hflag : flagOf m = fl := by
    rw [hm]; exact flagOf_mvNew (by omega) ht (by omega)
  have hic : isCapture m = false := by
    rw [hm, isCapture_mvNew (by omega) ht (by omega)]
    rcases hfl with rfl | rfl | rfl | rfl <;> decide
  have hip : isPromotion m = true := by
    rw [hm, isPromotion_mvNew (by omega) ht (by omega)]
    rcases hfl with rfl | rfl | rfl | rfl <;> decide
  have h5 : (fl = EN_PASSANT_CAPTURE_FLAG) = False :=
    eq_false (by rcases hfl with rfl | rfl | rfl | rfl <;> decide)
  unfold makeMove
  simp only [hfrom, hto, hflag, hic, hip, h5, hmpf, Bool.false_eq_true,
    if_false, eq_self_iff_true, if_true, Option.getD_some,
    movePiece, removePieceB, addPieceB]
  exact ⟨trivial, trivial, trivial, trivial, trivial, trivial, trivial⟩

theorem unmake_promo (b M : Board) (u0 : UndoInfo) {m f t fl : Nat}
    (hbnd : boundedPieces b) (hocc : occConsistent b)
    (hm : m = mvNew f t fl) (hf : f < 64) (ht : t < 64)
    (hfl : fl = 8 ∨ fl = 9 ∨ fl = 10 ∨ fl = 11)
    (hempty : b.occAll.testBit t = false)
    (hMp : M.pieces =
      updPieces
        (updPieces
          (updPieces b.pieces PieceType.Pawn b.sideToMove
            (b.pieces PieceType.Pawn b.sideToMove ^^^
              ((1 <<< f) ||| (1 <<< t))))
          PieceType.Pawn b.sideToMove
          ((updPieces b.pieces PieceType.Pawn b.sideToMove
            (b.pieces PieceType.Pawn b.sideToMove ^^^
              ((1 <<< f) ||| (1 <<< t)))) PieceType.Pawn b.sideToMove &&&
            u64not (1 <<< t)))
        (promotionPiece m) b.sideToMove
        ((updPieces
          (updPieces b.pieces PieceType.Pawn b.sideToMove
            (b.pieces PieceType.Pawn b.sideToMove ^^^
              ((1 <<< f) ||| (1 <<< t))))
          PieceType.Pawn b.sideToMove
          ((updPieces b.pieces PieceType.Pawn b.sideToMove
            (b.pieces PieceType.Pawn b.sideToMove ^^^
              ((1 <<< f) ||| (1 <<< t)))) PieceType.Pawn b.sideToMove &&&
            u64not (1 <<< t))) (promotionPiece m) b.sideToMove |||
          (1 <<< t)))
    (hMo : M.occ =
      updOcc
        (updOcc
          (updOcc b.occ b.sideToMove
            (b.occ b.sideToMove ^^^ ((1 <<< f) ||| (1 <<< t))))
          b.sideToMove
          ((updOcc b.occ b.sideToMove
            (b.occ b.sideToMove ^^^ ((1 <<< f) ||| (1 <<< t))))
            b.sideToMove &&& u64not (1 <<< t)))
        b.sideToMove
        ((updOcc
          (updOcc b.occ b.sideToMove
            (b.occ b.sideToMove ^^^ ((1 <<< f) ||| (1 <<< t))))
          b.sideToMove
          ((updOcc b.occ b.sideToMove
            (b.occ b.sideToMove ^^^ ((1 <<< f) ||| (1 <<< t))))
            b.sideToMove &&& u64not (1 <<< t))) b.sideToMove |||
          (1 <<< t)))
    (hMa : M.occAll =
      ((b.occAll ^^^ ((1 <<< f) ||| (1 <<< t))) &&& u64not (1 <<< t)) |||
        (1 <<< t))
    (hMs : M.sideToMove = b.sideToMove.opp)
    (hMf : M.fullmoveNumber = if b.sideToMove = Color.Black then
      b.fullmoveNumber + 1 else b.fullmoveNumber)
    (hMh : M.history = u0 :: b.history) :
    unmakeMove M m
      ⟨b.castlingRights, b.enPassant, b.halfmoveClock, none,
        b.zobristHash⟩ = b := by
  have hfrom : fromSq m = f := by rw [hm]; exact fromSq_mvNew hf
  have hto : toSq m = t := by rw [hm]; exact toSq_mvNew hf ht
  have hflag : flagOf m = fl := by
    rw [hm]; exact flagOf_mvNew (by omega) ht (by omega)
  have hip : isPromotion m = true := by
    rw [hm, isPromotion_mvNew (by omega) ht (by omega)]
    rcases hfl with rfl | rfl | rfl | rfl <;> decide
  have hprom_ne : promotionPiece m ≠ PieceType.Pawn :=
    promotionPiece_ne_pawn m
  have hprom_ne2 : PieceType.Pawn ≠ promotionPiece m :=
    fun hc => hprom_ne hc.symm
  have hSb : ((1 <<< f) ||| (1 <<< t)) < 2 ^ 64 :=
    lor_lt_two_pow (shiftLeft_lt_two_pow_64 hf) (shiftLeft_lt_two_pow_64 ht)
  have hPawnClear : (b.pieces PieceType.Pawn b.sideToMove).testBit t
      = false := occAll_clear_piece hocc hempty _ _
  have hPromClear : (b.pieces (promotionPiece m) b.sideToMove).testBit t
      = false := occAll_clear_piece hocc hempty _ _
  have hXb : (b.pieces PieceType.Pawn b.sideToMove ^^^
      ((1 <<< f) ||| (1 <<< t))) < 2 ^ 64 :=
    xor_lt_two_pow (hbnd.1 _ _) hSb
  have hXbit : (b.pieces PieceType.Pawn b.sideToMove ^^^
      ((1 <<< f) ||| (1 <<< t))).testBit t = true := by
    rw [Nat.testBit_xor, hPawnClear]
    simp [Nat.testBit_lor, testBit_one_shiftLeft]
  have hOClear : (b.occ b.sideToMove).testBit t = false :=
    occAll_clear_occ hocc hempty _
  have hOXb : (b.occ b.sideToMove ^^^ ((1 <<< f) ||| (1 <<< t))) < 2 ^ 64 :=
    xor_lt_two_pow (hbnd.2.1 _) hSb
  have hOXbit : (b.occ b.sideToMove ^^^
      ((1 <<< f) ||| (1 <<< t))).testBit t = true := by
    rw [Nat.testBit_xor, hOClear]
    simp [Nat.testBit_lor, testBit_one_shiftLeft]
  have hAXb : (b.occAll ^^^ ((1 <<< f) ||| (1 <<< t))) < 2 ^ 64 :=
    xor_lt_two_pow hbnd.2.2 hSb
  have hAXbit : (b.occAll ^^^
      ((1 <<< f) ||| (1 <<< t))).testBit t = true := by
    rw [Nat.testBit_xor, hempty]
    simp [Nat.testBit_lor, testBit_one_shiftLeft]
  have hbit : ((updPieces
        (updPieces
          (updPieces b.pieces PieceType.Pawn b.sideToMove
            (b.pieces PieceType.Pawn b.sideToMove ^^^
              ((1 <<< f) ||| (1 <<< t))))
          PieceType.Pawn b.sideToMove
          ((updPieces b.pieces PieceType.Pawn b.sideToMove
            (b.pieces PieceType.Pawn b.sideToMove ^^^
              ((1 <<< f) ||| (1 <<< t)))) PieceType.Pawn b.sideToMove &&&
            u64not (1 <<< t)))
        (promotionPiece m) b.sideToMove
        ((updPieces
          (updPieces b.pieces PieceType.Pawn b.sideToMove
            (b.pieces PieceType.Pawn b.sideToMove ^^^
              ((1 <<< f) ||| (1 <<< t))))
          PieceType.Pawn b.sideToMove
          ((updPieces b.pieces PieceType.Pawn b.sideToMove
            (b.pieces PieceType.Pawn b.sideToMove ^^^
              ((1 <<< f) ||| (1 <<< t)))) PieceType.Pawn b.sideToMove &&&
            u64not (1 <<< t))) (promotionPiece m) b.sideToMove |||
          (1 <<< t)))
        (promotionPiece m) Color.White |||
      (updPieces
        (updPieces
          (updPieces b.pieces PieceType.Pawn b.sideToMove
            (b.pieces PieceType.Pawn b.sideToMove ^^^
              ((1 <<< f) ||| (1 <<< t))))
          PieceType.Pawn b.sideToMove
          ((updPieces b.pieces PieceType.Pawn b.sideToMove
            (b.pieces PieceType.Pawn b.sideToMove ^^^
              ((1 <<< f) ||| (1 <<< t)))) PieceType.Pawn b.sideToMove &&&
            u64not (1 <<< t)))
        (promotionPiece m) b.sideToMove
        ((updPieces
          (updPieces b.pieces PieceType.Pawn b.sideToMove
            (b.pieces PieceType.Pawn b.sideToMove ^^^
              ((1 <<< f) ||| (1 <<< t))))
          PieceType.Pawn b.sideToMove
          ((updPieces b.pieces PieceType.Pawn b.sideToMove
            (b.pieces PieceType.Pawn b.sideToMove ^^^
              ((1 <<< f) ||| (1 <<< t)))) PieceType.Pawn b.sideToMove &&&
            u64not (1 <<< t))) (promotionPiece m) b.sideToMove |||
          (1 <<< t)))
        (promotionPiece m) Color.Black).testBit t = true := by
    apply union_testBit_of_color (c := b.sideToMove)
    simp only [updPieces, eq_self_iff_true, and_self, if_true,
      eq_false hprom_ne, false_and, if_false]
    simp [Nat.testBit_lor, testBit_one_shiftLeft]
  have hothers : ∀ pt2, pt2 ≠ promotionPiece m →
      ((updPieces
        (updPieces
          (updPieces b.pieces PieceType.Pawn b.sideToMove
            (b.pieces PieceType.Pawn b.sideToMove ^^^
              ((1 <<< f) ||| (1 <<< t))))
          PieceType.Pawn b.sideToMove
          ((updPieces b.pieces PieceType.Pawn b.sideToMove
            (b.pieces PieceType.Pawn b.sideToMove ^^^
              ((1 <<< f) ||| (1 <<< t)))) PieceType.Pawn b.sideToMove &&&
            u64not (1 <<< t)))
        (promotionPiece m) b.sideToMove
        ((updPieces
          (updPieces b.pieces PieceType.Pawn b.sideToMove
            (b.pieces PieceType.Pawn b.sideToMove ^^^
              ((1 <<< f) ||| (1 <<< t))))
          PieceType.Pawn b.sideToMove
          ((updPieces b.pieces PieceType.Pawn b.sideToMove
            (b.pieces PieceType.Pawn b.sideToMove ^^^
              ((1 <<< f) ||| (1 <<< t)))) PieceType.Pawn b.sideToMove &&&
            u64not (1 <<< t))) (promotionPiece m) b.sideToMove |||
          (1 <<< t))) pt2 Color.White |||
      (updPieces
        (updPieces
          (updPieces b.pieces PieceType.Pawn b.sideToMove
            (b.pieces PieceType.Pawn b.sideToMove ^^^
              ((1 <<< f) ||| (1 <<< t))))
          PieceType.Pawn b.sideToMove
          ((updPieces b.pieces PieceType.Pawn b.sideToMove
            (b.pieces PieceType.Pawn b.sideToMove ^^^
              ((1 <<< f) ||| (1 <<< t)))) PieceType.Pawn b.sideToMove &&&
            u64not (1 <<< t)))
        (promotionPiece m) b.sideToMove
        ((updPieces
          (updPieces b.pieces PieceType.Pawn b.sideToMove
            (b.pieces PieceType.Pawn b.sideToMove ^^^
              ((1 <<< f) ||| (1 <<< t))))
          PieceType.Pawn b.sideToMove
          ((updPieces b.pieces PieceType.Pawn b.sideToMove
            (b.pieces PieceType.Pawn b.sideToMove ^^^
              ((1 <<< f) ||| (1 <<< t)))) PieceType.Pawn b.sideToMove &&&
            u64not (1 <<< t))) (promotionPiece m) b.sideToMove |||
          (1 <<< t))) pt2 Color.Black).testBit t = false := by
    intro pt2 hne
    have hcolor : ∀ c2, ((updPieces
        (updPieces
          (updPieces b.pieces PieceType.Pawn b.sideToMove
            (b.pieces PieceType.Pawn b.sideToMove ^^^
              ((1 <<< f) ||| (1 <<< t))))
          PieceType.Pawn b.sideToMove
          ((updPieces b.pieces PieceType.Pawn b.sideToMove
            (b.pieces PieceType.Pawn b.sideToMove ^^^
              ((1 <<< f) ||| (1 <<< t)))) PieceType.Pawn b.sideToMove &&&
            u64not (1 <<< t)))
        (promotionPiece m) b.sideToMove
        ((updPieces
          (updPieces b.pieces PieceType.Pawn b.sideToMove
            (b.pieces PieceType.Pawn b.sideToMove ^^^
              ((1 <<< f) ||| (1 <<< t))))
          PieceType.Pawn b.sideToMove
          ((updPieces b.pieces PieceType.Pawn b.sideToMove
            (b.pieces PieceType.Pawn b.sideToMove ^^^
              ((1 <<< f) ||| (1 <<< t)))) PieceType.Pawn b.sideToMove &&&
            u64not (1 <<< t))) (promotionPiece m) b.sideToMove |||
          (1 <<< t))) pt2 c2).testBit t = false := by
      intro c2
      simp only [updPieces, eq_self_iff_true, and_self, if_true,
        eq_false hprom_ne2, false_and, if_false]
      rw [if_neg (fun hcon => hne hcon.1)]
      by_cases hc : pt2 = PieceType.Pawn ∧ c2 = b.sideToMove
      · rw [if_pos hc]
        simp [Nat.testBit_land, testBit_u64not, testBit_one_shiftLeft, ht]
      · rw [if_neg hc, if_neg hc]
        exact occAll_clear_piece hocc hempty pt2 c2
    rw [Nat.testBit_lor, hcolor Color.White, hcolor Color.Black]
    rfl
  unfold unmakeMove
  simp only [hfrom, hto, hflag, hip, Bool.false_eq_true, if_false,
    eq_self_iff_true, if_true, hMs, hMf, hMh, opp_opp]
  rw [hMp, hMo, hMa]
  rw [pieceTypeOn_of_pieces t _ rfl hbit hothers]
  simp only [Option.getD_some, movePiece, addPieceB, removePieceB]
  apply board_ext
  · dsimp only
    funext pt2 c2
    simp only [updPieces, eq_self_iff_true, and_self, if_true,
      eq_false hprom_ne, eq_false hprom_ne2, false_and, and_false, if_false]
    split_ifs with ha hb
    · rw [ha.1, ha.2, and_not_or_cancel hXb ht hXbit, lor_swap_xor_cancel]
    · rw [hb.1, hb.2,
        or_and_not_cancel (hbnd.1 _ _) ht hPromClear]
    · rfl
  · dsimp only
    funext c2
    simp only [updOcc, eq_self_iff_true, if_true]
    split_ifs with ha
    · rw [ha,
        or_and_not_cancel (land_lt_two_pow_left hOXb) ht (by
          simp [Nat.testBit_land, testBit_u64not, testBit_one_shiftLeft,
            ht, hOXbit]),
        and_not_or_cancel hOXb ht hOXbit, lor_swap_xor_cancel]
    · rfl
  · dsimp only
    rw [or_and_not_cancel (land_lt_two_pow_left hAXb) ht (by
        simp [Nat.testBit_land, testBit_u64not, testBit_one_shiftLeft,
          ht, hAXbit]),
      and_not_or_cancel hAXb ht hAXbit, lor_swap_xor_cancel]
  · rfl
  · rfl
  · rfl
  · rfl
  · dsimp only
    cases b.sideToMove <;> simp
  · rfl
  · rfl

theorem restore_promo (K : ZKeys) (b : Board) {m f t fl : Nat}
    (hbnd : boundedPieces b) (hocc : occConsistent b)
    (hm : m = mvNew f t fl) (hf : f < 64) (ht : t < 64)
    (hfl : fl = 8 ∨ fl = 9 ∨ fl = 10 ∨ fl = 11)
    (hempty : b.occAll.testBit t = false)
    (hmpf : pieceTypeOn b f = some PieceType.Pawn) :
    RestoresC1 K b m := by
  obtain ⟨hp, ho, ha, hs, hfm, hh, hu⟩ :=
    makeMove_promo_fields K b hm hf ht hfl hmpf
  unfold RestoresC1
  rw [hu]
  exact unmake_promo b (makeMove K b m).1 _ hbnd hocc hm hf ht hfl hempty
    hp ho ha hs hfm hh

theorem makeMove_promocap_fields (K : ZKeys) (b : Board)
    {m f t fl : Nat} {cap : PieceType}
    (hm : m = mvNew f t fl) (hf : f < 64) (ht : t < 64)
    (hfl : fl = 12 ∨ fl = 13 ∨ fl = 14 ∨ fl = 15)
    (hcapt : pieceTypeOn b t = some cap)
    (hmpf : pieceTypeOn b f = some PieceType.Pawn) :
    (makeMove K b m).1.pieces = (updPieces (updPieces (updPieces (updPieces b.pieces cap b.sideToMove.opp
          (b.pieces cap b.sideToMove.opp &&& u64not (1 <<< t))) PieceType.Pawn b.sideToMove
          ((updPieces b.pieces cap b.sideToMove.opp
          (b.pieces cap b.sideToMove.opp &&& u64not (1 <<< t))) PieceType.Pawn b.sideToMove ^^^ ((1 <<< f) ||| (1 <<< t)))) PieceType.Pawn b.sideToMove
          ((updPieces (updPieces b.pieces cap b.sideToMove.opp
          (b.pieces cap b.sideToMove.opp &&& u64not (1 <<< t))) PieceType.Pawn b.sideToMove
          ((updPieces b.pieces cap b.sideToMove.opp
          (b.pieces cap b.sideToMove.opp &&& u64not (1 <<< t))) PieceType.Pawn b.sideToMove ^^^ ((1 <<< f) ||| (1 <<< t)))) PieceType.Pawn b.sideToMove &&& u64not (1 <<< t))) (promotionPiece m) b.sideToMove
          ((updPieces (updPieces (updPieces b.pieces cap b.sideToMove.opp
          (b.pieces cap b.sideToMove.opp &&& u64not (1 <<< t))) PieceType.Pawn b.sideToMove
          ((updPieces b.pieces cap b.sideToMove.opp
          (b.pieces cap b.sideToMove.opp &&& u64not (1 <<< t))) PieceType.Pawn b.sideToMove ^^^ ((1 <<< f) ||| (1 <<< t)))) PieceType.Pawn b.sideToMove
          ((updPieces (updPieces b.pieces cap b.sideToMove.opp
          (b.pieces cap b.sideToMove.opp &&& u64not (1 <<< t))) PieceType.Pawn b.sideToMove
          ((updPieces b.pieces cap b.sideToMove.opp
          (b.pieces cap b.sideToMove.opp &&& u64not (1 <<< t))) PieceType.Pawn b.sideToMove ^^^ ((1 <<< f) ||| (1 <<< t)))) PieceType.Pawn b.sideToMove &&& u64not (1 <<< t))) (promotionPiece m) b.sideToMove ||| (1 <<< t))) ∧
    (makeMove K b m).1.occ = (updOcc (updOcc (updOcc (updOcc b.occ b.sideToMove.opp
          (b.occ b.sideToMove.opp &&& u64not (1 <<< t))) b.sideToMove
          ((updOcc b.occ b.sideToMove.opp
          (b.occ b.sideToMove.opp &&& u64not (1 <<< t))) b.sideToMove ^^^ ((1 <<< f) ||| (1 <<< t)))) b.sideToMove
          ((updOcc (updOcc b.occ b.sideToMove.opp
          (b.occ b.sideToMove.opp &&& u64not (1 <<< t))) b.sideToMove
          ((updOcc b.occ b.sideToMove.opp
          (b.occ b.sideToMove.opp &&& u64not (1 <<< t))) b.sideToMove ^^^ ((1 <<< f) ||| (1 <<< t)))) b.sideToMove &&& u64not (1 <<< t))) b.sideToMove
          ((updOcc (updOcc (updOcc b.occ b.sideToMove.opp
          (b.occ b.sideToMove.opp &&& u64not (1 <<< t))) b.sideToMove
          ((updOcc b.occ b.sideToMove.opp
          (b.occ b.sideToMove.opp &&& u64not (1 <<< t))) b.sideToMove ^^^ ((1 <<< f) ||| (1 <<< t)))) b.sideToMove
          ((updOcc (updOcc b.occ b.sideToMove.opp
          (b.occ b.sideToMove.opp &&& u64not (1 <<< t))) b.sideToMove
          ((updOcc b.occ b.sideToMove.opp
          (b.occ b.sideToMove.opp &&& u64not (1 <<< t))) b.sideToMove ^^^ ((1 <<< f) ||| (1 <<< t)))) b.sideToMove &&& u64not (1 <<< t))) b.sideToMove ||| (1 <<< t))) ∧
    (makeMove K b m).1.occAll = ((((b.occAll &&& u64not (1 <<< t)) ^^^ ((1 <<< f) ||| (1 <<< t))) &&& u64not (1 <<< t)) ||| (1 <<< t)) ∧
    (makeMove K b m).1.sideToMove = b.sideToMove.opp ∧
    (makeMove K b m).1.fullmoveNumber =
      (if b.sideToMove = Color.Black then b.fullmoveNumber + 1
       else b.fullmoveNumber) ∧
    (makeMove K b m).1.history =
      (⟨b.castlingRights, b.enPassant, b.halfmoveClock, some cap,
        b.zobristHash⟩ : UndoInfo) :: b.history ∧
    (makeMove K b m).2 =
      (⟨b.castlingRights, b.enPassant, b.halfmoveClock, some cap,
        b.zobristHash⟩ : UndoInfo) := by
  have hfrom : fromSq m = f := by rw [hm]; exact fromSq_mvNew hf
  have hto : toSq m = t := by rw [hm]; exact toSq_mvNew hf ht
  have hflag : flagOf m = fl := by
    rw [hm]; exact flagOf_mvNew (by omega) ht (by omega)
  have hic : isCapture m = true := by
    rw [hm, isCapture_mvNew (by omega) ht (by omega)]
    rcases hfl with rfl | rfl | rfl | rfl <;> decide
  have hip : isPromotion m = true := by
    rw [hm, isPromotion_mvNew (by omega) ht (by omega)]
    rcases hfl with rfl | rfl | rfl | rfl <;> decide
  have h5 : (fl = EN_PASSANT_CAPTURE_FLAG) = False :=
    eq_false (by rcases hfl with rfl | rfl | rfl | rfl <;> decide)
  unfold makeMove
  simp only [hfrom, hto, hflag, hic, hip, h5, hcapt, hmpf,
    Bool.false_eq_true, if_false, eq_self_iff_true, if_true,
    Option.getD_some, movePiece, removePieceB, addPieceB]
  exact ⟨trivial, trivial, trivial, trivial, trivial, trivial, trivial⟩

theorem unmake_promocap (b M : Board) (u0 : UndoInfo)
    {m f t fl : Nat} {cap : PieceType}
    (hbnd : boundedPieces b) (hocc : occConsistent b) (hD : disjointPieces b)
    (hm : m = mvNew f t fl) (hf : f < 64) (ht : t < 64)
    (hfl : fl = 12 ∨ fl = 13 ∨ fl = 14 ∨ fl = 15)
    (hcapbit : (b.pieces cap b.sideToMove.opp).testBit t = true)
    (hust : (b.occ b.sideToMove).testBit t = false)
    (hMp : M.pieces = (updPieces (updPieces (updPieces (updPieces b.pieces cap b.sideToMove.opp
          (b.pieces cap b.sideToMove.opp &&& u64not (1 <<< t))) PieceType.Pawn b.sideToMove
          ((updPieces b.pieces cap b.sideToMove.opp
          (b.pieces cap b.sideToMove.opp &&& u64not (1 <<< t))) PieceType.Pawn b.sideToMove ^^^ ((1 <<< f) ||| (1 <<< t)))) PieceType.Pawn b.sideToMove
          ((updPieces (updPieces b.pieces cap b.sideToMove.opp
          (b.pieces cap b.sideToMove.opp &&& u64not (1 <<< t))) PieceType.Pawn b.sideToMove
          ((updPieces b.pieces cap b.sideToMove.opp
          (b.pieces cap b.sideToMove.opp &&& u64not (1 <<< t))) PieceType.Pawn b.sideToMove ^^^ ((1 <<< f) ||| (1 <<< t)))) PieceType.Pawn b.sideToMove &&& u64not (1 <<< t))) (promotionPiece m) b.sideToMove
          ((updPieces (updPieces (updPieces b.pieces cap b.sideToMove.opp
          (b.pieces cap b.sideToMove.opp &&& u64not (1 <<< t))) PieceType.Pawn b.sideToMove
          ((updPieces b.pieces cap b.sideToMove.opp
          (b.pieces cap b.sideToMove.opp &&& u64not (1 <<< t))) PieceType.Pawn b.sideToMove ^^^ ((1 <<< f) ||| (1 <<< t)))) PieceType.Pawn b.sideToMove
          ((updPieces (updPieces b.pieces cap b.sideToMove.opp
          (b.pieces cap b.sideToMove.opp &&& u64not (1 <<< t))) PieceType.Pawn b.sideToMove
          ((updPieces b.pieces cap b.sideToMove.opp
          (b.pieces cap b.sideToMove.opp &&& u64not (1 <<< t))) PieceType.Pawn b.sideToMove ^^^ ((1 <<< f) ||| (1 <<< t)))) PieceType.Pawn b.sideToMove &&& u64not (1 <<< t))) (promotionPiece m) b.sideToMove ||| (1 <<< t))))
    (hMo : M.occ = (updOcc (updOcc (updOcc (updOcc b.occ b.sideToMove.opp
          (b.occ b.sideToMove.opp &&& u64not (1 <<< t))) b.sideToMove
          ((updOcc b.occ b.sideToMove.opp
          (b.occ b.sideToMove.opp &&& u64not (1 <<< t))) b.sideToMove ^^^ ((1 <<< f) ||| (1 <<< t)))) b.sideToMove
          ((updOcc (updOcc b.occ b.sideToMove.opp
          (b.occ b.sideToMove.opp &&& u64not (1 <<< t))) b.sideToMove
          ((updOcc b.occ b.sideToMove.opp
          (b.occ b.sideToMove.opp &&& u64not (1 <<< t))) b.sideToMove ^^^ ((1 <<< f) ||| (1 <<< t)))) b.sideToMove &&& u64not (1 <<< t))) b.sideToMove
          ((updOcc (updOcc (updOcc b.occ b.sideToMove.opp
          (b.occ b.sideToMove.opp &&& u64not (1 <<< t))) b.sideToMove
          ((updOcc b.occ b.sideToMove.opp
          (b.occ b.sideToMove.opp &&& u64not (1 <<< t))) b.sideToMove ^^^ ((1 <<< f) ||| (1 <<< t)))) b.sideToMove
          ((updOcc (updOcc b.occ b.sideToMove.opp
          (b.occ b.sideToMove.opp &&& u64not (1 <<< t))) b.sideToMove
          ((updOcc b.occ b.sideToMove.opp
          (b.occ b.sideToMove.opp &&& u64not (1 <<< t))) b.sideToMove ^^^ ((1 <<< f) ||| (1 <<< t)))) b.sideToMove &&& u64not (1 <<< t))) b.sideToMove ||| (1 <<< t))))
    (hMa : M.occAll = ((((b.occAll &&& u64not (1 <<< t)) ^^^ ((1 <<< f) ||| (1 <<< t))) &&& u64not (1 <<< t)) ||| (1 <<< t)))
    (hMs : M.sideToMove = b.sideToMove.opp)
    (hMf : M.fullmoveNumber = if b.sideToMove = Color.Black then
      b.fullmoveNumber + 1 else b.fullmoveNumber)
    (hMh : M.history = u0 :: b.history) :
    unmakeMove M m
      ⟨b.castlingRights, b.enPassant, b.halfmoveClock, some cap,
        b.zobristHash⟩ = b := by
  have hfrom : fromSq m = f := by rw [hm]; exact fromSq_mvNew hf
  have hto : toSq m = t := by rw [hm]; exact toSq_mvNew hf ht
  have hflag : flagOf m = fl := by
    rw [hm]; exact flagOf_mvNew (by omega) ht (by omega)
  have hip : isPromotion m = true := by
    rw [hm, isPromotion_mvNew (by omega) ht (by omega)]
    rcases hfl with rfl | rfl | rfl | rfl <;> decide
  have h5 : (fl = EN_PASSANT_CAPTURE_FLAG) = False :=
    eq_false (by rcases hfl with rfl | rfl | rfl | rfl <;> decide)
  have hprom_ne : promotionPiece m ≠ PieceType.Pawn :=
    promotionPiece_ne_pawn m
  have hprom_ne2 : PieceType.Pawn ≠ promotionPiece m :=
    fun hc => hprom_ne hc.symm
  have hSb : ((1 <<< f) ||| (1 <<< t)) < 2 ^ 64 :=
    lor_lt_two_pow (shiftLeft_lt_two_pow_64 hf) (shiftLeft_lt_two_pow_64 ht)
  have hPawnClear : (b.pieces PieceType.Pawn b.sideToMove).testBit t
      = false := occ_clear_piece hocc hust _
  have hPromClear : (b.pieces (promotionPiece m) b.sideToMove).testBit t
      = false := occ_clear_piece hocc hust _
  have hoccthem : (b.occ b.sideToMove.opp).testBit t = true :=
    piece_le_occ hocc cap b.sideToMove.opp hcapbit
  have hAllT : b.occAll.testBit t = true := occ_le_occAll hocc hoccthem
  have hXb : (b.pieces PieceType.Pawn b.sideToMove ^^^
      ((1 <<< f) ||| (1 <<< t))) < 2 ^ 64 :=
    xor_lt_two_pow (hbnd.1 _ _) hSb
  have hXbit : (b.pieces PieceType.Pawn b.sideToMove ^^^
      ((1 <<< f) ||| (1 <<< t))).testBit t = true := by
    rw [Nat.testBit_xor, hPawnClear]
    simp [Nat.testBit_lor, testBit_one_shiftLeft]
  have hOXb : (b.occ b.sideToMove ^^^ ((1 <<< f) ||| (1 <<< t))) < 2 ^ 64 :=
    xor_lt_two_pow (hbnd.2.1 _) hSb
  have hOXbit : (b.occ b.sideToMove ^^^
      ((1 <<< f) ||| (1 <<< t))).testBit t = true := by
    rw [Nat.testBit_xor, hust]
    simp [Nat.testBit_lor, testBit_one_shiftLeft]
  have hAXb : ((b.occAll &&& u64not (1 <<< t)) ^^^
      ((1 <<< f) ||| (1 <<< t))) < 2 ^ 64 :=
    xor_lt_two_pow (land_lt_two_pow_left hbnd.2.2) hSb
  have hAXbit : ((b.occAll &&& u64not (1 <<< t)) ^^^
      ((1 <<< f) ||| (1 <<< t))).testBit t = true := by
    rw [Nat.testBit_xor]
    simp [Nat.testBit_land, testBit_u64not, testBit_one_shiftLeft, ht,
      Nat.testBit_lor]
  have horig : ∀ pt2 c2, ¬(pt2 = cap ∧ c2 = b.sideToMove.opp) →
      (b.pieces pt2 c2).testBit t = false := by
    intro pt2 c2 hne2
    by_cases hc2 : c2 = b.sideToMove.opp
    · have hpt2 : ¬(pt2 = cap) := fun hcon => hne2 ⟨hcon, hc2⟩
      have hz := hD pt2 b.sideToMove.opp cap b.sideToMove.opp
        (fun hcon => hpt2 hcon.1)
      have hb2 := congrArg (fun y => y.testBit t) hz
      simp only [Nat.testBit_land, hcapbit, Bool.and_true,
        Nat.zero_testBit] at hb2
      rw [hc2]
      exact hb2
    · have hc2u : c2 = b.sideToMove := by
        cases c2 <;> cases hsm : b.sideToMove <;> simp_all [Color.opp]
      rw [hc2u]
      exact occ_clear_piece hocc hust pt2
  have hbit : (((updPieces (updPieces (updPieces (updPieces b.pieces cap b.sideToMove.opp
          (b.pieces cap b.sideToMove.opp &&& u64not (1 <<< t))) PieceType.Pawn b.sideToMove
          ((updPieces b.pieces cap b.sideToMove.opp
          (b.pieces cap b.sideToMove.opp &&& u64not (1 <<< t))) PieceType.Pawn b.sideToMove ^^^ ((1 <<< f) ||| (1 <<< t)))) PieceType.Pawn b.sideToMove
          ((updPieces (updPieces b.pieces cap b.sideToMove.opp
          (b.pieces cap b.sideToMove.opp &&& u64not (1 <<< t))) PieceType.Pawn b.sideToMove
          ((updPieces b.pieces cap b.sideToMove.opp
          (b.pieces cap b.sideToMove.opp &&& u64not (1 <<< t))) PieceType.Pawn b.sideToMove ^^^ ((1 <<< f) ||| (1 <<< t)))) PieceType.Pawn b.sideToMove &&& u64not (1 <<< t))) (promotionPiece m) b.sideToMove
          ((updPieces (updPieces (updPieces b.pieces cap b.sideToMove.opp
          (b.pieces cap b.sideToMove.opp &&& u64not (1 <<< t))) PieceType.Pawn b.sideToMove
          ((updPieces b.pieces cap b.sideToMove.opp
          (b.pieces cap b.sideToMove.opp &&& u64not (1 <<< t))) PieceType.Pawn b.sideToMove ^^^ ((1 <<< f) ||| (1 <<< t)))) PieceType.Pawn b.sideToMove
          ((updPieces (updPieces b.pieces cap b.sideToMove.opp
          (b.pieces cap b.sideToMove.opp &&& u64not (1 <<< t))) PieceType.Pawn b.sideToMove
          ((updPieces b.pieces cap b.sideToMove.opp
          (b.pieces cap b.sideToMove.opp &&& u64not (1 <<< t))) PieceType.Pawn b.sideToMove ^^^ ((1 <<< f) ||| (1 <<< t)))) PieceType.Pawn b.sideToMove &&& u64not (1 <<< t))) (promotionPiece m) b.sideToMove ||| (1 <<< t)))) (promotionPiece m) Color.White |||
      ((updPieces (updPieces (updPieces (updPieces b.pieces cap b.sideToMove.opp
          (b.pieces cap b.sideToMove.opp &&& u64not (1 <<< t))) PieceType.Pawn b.sideToMove
          ((updPieces b.pieces cap b.sideToMove.opp
          (b.pieces cap b.sideToMove.opp &&& u64not (1 <<< t))) PieceType.Pawn b.sideToMove ^^^ ((1 <<< f) ||| (1 <<< t)))) PieceType.Pawn b.sideToMove
          ((updPieces (updPieces b.pieces cap b.sideToMove.opp
          (b.pieces cap b.sideToMove.opp &&& u64not (1 <<< t))) PieceType.Pawn b.sideToMove
          ((updPieces b.pieces cap b.sideToMove.opp
          (b.pieces cap b.sideToMove.opp &&& u64not (1 <<< t))) PieceType.Pawn b.sideToMove ^^^ ((1 <<< f) ||| (1 <<< t)))) PieceType.Pawn b.sideToMove &&& u64not (1 <<< t))) (promotionPiece m) b.sideToMove
          ((updPieces (updPieces (updPieces b.pieces cap b.sideToMove.opp
          (b.pieces cap b.sideToMove.opp &&& u64not (1 <<< t))) PieceType.Pawn b.sideToMove
          ((updPieces b.pieces cap b.sideToMove.opp
          (b.pieces cap b.sideToMove.opp &&& u64not (1 <<< t))) PieceType.Pawn b.sideToMove ^^^ ((1 <<< f) ||| (1 <<< t)))) PieceType.Pawn b.sideToMove
          ((updPieces (updPieces b.pieces cap b.sideToMove.opp
          (b.pieces cap b.sideToMove.opp &&& u64not (1 <<< t))) PieceType.Pawn b.sideToMove
          ((updPieces b.pieces cap b.sideToMove.opp
          (b.pieces cap b.sideToMove.opp &&& u64not (1 <<< t))) PieceType.Pawn b.sideToMove ^^^ ((1 <<< f) ||| (1 <<< t)))) PieceType.Pawn b.sideToMove &&& u64not (1 <<< t))) (promotionPiece m) b.sideToMove ||| (1 <<< t)))) (promotionPiece m) Color.Black).testBit t = true := by
    apply union_testBit_of_color (c := b.sideToMove)
    simp only [updPieces, eq_self_iff_true, and_self, if_true,
      eq_false hprom_ne, eq_false (ne_opp b.sideToMove),
      eq_false (opp_ne b.sideToMove), false_and, and_false, if_false]
    simp [Nat.testBit_lor, testBit_one_shiftLeft]
  have hothers : ∀ pt2, pt2 ≠ promotionPiece m →
      (((updPieces (updPieces (updPieces (updPieces b.pieces cap b.sideToMove.opp
          (b.pieces cap b.sideToMove.opp &&& u64not (1 <<< t))) PieceType.Pawn b.sideToMove
          ((updPieces b.pieces cap b.sideToMove.opp
          (b.pieces cap b.sideToMove.opp &&& u64not (1 <<< t))) PieceType.Pawn b.sideToMove ^^^ ((1 <<< f) ||| (1 <<< t)))) PieceType.Pawn b.sideToMove
          ((updPieces (updPieces b.pieces cap b.sideToMove.opp
          (b.pieces cap b.sideToMove.opp &&& u64not (1 <<< t))) PieceType.Pawn b.sideToMove
          ((updPieces b.pieces cap b.sideToMove.opp
          (b.pieces cap b.sideToMove.opp &&& u64not (1 <<< t))) PieceType.Pawn b.sideToMove ^^^ ((1 <<< f) ||| (1 <<< t)))) PieceType.Pawn b.sideToMove &&& u64not (1 <<< t))) (promotionPiece m) b.sideToMove
          ((updPieces (updPieces (updPieces b.pieces cap b.sideToMove.opp
          (b.pieces cap b.sideToMove.opp &&& u64not (1 <<< t))) PieceType.Pawn b.sideToMove
          ((updPieces b.pieces cap b.sideToMove.opp
          (b.pieces cap b.sideToMove.opp &&& u64not (1 <<< t))) PieceType.Pawn b.sideToMove ^^^ ((1 <<< f) ||| (1 <<< t)))) PieceType.Pawn b.sideToMove
          ((updPieces (updPieces b.pieces cap b.sideToMove.opp
          (b.pieces cap b.sideToMove.opp &&& u64not (1 <<< t))) PieceType.Pawn b.sideToMove
          ((updPieces b.pieces cap b.sideToMove.opp
          (b.pieces cap b.sideToMove.opp &&& u64not (1 <<< t))) PieceType.Pawn b.sideToMove ^^^ ((1 <<< f) ||| (1 <<< t)))) PieceType.Pawn b.sideToMove &&& u64not (1 <<< t))) (promotionPiece m) b.sideToMove ||| (1 <<< t)))) pt2 Color.White |||
       ((updPieces (updPieces (updPieces (updPieces b.pieces cap b.sideToMove.opp
          (b.pieces cap b.sideToMove.opp &&& u64not (1 <<< t))) PieceType.Pawn b.sideToMove
          ((updPieces b.pieces cap b.sideToMove.opp
          (b.pieces cap b.sideToMove.opp &&& u64not (1 <<< t))) PieceType.Pawn b.sideToMove ^^^ ((1 <<< f) ||| (1 <<< t)))) PieceType.Pawn b.sideToMove
          ((updPieces (updPieces b.pieces cap b.sideToMove.opp
          (b.pieces cap b.sideToMove.opp &&& u64not (1 <<< t))) PieceType.Pawn b.sideToMove
          ((updPieces b.pieces cap b.sideToMove.opp
          (b.pieces cap b.sideToMove.opp &&& u64not (1 <<< t))) PieceType.Pawn b.sideToMove ^^^ ((1 <<< f) ||| (1 <<< t)))) PieceType.Pawn b.sideToMove &&& u64not (1 <<< t))) (promotionPiece m) b.sideToMove
          ((updPieces (updPieces (updPieces b.pieces cap b.sideToMove.opp
          (b.pieces cap b.sideToMove.opp &&& u64not (1 <<< t))) PieceType.Pawn b.sideToMove
          ((updPieces b.pieces cap b.sideToMove.opp
          (b.pieces cap b.sideToMove.opp &&& u64not (1 <<< t))) PieceType.Pawn b.sideToMove ^^^ ((1 <<< f) ||| (1 <<< t)))) PieceType.Pawn b.sideToMove
          ((updPieces (updPieces b.pieces cap b.sideToMove.opp
          (b.pieces cap b.sideToMove.opp &&& u64not (1 <<< t))) PieceType.Pawn b.sideToMove
          ((updPieces b.pieces cap b.sideToMove.opp
          (b.pieces cap b.sideToMove.opp &&& u64not (1 <<< t))) PieceType.Pawn b.sideToMove ^^^ ((1 <<< f) ||| (1 <<< t)))) PieceType.Pawn b.sideToMove &&& u64not (1 <<< t))) (promotionPiece m) b.sideToMove ||| (1 <<< t)))) pt2 Color.Black).testBit t = false := by
    intro pt2 hne
    have hcolor : ∀ c2, (((updPieces (updPieces (updPieces (updPieces b.pieces cap b.sideToMove.opp
          (b.pieces cap b.sideToMove.opp &&& u64not (1 <<< t))) PieceType.Pawn b.sideToMove
          ((updPieces b.pieces cap b.sideToMove.opp
          (b.pieces cap b.sideToMove.opp &&& u64not (1 <<< t))) PieceType.Pawn b.sideToMove ^^^ ((1 <<< f) ||| (1 <<< t)))) PieceType.Pawn b.sideToMove
          ((updPieces (updPieces b.pieces cap b.sideToMove.opp
          (b.pieces cap b.sideToMove.opp &&& u64not (1 <<< t))) PieceType.Pawn b.sideToMove
          ((updPieces b.pieces cap b.sideToMove.opp
          (b.pieces cap b.sideToMove.opp &&& u64not (1 <<< t))) PieceType.Pawn b.sideToMove ^^^ ((1 <<< f) ||| (1 <<< t)))) PieceType.Pawn b.sideToMove &&& u64not (1 <<< t))) (promotionPiece m) b.sideToMove
          ((updPieces (updPieces (updPieces b.pieces cap b.sideToMove.opp
          (b.pieces cap b.sideToMove.opp &&& u64not (1 <<< t))) PieceType.Pawn b.sideToMove
          ((updPieces b.pieces cap b.sideToMove.opp
          (b.pieces cap b.sideToMove.opp &&& u64not (1 <<< t))) PieceType.Pawn b.sideToMove ^^^ ((1 <<< f) ||| (1 <<< t)))) PieceType.Pawn b.sideToMove
          ((updPieces (updPieces b.pieces cap b.sideToMove.opp
          (b.pieces cap b.sideToMove.opp &&& u64not (1 <<< t))) PieceType.Pawn b.sideToMove
          ((updPieces b.pieces cap b.sideToMove.opp
          (b.pieces cap b.sideToMove.opp &&& u64not (1 <<< t))) PieceType.Pawn b.sideToMove ^^^ ((1 <<< f) ||| (1 <<< t)))) PieceType.Pawn b.sideToMove &&& u64not (1 <<< t))) (promotionPiece m) b.sideToMove ||| (1 <<< t)))) pt2 c2).testBit t = false := by
      intro c2
      simp only [updPieces, eq_self_iff_true, and_self, if_true,
        eq_false hprom_ne2, eq_false (ne_opp b.sideToMove),
        eq_false (opp_ne b.sideToMove), false_and, and_false, if_false]
      rw [if_neg (fun hcon => hne hcon.1)]
      by_cases hc : pt2 = PieceType.Pawn ∧ c2 = b.sideToMove
      · rw [if_pos hc]
        simp [Nat.testBit_land, testBit_u64not, testBit_one_shiftLeft, ht]
      · rw [if_neg hc, if_neg hc]
        by_cases hc3 : pt2 = cap ∧ c2 = b.sideToMove.opp
        · rw [if_pos hc3]
          simp [Nat.testBit_land, testBit_u64not, testBit_one_shiftLeft, ht]
        · rw [if_neg hc3]
          exact horig pt2 c2 hc3
    rw [Nat.testBit_lor, hcolor Color.White, hcolor Color.Black]
    rfl
  unfold unmakeMove
  simp only [hfrom, hto, hflag, hip, h5, Bool.false_eq_true, if_false,
    eq_self_iff_true, if_true, hMs, hMf, hMh, opp_opp]
  rw [hMp, hMo, hMa]
  rw [pieceTypeOn_of_pieces t _ rfl hbit hothers]
  simp only [Option.getD_some, movePiece, addPieceB, removePieceB]
  apply board_ext
  · dsimp only
    funext pt2 c2
    simp only [updPieces, eq_self_iff_true, and_self, if_true,
      eq_false hprom_ne, eq_false hprom_ne2, eq_false (ne_opp b.sideToMove),
      eq_false (opp_ne b.sideToMove), false_and, and_false, true_and,
      and_true, if_false]
    split_ifs with h1 h2 h3
    · rw [h1.1, h1.2,
        and_not_or_cancel (hbnd.1 cap b.sideToMove.opp) ht hcapbit]
    · rw [h2.1, h2.2, and_not_or_cancel hXb ht hXbit, lor_swap_xor_cancel]
    · rw [h3.1, h3.2,
        or_and_not_cancel (hbnd.1 _ _) ht hPromClear]
    · rfl
  · dsimp only
    funext c2
    simp only [updOcc, eq_self_iff_true, if_true,
      eq_false (ne_opp b.sideToMove), eq_false (opp_ne b.sideToMove),
      if_false]
    split_ifs with g1 g2
    · rw [g1,
        and_not_or_cancel (hbnd.2.1 b.sideToMove.opp) ht hoccthem]
    · rw [g2,
        or_and_not_cancel (land_lt_two_pow_left hOXb) ht (by
          simp [Nat.testBit_land, testBit_u64not, testBit_one_shiftLeft,
            ht, hOXbit]),
        and_not_or_cancel hOXb ht hOXbit, lor_swap_xor_cancel]
    · rfl
  · dsimp only
    rw [or_and_not_cancel (land_lt_two_pow_left hAXb) ht (by
        simp [Nat.testBit_land, testBit_u64not, testBit_one_shiftLeft,
          ht, hAXbit]),
      and_not_or_cancel hAXb ht hAXbit, lor_swap_xor_cancel,
      and_not_or_cancel hbnd.2.2 ht hAllT]
  · rfl
  · rfl
  · rfl
  · rfl
  · dsimp only
    cases b.sideToMove <;> simp
  · rfl
  · rfl

theorem restore_promocap (K : ZKeys) (b : Board) {m f t fl : Nat}
    (hbnd : boundedPieces b) (hocc : occConsistent b) (hD : disjointPieces b)
    (hm : m = mvNew f t fl) (hf : f < 64) (ht : t < 64)
    (hfl : fl = 12 ∨ fl = 13 ∨ fl = 14 ∨ fl = 15)
    (hthem : (b.occ b.sideToMove.opp).testBit t = true)
    (hust : (b.occ b.sideToMove).testBit t = false)
    (hmpf : pieceTypeOn b f = some PieceType.Pawn) :
    RestoresC1 K b m := by
  obtain ⟨cap, hcapt, hcapbit⟩ := capture_target hocc hD hthem hust
  obtain ⟨hp, ho, ha, hs, hfm, hh, hu⟩ :=
    makeMove_promocap_fields K b hm hf ht hfl hcapt hmpf
  unfold RestoresC1
  rw [hu]
  exact unmake_promocap b (makeMove K b m).1 _ hbnd hocc hD hm hf ht hfl
    hcapbit hust hp ho ha hs hfm hh

theorem makeMove_ep_fields (K : ZKeys) (b : Board) {m f t fl : Nat}
    (hm : m = mvNew f t fl) (hf : f < 64) (ht : t < 64) (hfl : fl = 5)
    (hmpf : pieceTypeOn b f = some PieceType.Pawn) :
    (makeMove K b m).1.pieces = (updPieces (updPieces b.pieces PieceType.Pawn b.sideToMove.opp
          (b.pieces PieceType.Pawn b.sideToMove.opp &&&
            u64not (1 <<< (if b.sideToMove = Color.White then t - 8 else t + 8)))) PieceType.Pawn b.sideToMove
          ((updPieces b.pieces PieceType.Pawn b.sideToMove.opp
          (b.pieces PieceType.Pawn b.sideToMove.opp &&&
            u64not (1 <<< (if b.sideToMove = Color.White then t - 8 else t + 8)))) PieceType.Pawn b.sideToMove ^^^ ((1 <<< f) ||| (1 <<< t)))) ∧
    (makeMove K b m).1.occ = (updOcc (updOcc b.occ b.sideToMove.opp
          (b.occ b.sideToMove.opp &&& u64not (1 <<< (if b.sideToMove = Color.White then t - 8 else t + 8)))) b.sideToMove
          ((updOcc b.occ b.sideToMove.opp
          (b.occ b.sideToMove.opp &&& u64not (1 <<< (if b.sideToMove = Color.White then t - 8 else t + 8)))) b.sideToMove ^^^ ((1 <<< f) ||| (1 <<< t)))) ∧
    (makeMove K b m).1.occAll = ((b.occAll &&& u64not (1 <<< (if b.sideToMove = Color.White then t - 8 else t + 8))) ^^^ ((1 <<< f) ||| (1 <<< t))) ∧
    (makeMove K b m).1.sideToMove = b.sideToMove.opp ∧
    (makeMove K b m).1.fullmoveNumber =
      (if b.sideToMove = Color.Black then b.fullmoveNumber + 1
       else b.fullmoveNumber) ∧
    (makeMove K b m).1.history =
      (⟨b.castlingRights, b.enPassant, b.halfmoveClock,
        some PieceType.Pawn, b.zobristHash⟩ : UndoInfo) :: b.history ∧
    (makeMove K b m).2 =
      (⟨b.castlingRights, b.enPassant, b.halfmoveClock,
        some PieceType.Pawn, b.zobristHash⟩ : UndoInfo) := by
  have hfrom : fromSq m = f := by rw [hm]; exact fromSq_mvNew hf
  have hto : toSq m = t := by rw [hm]; exact toSq_mvNew hf ht
  have hflag : flagOf m = fl := by
    rw [hm]; exact flagOf_mvNew (by omega) ht (by omega)
  have hic : isCapture m = true := by
    rw [hm, isCapture_mvNew (by omega) ht (by omega), hfl]
    decide
  have hip : isPromotion m = false := by
    rw [hm, isPromotion_mvNew (by omega) ht (by omega), hfl]
    decide
  have h5 : (fl = EN_PASSANT_CAPTURE_FLAG) = True :=
    eq_true (by rw [hfl]; decide)
  have h2 : (fl = KING_CASTLE_FLAG) = False :=
    eq_false (by rw [hfl]; decide)
  have h3 : (fl = QUEEN_CASTLE_FLAG) = False :=
    eq_false (by rw [hfl]; decide)
  unfold makeMove
  simp only [hfrom, hto, hflag, hic, hip, h5, h2, h3, hmpf,
    Bool.false_eq_true, if_false, eq_self_iff_true, if_true,
    Option.getD_some, movePiece, removePieceB]
  exact ⟨trivial, trivial, trivial, trivial, trivial, trivial, trivial⟩

theorem unmake_ep (b M : Board) (u0 : UndoInfo) {m f t fl : Nat}
    (hbnd : boundedPieces b) (hocc : occConsistent b)
    (hm : m = mvNew f t fl) (hf : f < 64) (ht : t < 64) (hfl : fl = 5)
    (hempty : b.occAll.testBit t = false)
    (hcs64 : (if b.sideToMove = Color.White then t - 8 else t + 8) < 64)
    (hcsbit : (b.pieces PieceType.Pawn b.sideToMove.opp).testBit
      (if b.sideToMove = Color.White then t - 8 else t + 8) = true)
    (hMp : M.pieces = (updPieces (updPieces b.pieces PieceType.Pawn b.sideToMove.opp
          (b.pieces PieceType.Pawn b.sideToMove.opp &&&
            u64not (1 <<< (if b.sideToMove = Color.White then t - 8 else t + 8)))) PieceType.Pawn b.sideToMove
          ((updPieces b.pieces PieceType.Pawn b.sideToMove.opp
          (b.pieces PieceType.Pawn b.sideToMove.opp &&&
            u64not (1 <<< (if b.sideToMove = Color.White then t - 8 else t + 8)))) PieceType.Pawn b.sideToMove ^^^ ((1 <<< f) ||| (1 <<< t)))))
    (hMo : M.occ = (updOcc (updOcc b.occ b.sideToMove.opp
          (b.occ b.sideToMove.opp &&& u64not (1 <<< (if b.sideToMove = Color.White then t - 8 else t + 8)))) b.sideToMove
          ((updOcc b.occ b.sideToMove.opp
          (b.occ b.sideToMove.opp &&& u64not (1 <<< (if b.sideToMove = Color.White then t - 8 else t + 8)))) b.sideToMove ^^^ ((1 <<< f) ||| (1 <<< t)))))
    (hMa : M.occAll = ((b.occAll &&& u64not (1 <<< (if b.sideToMove = Color.White then t - 8 else t + 8))) ^^^ ((1 <<< f) ||| (1 <<< t))))
    (hMs : M.sideToMove = b.sideToMove.opp)
    (hMf : M.fullmoveNumber = if b.sideToMove = Color.Black then
      b.fullmoveNumber + 1 else b.fullmoveNumber)
    (hMh : M.history = u0 :: b.history) :
    unmakeMove M m
      ⟨b.castlingRights, b.enPassant, b.halfmoveClock,
        some PieceType.Pawn, b.zobristHash⟩ = b := by
  have hfrom : fromSq m = f := by rw [hm]; exact fromSq_mvNew hf
  have hto : toSq m = t := by rw [hm]; exact toSq_mvNew hf ht
  have hflag : flagOf m = fl := by
    rw [hm]; exact flagOf_mvNew (by omega) ht (by omega)
  have hip : isPromotion m = false := by
    rw [hm, isPromotion_mvNew (by omega) ht (by omega), hfl]
    decide
  have h5 : (fl = EN_PASSANT_CAPTURE_FLAG) = True :=
    eq_true (by rw [hfl]; decide)
  have h2 : (fl = KING_CASTLE_FLAG) = False :=
    eq_false (by rw [hfl]; decide)
  have h3 : (fl = QUEEN_CASTLE_FLAG) = False :=
    eq_false (by rw [hfl]; decide)
  have hSb : ((1 <<< f) ||| (1 <<< t)) < 2 ^ 64 :=
    lor_lt_two_pow (shiftLeft_lt_two_pow_64 hf) (shiftLeft_lt_two_pow_64 ht)
  have hPawnClear : (b.pieces PieceType.Pawn b.sideToMove).testBit t
      = false := occAll_clear_piece hocc hempty _ _
  have hXbit : (b.pieces PieceType.Pawn b.sideToMove ^^^
      ((1 <<< f) ||| (1 <<< t))).testBit t = true := by
    rw [Nat.testBit_xor, hPawnClear]
    simp [Nat.testBit_lor, testBit_one_shiftLeft]
  have hocccs : (b.occ b.sideToMove.opp).testBit (if b.sideToMove = Color.White then t - 8 else t + 8) = true :=
    piece_le_occ hocc PieceType.Pawn b.sideToMove.opp hcsbit
  have hAllcs : b.occAll.testBit (if b.sideToMove = Color.White then t - 8 else t + 8) = true :=
    occ_le_occAll hocc hocccs
  have hbit : (((updPieces (updPieces b.pieces PieceType.Pawn b.sideToMove.opp
          (b.pieces PieceType.Pawn b.sideToMove.opp &&&
            u64not (1 <<< (if b.sideToMove = Color.White then t - 8 else t + 8)))) PieceType.Pawn b.sideToMove
          ((updPieces b.pieces PieceType.Pawn b.sideToMove.opp
          (b.pieces PieceType.Pawn b.sideToMove.opp &&&
            u64not (1 <<< (if b.sideToMove = Color.White then t - 8 else t + 8)))) PieceType.Pawn b.sideToMove ^^^ ((1 <<< f) ||| (1 <<< t))))) PieceType.Pawn Color.White |||
      ((updPieces (updPieces b.pieces PieceType.Pawn b.sideToMove.opp
          (b.pieces PieceType.Pawn b.sideToMove.opp &&&
            u64not (1 <<< (if b.sideToMove = Color.White then t - 8 else t + 8)))) PieceType.Pawn b.sideToMove
          ((updPieces b.pieces PieceType.Pawn b.sideToMove.opp
          (b.pieces PieceType.Pawn b.sideToMove.opp &&&
            u64not (1 <<< (if b.sideToMove = Color.White then t - 8 else t + 8)))) PieceType.Pawn b.sideToMove ^^^ ((1 <<< f) ||| (1 <<< t))))) PieceType.Pawn Color.Black).testBit t = true := by
    apply union_testBit_of_color (c := b.sideToMove)
    simp only [updPieces, eq_self_iff_true, and_self, if_true,
      eq_false (ne_opp b.sideToMove), eq_false (opp_ne b.sideToMove),
      true_and, and_true, false_and, and_false, if_false]
    rw [Nat.testBit_xor, hPawnClear]
    simp [Nat.testBit_lor, testBit_one_shiftLeft]
  have hothers : ∀ pt2, pt2 ≠ PieceType.Pawn →
      (((updPieces (updPieces b.pieces PieceType.Pawn b.sideToMove.opp
          (b.pieces PieceType.Pawn b.sideToMove.opp &&&
            u64not (1 <<< (if b.sideToMove = Color.White then t - 8 else t + 8)))) PieceType.Pawn b.sideToMove
          ((updPieces b.pieces PieceType.Pawn b.sideToMove.opp
          (b.pieces PieceType.Pawn b.sideToMove.opp &&&
            u64not (1 <<< (if b.sideToMove = Color.White then t - 8 else t + 8)))) PieceType.Pawn b.sideToMove ^^^ ((1 <<< f) ||| (1 <<< t))))) pt2 Color.White |||
       ((updPieces (updPieces b.pieces PieceType.Pawn b.sideToMove.opp
          (b.pieces PieceType.Pawn b.sideToMove.opp &&&
            u64not (1 <<< (if b.sideToMove = Color.White then t - 8 else t + 8)))) PieceType.Pawn b.sideToMove
          ((updPieces b.pieces PieceType.Pawn b.sideToMove.opp
          (b.pieces PieceType.Pawn b.sideToMove.opp &&&
            u64not (1 <<< (if b.sideToMove = Color.White then t - 8 else t + 8)))) PieceType.Pawn b.sideToMove ^^^ ((1 <<< f) ||| (1 <<< t))))) pt2 Color.Black).testBit t = false := by
    intro pt2 hne
    have hcolor : ∀ c2, (((updPieces (updPieces b.pieces PieceType.Pawn b.sideToMove.opp
          (b.pieces PieceType.Pawn b.sideToMove.opp &&&
            u64not (1 <<< (if b.sideToMove = Color.White then t - 8 else t + 8)))) PieceType.Pawn b.sideToMove
          ((updPieces b.pieces PieceType.Pawn b.sideToMove.opp
          (b.pieces PieceType.Pawn b.sideToMove.opp &&&
            u64not (1 <<< (if b.sideToMove = Color.White then t - 8 else t + 8)))) PieceType.Pawn b.sideToMove ^^^ ((1 <<< f) ||| (1 <<< t))))) pt2 c2).testBit t = false := by
      intro c2
      simp only [updPieces]
      rw [if_neg (fun hcon => hne hcon.1),
        if_neg (fun hcon => hne hcon.1)]
      exact occAll_clear_piece hocc hempty pt2 c2
    rw [Nat.testBit_lor, hcolor Color.White, hcolor Color.Black]
    rfl
  unfold unmakeMove
  simp only [hfrom, hto, hflag, hip, h5, h2, h3, Bool.false_eq_true,
    if_false, eq_self_iff_true, if_true, hMs, hMf, hMh, opp_opp]
  rw [hMp, hMo, hMa]
  rw [pieceTypeOn_of_pieces t _ rfl hbit hothers]
  simp only [Option.getD_some, movePiece, addPieceB]
  set q := (if b.sideToMove = Color.White then t - 8 else t + 8) with hq
  apply board_ext
  · dsimp only
    funext pt2 c2
    simp only [updPieces, eq_self_iff_true, and_self, if_true,
      eq_false (ne_opp b.sideToMove), eq_false (opp_ne b.sideToMove),
      true_and, and_true, false_and, and_false, if_false]
    split_ifs with k1 k2
    · rw [k1.1, k1.2,
        and_not_or_cancel (hbnd.1 PieceType.Pawn b.sideToMove.opp)
          hcs64 hcsbit]
    · rw [k2.1, k2.2, lor_swap_xor_cancel]
    · rfl
  · dsimp only
    funext c2
    simp only [updOcc, eq_self_iff_true, if_true,
      eq_false (ne_opp b.sideToMove), eq_false (opp_ne b.sideToMove),
      if_false]
    split_ifs with g1 g2
    · rw [g1,
        and_not_or_cancel (hbnd.2.1 b.sideToMove.opp) hcs64 hocccs]
    · rw [g2, lor_swap_xor_cancel]
    · rfl
  · dsimp only
    rw [lor_swap_xor_cancel,
      and_not_or_cancel hbnd.2.2 hcs64 hAllcs]
  · rfl
  · rfl
  · rfl
  · rfl
  · dsimp only
    cases b.sideToMove <;> simp
  · rfl
  · rfl

theorem restore_ep (K : ZKeys) (b : Board) {m f t fl : Nat}
    (hbnd : boundedPieces b) (hocc : occConsistent b)
    (hm : m = mvNew f t fl) (hf : f < 64) (ht : t < 64) (hfl : fl = 5)
    (hempty : b.occAll.testBit t = false)
    (hcs64 : (if b.sideToMove = Color.White then t - 8 else t + 8) < 64)
    (hcsbit : (b.pieces PieceType.Pawn b.sideToMove.opp).testBit
      (if b.sideToMove = Color.White then t - 8 else t + 8) = true)
    (hmpf : pieceTypeOn b f = some PieceType.Pawn) :
    RestoresC1 K b m := by
  obtain ⟨hp, ho, ha, hs, hfm, hh, hu⟩ :=
    makeMove_ep_fields K b hm hf ht hfl hmpf
  unfold RestoresC1
  rw [hu]
  exact unmake_ep b (makeMove K b m).1 _ hbnd hocc hm hf ht hfl hempty
    hcs64 hcsbit hp ho ha hs hfm hh

theorem makeMove_castle2_fields (K : ZKeys) (b : Board) {m f t fl : Nat}
    (hm : m = mvNew f t fl) (hf : f < 64) (ht : t < 64) (hfl : fl = 2)
    (hmpf : pieceTypeOn b f = some PieceType.King) :
    (makeMove K b m).1.pieces = (updPieces (updPieces b.pieces PieceType.King b.sideToMove
          (b.pieces PieceType.King b.sideToMove ^^^ ((1 <<< f) ||| (1 <<< t)))) PieceType.Rook b.sideToMove
          ((updPieces b.pieces PieceType.King b.sideToMove
          (b.pieces PieceType.King b.sideToMove ^^^ ((1 <<< f) ||| (1 <<< t)))) PieceType.Rook b.sideToMove ^^^ ((1 <<< (if b.sideToMove = Color.White then (7 : Nat) else 63)) ||| (1 <<< (if b.sideToMove = Color.White then (5 : Nat) else 61))))) ∧
    (makeMove K b m).1.occ = (updOcc (updOcc b.occ b.sideToMove (b.occ b.sideToMove ^^^ ((1 <<< f) ||| (1 <<< t)))) b.sideToMove ((updOcc b.occ b.sideToMove (b.occ b.sideToMove ^^^ ((1 <<< f) ||| (1 <<< t)))) b.sideToMove ^^^ ((1 <<< (if b.sideToMove = Color.White then (7 : Nat) else 63)) ||| (1 <<< (if b.sideToMove = Color.White then (5 : Nat) else 61))))) ∧
    (makeMove K b m).1.occAll = ((b.occAll ^^^ ((1 <<< f) ||| (1 <<< t))) ^^^ ((1 <<< (if b.sideToMove = Color.White then (7 : Nat) else 63)) ||| (1 <<< (if b.sideToMove = Color.White then (5 : Nat) else 61)))) ∧
    (makeMove K b m).1.sideToMove = b.sideToMove.opp ∧
    (makeMove K b m).1.fullmoveNumber =
      (if b.sideToMove = Color.Black then b.fullmoveNumber + 1
       else b.fullmoveNumber) ∧
    (makeMove K b m).1.history =
      (⟨b.castlingRights, b.enPassant, b.halfmoveClock, none,
        b.zobristHash⟩ : UndoInfo) :: b.history ∧
    (makeMove K b m).2 =
      (⟨b.castlingRights, b.enPassant, b.halfmoveClock, none,
        b.zobristHash⟩ : UndoInfo) := by
  have hfrom : fromSq m = f := by rw [hm]; exact fromSq_mvNew hf
  have hto : toSq m = t := by rw [hm]; exact toSq_mvNew hf ht
  have hflag : flagOf m = fl := by
    rw [hm]; exact flagOf_mvNew (by omega) ht (by omega)
  have hic : isCapture m = false := by
    rw [hm, isCapture_mvNew (by omega) ht (by omega), hfl]
    decide
  have hip : isPromotion m = false := by
    rw [hm, isPromotion_mvNew (by omega) ht (by omega), hfl]
    decide
  have h5 : (fl = EN_PASSANT_CAPTURE_FLAG) = False :=
    eq_false (by rw [hfl]; decide)
  have hc2 : (fl = KING_CASTLE_FLAG) = True := eq_true (by rw [hfl]; decide)
  have hc3 : (fl = QUEEN_CASTLE_FLAG) = False := eq_false (by rw [hfl]; decide)
  unfold makeMove
  simp only [hfrom, hto, hflag, hic, hip, h5, hc2, hc3, hmpf,
    Bool.false_eq_true, if_false, eq_self_iff_true, if_true,
    Option.getD_some, movePiece]
  exact ⟨trivial, trivial, trivial, trivial, trivial, trivial, trivial⟩

theorem unmake_castle2 (b M : Board) (u0 : UndoInfo) {m f t fl : Nat}
    (hocc : occConsistent b)
    (hm : m = mvNew f t fl) (hf : f < 64) (ht : t < 64) (hfl : fl = 2)
    (hempty : b.occAll.testBit t = false)
    (hrft : (((1 <<< (if b.sideToMove = Color.White then (7 : Nat) else 63)) ||| (1 <<< (if b.sideToMove = Color.White then (5 : Nat) else 61)))).testBit t = false)
    (hMp : M.pieces = (updPieces (updPieces b.pieces PieceType.King b.sideToMove
          (b.pieces PieceType.King b.sideToMove ^^^ ((1 <<< f) ||| (1 <<< t)))) PieceType.Rook b.sideToMove
          ((updPieces b.pieces PieceType.King b.sideToMove
          (b.pieces PieceType.King b.sideToMove ^^^ ((1 <<< f) ||| (1 <<< t)))) PieceType.Rook b.sideToMove ^^^ ((1 <<< (if b.sideToMove = Color.White then (7 : Nat) else 63)) ||| (1 <<< (if b.sideToMove = Color.White then (5 : Nat) else 61))))))
    (hMo : M.occ = (updOcc (updOcc b.occ b.sideToMove (b.occ b.sideToMove ^^^ ((1 <<< f) ||| (1 <<< t)))) b.sideToMove ((updOcc b.occ b.sideToMove (b.occ b.sideToMove ^^^ ((1 <<< f) ||| (1 <<< t)))) b.sideToMove ^^^ ((1 <<< (if b.sideToMove = Color.White then (7 : Nat) else 63)) ||| (1 <<< (if b.sideToMove = Color.White then (5 : Nat) else 61))))))
    (hMa : M.occAll = ((b.occAll ^^^ ((1 <<< f) ||| (1 <<< t))) ^^^ ((1 <<< (if b.sideToMove = Color.White then (7 : Nat) else 63)) ||| (1 <<< (if b.sideToMove = Color.White then (5 : Nat) else 61)))))
    (hMs : M.sideToMove = b.sideToMove.opp)
    (hMf : M.fullmoveNumber = if b.sideToMove = Color.Black then
      b.fullmoveNumber + 1 else b.fullmoveNumber)
    (hMh : M.history = u0 :: b.history) :
    unmakeMove M m
      ⟨b.castlingRights, b.enPassant, b.halfmoveClock, none,
        b.zobristHash⟩ = b := by
  have hfrom : fromSq m = f := by rw [hm]; exact fromSq_mvNew hf
  have hto : toSq m = t := by rw [hm]; exact toSq_mvNew hf ht
  have hflag : flagOf m = fl := by
    rw [hm]; exact flagOf_mvNew (by omega) ht (by omega)
  have hip : isPromotion m = false := by
    rw [hm, isPromotion_mvNew (by omega) ht (by omega), hfl]
    decide
  have hc2 : (fl = KING_CASTLE_FLAG) = True := eq_true (by rw [hfl]; decide)
  have hc3 : (fl = QUEEN_CASTLE_FLAG) = False := eq_false (by rw [hfl]; decide)
  have hKClear : (b.pieces PieceType.King b.sideToMove).testBit t
      = false := occAll_clear_piece hocc hempty _ _
  have hbit : (((updPieces (updPieces b.pieces PieceType.King b.sideToMove
          (b.pieces PieceType.King b.sideToMove ^^^ ((1 <<< f) ||| (1 <<< t)))) PieceType.Rook b.sideToMove
          ((updPieces b.pieces PieceType.King b.sideToMove
          (b.pieces PieceType.King b.sideToMove ^^^ ((1 <<< f) ||| (1 <<< t)))) PieceType.Rook b.sideToMove ^^^ ((1 <<< (if b.sideToMove = Color.White then (7 : Nat) else 63)) ||| (1 <<< (if b.sideToMove = Color.White then (5 : Nat) else 61)))))) PieceType.King Color.White |||
      ((updPieces (updPieces b.pieces PieceType.King b.sideToMove
          (b.pieces PieceType.King b.sideToMove ^^^ ((1 <<< f) ||| (1 <<< t)))) PieceType.Rook b.sideToMove
          ((updPieces b.pieces PieceType.King b.sideToMove
          (b.pieces PieceType.King b.sideToMove ^^^ ((1 <<< f) ||| (1 <<< t)))) PieceType.Rook b.sideToMove ^^^ ((1 <<< (if b.sideToMove = Color.White then (7 : Nat) else 63)) ||| (1 <<< (if b.sideToMove = Color.White then (5 : Nat) else 61)))))) PieceType.King Color.Black).testBit t = true := by
    apply union_testBit_of_color (c := b.sideToMove)
    simp only [updPieces, eq_self_iff_true, and_self, if_true,
      eq_false (by decide : PieceType.King ≠ PieceType.Rook),
      eq_false (by decide : PieceType.Rook ≠ PieceType.King),
      true_and, and_true, false_and, and_false, if_false]
    rw [Nat.testBit_xor, hKClear]
    simp [Nat.testBit_lor, testBit_one_shiftLeft]
  have hothers : ∀ pt2, pt2 ≠ PieceType.King →
      (((updPieces (updPieces b.pieces PieceType.King b.sideToMove
          (b.pieces PieceType.King b.sideToMove ^^^ ((1 <<< f) ||| (1 <<< t)))) PieceType.Rook b.sideToMove
          ((updPieces b.pieces PieceType.King b.sideToMove
          (b.pieces PieceType.King b.sideToMove ^^^ ((1 <<< f) ||| (1 <<< t)))) PieceType.Rook b.sideToMove ^^^ ((1 <<< (if b.sideToMove = Color.White then (7 : Nat) else 63)) ||| (1 <<< (if b.sideToMove = Color.White then (5 : Nat) else 61)))))) pt2 Color.White |||
       ((updPieces (updPieces b.pieces PieceType.King b.sideToMove
          (b.pieces PieceType.King b.sideToMove ^^^ ((1 <<< f) ||| (1 <<< t)))) PieceType.Rook b.sideToMove
          ((updPieces b.pieces PieceType.King b.sideToMove
          (b.pieces PieceType.King b.sideToMove ^^^ ((1 <<< f) ||| (1 <<< t)))) PieceType.Rook b.sideToMove ^^^ ((1 <<< (if b.sideToMove = Color.White then (7 : Nat) else 63)) ||| (1 <<< (if b.sideToMove = Color.White then (5 : Nat) else 61)))))) pt2 Color.Black).testBit t = false := by
    intro pt2 hne
    have hcolor : ∀ c2, (((updPieces (updPieces b.pieces PieceType.King b.sideToMove
          (b.pieces PieceType.King b.sideToMove ^^^ ((1 <<< f) ||| (1 <<< t)))) PieceType.Rook b.sideToMove
          ((updPieces b.pieces PieceType.King b.sideToMove
          (b.pieces PieceType.King b.sideToMove ^^^ ((1 <<< f) ||| (1 <<< t)))) PieceType.Rook b.sideToMove ^^^ ((1 <<< (if b.sideToMove = Color.White then (7 : Nat) else 63)) ||| (1 <<< (if b.sideToMove = Color.White then (5 : Nat) else 61)))))) pt2 c2).testBit t = false := by
      intro c2
      simp only [updPieces]
      by_cases hc : pt2 = PieceType.Rook ∧ c2 = b.sideToMove
      · rw [if_pos hc, if_neg (fun hcon =>
          absurd hcon.1 (by decide))]
        rw [Nat.testBit_xor, hrft,
          occAll_clear_piece hocc hempty PieceType.Rook b.sideToMove]
        rfl
      · rw [if_neg hc, if_neg (fun hcon => hne hcon.1)]
        exact occAll_clear_piece hocc hempty pt2 c2
    rw [Nat.testBit_lor, hcolor Color.White, hcolor Color.Black]
    rfl
  unfold unmakeMove
  simp only [hfrom, hto, hflag, hip, hc2, hc3, Bool.false_eq_true,
    if_false, eq_self_iff_true, if_true, hMs, hMf, hMh, opp_opp]
  rw [hMp, hMo, hMa]
  rw [pieceTypeOn_of_pieces t _ rfl hbit hothers]
  simp only [Option.getD_some, movePiece]
  set r1 := (if b.sideToMove = Color.White then (7 : Nat) else 63) with hr1
  set r2 := (if b.sideToMove = Color.White then (5 : Nat) else 61) with hr2
  apply board_ext
  · dsimp only
    funext pt2 c2
    simp only [updPieces, eq_self_iff_true, and_self, if_true,
      eq_false (by decide : PieceType.King ≠ PieceType.Rook),
      eq_false (by decide : PieceType.Rook ≠ PieceType.King),
      true_and, and_true, false_and, and_false, if_false]
    split_ifs with w1 w2
    · rw [w1.1, w1.2, lor_swap_xor_cancel]
    · rw [w2.1, w2.2, lor_swap_xor_cancel]
    · rfl
  · dsimp only
    funext c2
    simp only [updOcc, eq_self_iff_true, if_true]
    split_ifs with g1
    · rw [g1, lor_swap_xor_cancel, lor_swap_xor_cancel]
    · rfl
  · dsimp only
    rw [lor_swap_xor_cancel, lor_swap_xor_cancel]
  · rfl
  · rfl
  · rfl
  · rfl
  · dsimp only
    cases b.sideToMove <;> simp
  · rfl
  · rfl

theorem restore_castle2 (K : ZKeys) (b : Board) {m f t fl : Nat}
    (hocc : occConsistent b)
    (hm : m = mvNew f t fl) (hf : f < 64) (ht : t < 64) (hfl : fl = 2)
    (hempty : b.occAll.testBit t = false)
    (hrft : (((1 <<< (if b.sideToMove = Color.White then (7 : Nat) else 63)) ||| (1 <<< (if b.sideToMove = Color.White then (5 : Nat) else 61)))).testBit t = false)
    (hmpf : pieceTypeOn b f = some PieceType.King) :
    RestoresC1 K b m := by
  obtain ⟨hp, ho, ha, hs, hfm, hh, hu⟩ :=
    makeMove_castle2_fields K b hm hf ht hfl hmpf
  unfold RestoresC1
  rw [hu]
  exact unmake_castle2 b (makeMove K b m).1 _ hocc hm hf ht hfl hempty
    hrft hp ho ha hs hfm hh

theorem makeMove_castle3_fields (K : ZKeys) (b : Board) {m f t fl : Nat}
    (hm : m = mvNew f t fl) (hf : f < 64) (ht : t < 64) (hfl : fl = 3)
    (hmpf : pieceTypeOn b f = some PieceType.King) :
    (makeMove K b m).1.pieces = (updPieces (updPieces b.pieces PieceType.King b.sideToMove
          (b.pieces PieceType.King b.sideToMove ^^^ ((1 <<< f) ||| (1 <<< t)))) PieceType.Rook b.sideToMove
          ((updPieces b.pieces PieceType.King b.sideToMove
          (b.pieces PieceType.King b.sideToMove ^^^ ((1 <<< f) ||| (1 <<< t)))) PieceType.Rook b.sideToMove ^^^ ((1 <<< (if b.sideToMove = Color.White then (0 : Nat) else 56)) ||| (1 <<< (if b.sideToMove = Color.White then (3 : Nat) else 59))))) ∧
    (makeMove K b m).1.occ = (updOcc (updOcc b.occ b.sideToMove (b.occ b.sideToMove ^^^ ((1 <<< f) ||| (1 <<< t)))) b.sideToMove ((updOcc b.occ b.sideToMove (b.occ b.sideToMove ^^^ ((1 <<< f) ||| (1 <<< t)))) b.sideToMove ^^^ ((1 <<< (if b.sideToMove = Color.White then (0 : Nat) else 56)) ||| (1 <<< (if b.sideToMove = Color.White then (3 : Nat) else 59))))) ∧
    (makeMove K b m).1.occAll = ((b.occAll ^^^ ((1 <<< f) ||| (1 <<< t))) ^^^ ((1 <<< (if b.sideToMove = Color.White then (0 : Nat) else 56)) ||| (1 <<< (if b.sideToMove = Color.White then (3 : Nat) else 59)))) ∧
    (makeMove K b m).1.sideToMove = b.sideToMove.opp ∧
    (makeMove K b m).1.fullmoveNumber =
      (if b.sideToMove = Color.Black then b.fullmoveNumber + 1
       else b.fullmoveNumber) ∧
    (makeMove K b m).1.history =
      (⟨b.castlingRights, b.enPassant, b.halfmoveClock, none,
        b.zobristHash⟩ : UndoInfo) :: b.history ∧
    (makeMove K b m).2 =
      (⟨b.castlingRights, b.enPassant, b.halfmoveClock, none,
        b.zobristHash⟩ : UndoInfo) := by
  have hfrom : fromSq m = f := by rw [hm]; exact fromSq_mvNew hf
  have hto : toSq m = t := by rw [hm]; exact toSq_mvNew hf ht
  have hflag : flagOf m = fl := by
    rw [hm]; exact flagOf_mvNew (by omega) ht (by omega)
  have hic : isCapture m = false := by
    rw [hm, isCapture_mvNew (by omega) ht (by omega), hfl]
    decide
  have hip : isPromotion m = false := by
    rw [hm, isPromotion_mvNew (by omega) ht (by omega), hfl]
    decide
  have h5 : (fl = EN_PASSANT_CAPTURE_FLAG) = False :=
    eq_false (by rw [hfl]; decide)
  have hc2 : (fl = KING_CASTLE_FLAG) = False := eq_false (by rw [hfl]; decide)
  have hc3 : (fl = QUEEN_CASTLE_FLAG) = True := eq_true (by rw [hfl]; decide)
  unfold makeMove
  simp only [hfrom, hto, hflag, hic, hip, h5, hc2, hc3, hmpf,
    Bool.false_eq_true, if_false, eq_self_iff_true, if_true,
    Option.getD_some, movePiece]
  exact ⟨trivial, trivial, trivial, trivial, trivial, trivial, trivial⟩

theorem unmake_castle3 (b M : Board) (u0 : UndoInfo) {m f t fl : Nat}
    (hocc : occConsistent b)
    (hm : m = mvNew f t fl) (hf : f < 64) (ht : t < 64) (hfl : fl = 3)
    (hempty : b.occAll.testBit t = false)
    (hrft : (((1 <<< (if b.sideToMove = Color.White then (0 : Nat) else 56)) ||| (1 <<< (if b.sideToMove = Color.White then (3 : Nat) else 59)))).testBit t = false)
    (hMp : M.pieces = (updPieces (updPieces b.pieces PieceType.King b.sideToMove
          (b.pieces PieceType.King b.sideToMove ^^^ ((1 <<< f) ||| (1 <<< t)))) PieceType.Rook b.sideToMove
          ((updPieces b.pieces PieceType.King b.sideToMove
          (b.pieces PieceType.King b.sideToMove ^^^ ((1 <<< f) ||| (1 <<< t)))) PieceType.Rook b.sideToMove ^^^ ((1 <<< (if b.sideToMove = Color.White then (0 : Nat) else 56)) ||| (1 <<< (if b.sideToMove = Color.White then (3 : Nat) else 59))))))
    (hMo : M.occ = (updOcc (updOcc b.occ b.sideToMove (b.occ b.sideToMove ^^^ ((1 <<< f) ||| (1 <<< t)))) b.sideToMove ((updOcc b.occ b.sideToMove (b.occ b.sideToMove ^^^ ((1 <<< f) ||| (1 <<< t)))) b.sideToMove ^^^ ((1 <<< (if b.sideToMove = Color.White then (0 : Nat) else 56)) ||| (1 <<< (if b.sideToMove = Color.White then (3 : Nat) else 59))))))
    (hMa : M.occAll = ((b.occAll ^^^ ((1 <<< f) ||| (1 <<< t))) ^^^ ((1 <<< (if b.sideToMove = Color.White then (0 : Nat) else 56)) ||| (1 <<< (if b.sideToMove = Color.White then (3 : Nat) else 59)))))
    (hMs : M.sideToMove = b.sideToMove.opp)
    (hMf : M.fullmoveNumber = if b.sideToMove = Color.Black then
      b.fullmoveNumber + 1 else b.fullmoveNumber)
    (hMh : M.history = u0 :: b.history) :
    unmakeMove M m
      ⟨b.castlingRights, b.enPassant, b.halfmoveClock, none,
        b.zobristHash⟩ = b := by
  have hfrom : fromSq m = f := by rw [hm]; exact fromSq_mvNew hf
  have hto : toSq m = t := by rw [hm]; exact toSq_mvNew hf ht
  have hflag : flagOf m = fl := by
    rw [hm]; exact flagOf_mvNew (by omega) ht (by omega)
  have hip : isPromotion m = false := by
    rw [hm, isPromotion_mvNew (by omega) ht (by omega), hfl]
    decide
  have hc2 : (fl = KING_CASTLE_FLAG) = False := eq_false (by rw [hfl]; decide)
  have hc3 : (fl = QUEEN_CASTLE_FLAG) = True := eq_true (by rw [hfl]; decide)
  have hKClear : (b.pieces PieceType.King b.sideToMove).testBit t
      = false := occAll_clear_piece hocc hempty _ _
  have hbit : (((updPieces (updPieces b.pieces PieceType.King b.sideToMove
          (b.pieces PieceType.King b.sideToMove ^^^ ((1 <<< f) ||| (1 <<< t)))) PieceType.Rook b.sideToMove
          ((updPieces b.pieces PieceType.King b.sideToMove
          (b.pieces PieceType.King b.sideToMove ^^^ ((1 <<< f) ||| (1 <<< t)))) PieceType.Rook b.sideToMove ^^^ ((1 <<< (if b.sideToMove = Color.White then (0 : Nat) else 56)) ||| (1 <<< (if b.sideToMove = Color.White then (3 : Nat) else 59)))))) PieceType.King Color.White |||
      ((updPieces (updPieces b.pieces PieceType.King b.sideToMove
          (b.pieces PieceType.King b.sideToMove ^^^ ((1 <<< f) ||| (1 <<< t)))) PieceType.Rook b.sideToMove
          ((updPieces b.pieces PieceType.King b.sideToMove
          (b.pieces PieceType.King b.sideToMove ^^^ ((1 <<< f) ||| (1 <<< t)))) PieceType.Rook b.sideToMove ^^^ ((1 <<< (if b.sideToMove = Color.White then (0 : Nat) else 56)) ||| (1 <<< (if b.sideToMove = Color.White then (3 : Nat) else 59)))))) PieceType.King Color.Black).testBit t = true := by
    apply union_testBit_of_color (c := b.sideToMove)
    simp only [updPieces, eq_self_iff_true, and_self, if_true,
      eq_false (by decide : PieceType.King ≠ PieceType.Rook),
      eq_false (by decide : PieceType.Rook ≠ PieceType.King),
      true_and, and_true, false_and, and_false, if_false]
    rw [Nat.testBit_xor, hKClear]
    simp [Nat.testBit_lor, testBit_one_shiftLeft]
  have hothers : ∀ pt2, pt2 ≠ PieceType.King →
      (((updPieces (updPieces b.pieces PieceType.King b.sideToMove
          (b.pieces PieceType.King b.sideToMove ^^^ ((1 <<< f) ||| (1 <<< t)))) PieceType.Rook b.sideToMove
          ((updPieces b.pieces PieceType.King b.sideToMove
          (b.pieces PieceType.King b.sideToMove ^^^ ((1 <<< f) ||| (1 <<< t)))) PieceType.Rook b.sideToMove ^^^ ((1 <<< (if b.sideToMove = Color.White then (0 : Nat) else 56)) ||| (1 <<< (if b.sideToMove = Color.White then (3 : Nat) else 59)))))) pt2 Color.White |||
       ((updPieces (updPieces b.pieces PieceType.King b.sideToMove
          (b.pieces PieceType.King b.sideToMove ^^^ ((1 <<< f) ||| (1 <<< t)))) PieceType.Rook b.sideToMove
          ((updPieces b.pieces PieceType.King b.sideToMove
          (b.pieces PieceType.King b.sideToMove ^^^ ((1 <<< f) ||| (1 <<< t)))) PieceType.Rook b.sideToMove ^^^ ((1 <<< (if b.sideToMove = Color.White then (0 : Nat) else 56)) ||| (1 <<< (if b.sideToMove = Color.White then (3 : Nat) else 59)))))) pt2 Color.Black).testBit t = false := by
    intro pt2 hne
    have hcolor : ∀ c2, (((updPieces (updPieces b.pieces PieceType.King b.sideToMove
          (b.pieces PieceType.King b.sideToMove ^^^ ((1 <<< f) ||| (1 <<< t)))) PieceType.Rook b.sideToMove
          ((updPieces b.pieces PieceType.King b.sideToMove
          (b.pieces PieceType.King b.sideToMove ^^^ ((1 <<< f) ||| (1 <<< t)))) PieceType.Rook b.sideToMove ^^^ ((1 <<< (if b.sideToMove = Color.White then (0 : Nat) else 56)) ||| (1 <<< (if b.sideToMove = Color.White then (3 : Nat) else 59)))))) pt2 c2).testBit t = false := by
      intro c2
      simp only [updPieces]
      by_cases hc : pt2 = PieceType.Rook ∧ c2 = b.sideToMove
      · rw [if_pos hc, if_neg (fun hcon =>
          absurd hcon.1 (by decide))]
        rw [Nat.testBit_xor, hrft,
          occAll_clear_piece hocc hempty PieceType.Rook b.sideToMove]
        rfl
      · rw [if_neg hc, if_neg (fun hcon => hne hcon.1)]
        exact occAll_clear_piece hocc hempty pt2 c2
    rw [Nat.testBit_lor, hcolor Color.White, hcolor Color.Black]
    rfl
  unfold unmakeMove
  simp only [hfrom, hto, hflag, hip, hc2, hc3, Bool.false_eq_true,
    if_false, eq_self_iff_true, if_true, hMs, hMf, hMh, opp_opp]
  rw [hMp, hMo, hMa]
  rw [pieceTypeOn_of_pieces t _ rfl hbit hothers]
  simp only [Option.getD_some, movePiece]
  set r1 := (if b.sideToMove = Color.White then (0 : Nat) else 56) with hr1
  set r2 := (if b.sideToMove = Color.White then (3 : Nat) else 59) with hr2
  apply board_ext
  · dsimp only
    funext pt2 c2
    simp only [updPieces, eq_self_iff_true, and_self, if_true,
      eq_false (by decide : PieceType.King ≠ PieceType.Rook),
      eq_false (by decide : PieceType.Rook ≠ PieceType.King),
      true_and, and_true, false_and, and_false, if_false]
    split_ifs with w1 w2
    · rw [w1.1, w1.2, lor_swap_xor_cancel]
    · rw [w2.1, w2.2, lor_swap_xor_cancel]
    · rfl
  · dsimp only
    funext c2
    simp only [updOcc, eq_self_iff_true, if_true]
    split_ifs with g1
    · rw [g1, lor_swap_xor_cancel, lor_swap_xor_cancel]
    · rfl
  · dsimp only
    rw [lor_swap_xor_cancel, lor_swap_xor_cancel]
  · rfl
  · rfl
  · rfl
  · rfl
  · dsimp only
    cases b.sideToMove <;> simp
  · rfl
  · rfl

theorem restore_castle3 (K : ZKeys) (b : Board) {m f t fl : Nat}
    (hocc : occConsistent b)
    (hm : m = mvNew f t fl) (hf : f < 64) (ht : t < 64) (hfl : fl = 3)
    (hempty : b.occAll.testBit t = false)
    (hrft : (((1 <<< (if b.sideToMove = Color.White then (0 : Nat) else 56)) ||| (1 <<< (if b.sideToMove = Color.White then (3 : Nat) else 59)))).testBit t = false)
    (hmpf : pieceTypeOn b f = some PieceType.King) :
    RestoresC1 K b m := by
  obtain ⟨hp, ho, ha, hs, hfm, hh, hu⟩ :=
    makeMove_castle3_fields K b hm hf ht hfl hmpf
  unfold RestoresC1
  rw [hu]
  exact unmake_castle3 b (makeMove K b m).1 _ hocc hm hf ht hfl hempty
    hrft hp ho ha hs hfm hh

/-! ## Discharging the restoration hypotheses from the generators -/

theorem land_zero_bit {x y : Nat} (h : x &&& y = 0) {j : Nat}
    (hy : y.testBit j = true) : x.testBit j = false := by
  have hb := congrArg (fun z => z.testBit j) h
  simp only [Nat.testBit_land, hy, Bool.and_true, Nat.zero_testBit] at hb
  exact hb

theorem land_single_zero_bit {x t : Nat} (h : (1 <<< t) &&& x = 0) :
    x.testBit t = false := by
  have hb := congrArg (fun z => z.testBit t) h
  simpa [Nat.testBit_land, testBit_one_shiftLeft] using hb

theorem u64not_bit_false {x t : Nat} (ht : t < 64)
    (h : (u64not x).testBit t = true) : x.testBit t = false := by
  rw [testBit_u64not, decide_eq_true ht] at h
  cases hx : x.testBit t
  · rfl
  · rw [hx] at h; cases h

theorem occ_opp_clear {b : Board} (hocc : occConsistent b)
    (hD : disjointPieces b) {c : Color} {t : Nat}
    (h : (b.occ c.opp).testBit t = true) : (b.occ c).testBit t = false := by
  cases hx : (b.occ c).testBit t
  · rfl
  · obtain ⟨pt, hpt⟩ := occ_exists_piece hocc hx
    obtain ⟨pt2, hpt2⟩ := occ_exists_piece hocc h
    have hz := hD pt c pt2 c.opp (fun hcon => ne_opp c hcon.2)
    rw [land_zero_bit hz hpt2] at hpt
    cases hpt

theorem occAll_clear_of_colors {b : Board} (hocc : occConsistent b)
    {c : Color} {t : Nat}
    (h1 : (b.occ c).testBit t = false)
    (h2 : (b.occ c.opp).testBit t = false) :
    b.occAll.testBit t = false := by
  rw [hocc.2, Nat.testBit_lor]
  cases c
  · simp only [Color.opp] at h2
    rw [h1, h2]
    rfl
  · simp only [Color.opp] at h2
    rw [h1, h2]
    rfl

theorem pieceTypeOn_of_bit {b : Board} (hD : disjointPieces b)
    {pt : PieceType} {c : Color} {sq : Nat}
    (h : (b.pieces pt c).testBit sq = true) :
    pieceTypeOn b sq = some pt := by
  apply pieceTypeOn_eq_some
  · exact union_testBit_of_color (c := c) h
  · intro pt2 hne
    have hcol : ∀ c2, (b.pieces pt2 c2).testBit sq = false := fun c2 =>
      land_zero_bit (hD pt2 c2 pt c (fun hcon => hne hcon.1)) h
    rw [Nat.testBit_lor, hcol Color.White, hcol Color.Black]
    rfl

/-- C1: on every well-formed board (consistent occupancy caches, disjoint
piece sets, both kings present, en-passant and castling bookkeeping
invariants), `make_move` followed by `unmake_move` with the returned
`UndoInfo` restores every board field exactly, for every move produced by
`generate_pseudo_legal_moves`. -/
theorem c1_make_unmake (K : ZKeys) (b : Board) (m : Nat) (hWF : WF b)
    (hm : m ∈ generatePseudoLegalMoves b) : RestoresC1 K b m := by
  obtain ⟨hbnd, hocc, hD, hkings, hep, hcst⟩ := hWF
  simp only [generatePseudoLegalMoves, List.mem_append] at hm
  rcases hm with ((hm | hm) | hm) | hm
  · -- pawn moves
    simp only [generatePawnMoves, List.mem_flatMap] at hm
    obtain ⟨f, hf, hm⟩ := hm
    have hf64 := (mem_bits.mp hf).1
    have hfb := (mem_bits.mp hf).2
    have hmpf : pieceTypeOn b f = some PieceType.Pawn :=
      pieceTypeOn_of_bit hD hfb
    simp only [pawnMovesFrom, List.mem_append] at hm
    rcases hm with (hm | hm) | hm
    · rcases pawnPushMoves_elim hm with
        ⟨t, hmv, _, ht64, hclear⟩ | ⟨t, fl, hmv, hfl, _, ht64, hclear⟩ |
        ⟨t, hmv, _, ht64, hclear⟩
      · exact restore_quiet K b hocc hmv hf64 ht64 (Or.inl rfl)
          (land_single_zero_bit hclear)
      · exact restore_promo K b hbnd hocc hmv hf64 ht64 hfl
          (land_single_zero_bit hclear) hmpf
      · exact restore_quiet K b hocc hmv hf64 ht64 (Or.inr rfl)
          (land_single_zero_bit hclear)
    · obtain ⟨t, fl, hmv, hfl, ht64, htb⟩ := pawnCapMoves_elim hm
      simp only [Nat.testBit_land, Bool.and_eq_true] at htb
      have hthem := htb.2
      have hust := occ_opp_clear hocc hD hthem
      rcases hfl with hfl | hfl
      · exact restore_capture K b hbnd hocc hD hmv hf64 ht64 hfl hthem hust
      · exact restore_promocap K b hbnd hocc hD hmv hf64 ht64 hfl hthem
          hust hmpf
    · obtain ⟨ep, hmv, hepeq, _⟩ := pawnEpMoves_elim hm
      simp only [epOkB, hepeq] at hep
      cases hus : b.sideToMove with
      | White =>
        rw [hus, if_pos rfl] at hep
        simp only [Bool.and_eq_true, Bool.not_eq_true',
          decide_eq_true_eq] at hep
        obtain ⟨⟨hrange, hpb⟩, hocca⟩ := hep
        refine restore_ep K b hbnd hocc hmv hf64 (by omega) rfl hocca
          ?_ ?_ hmpf
        · rw [hus, if_pos rfl]; omega
        · rw [hus, if_pos rfl]
          exact hpb
      | Black =>
        rw [hus, if_neg (by decide : ¬(Color.Black = Color.White))] at hep
        simp only [Bool.and_eq_true, Bool.not_eq_true',
          decide_eq_true_eq] at hep
        obtain ⟨⟨hrange, hpb⟩, hocca⟩ := hep
        refine restore_ep K b hbnd hocc hmv hf64 (by omega) rfl hocca
          ?_ ?_ hmpf
        · rw [hus, if_neg (by decide : ¬(Color.Black = Color.White))]
          omega
        · rw [hus, if_neg (by decide : ¬(Color.Black = Color.White))]
          exact hpb
  · -- knight moves
    obtain ⟨f, t, fl, hmv, hf64, ht64, hfl, hkb, hq, hc⟩ :=
      knightMoves_elim hm
    rcases hfl with hfl | hfl
    · have hqb := hq hfl
      simp only [Nat.testBit_land, Bool.and_eq_true] at hqb
      exact restore_quiet K b hocc hmv hf64 ht64 (Or.inl hfl)
        (occAll_clear_of_colors hocc (u64not_bit_false ht64 hqb.1.2)
          (u64not_bit_false ht64 hqb.2))
    · have hcb := hc hfl
      simp only [Nat.testBit_land, Bool.and_eq_true] at hcb
      exact restore_capture K b hbnd hocc hD hmv hf64 ht64 hfl hcb.2
        (occ_opp_clear hocc hD hcb.2)
  · -- king moves
    rcases kingMoves_elim hm with ⟨t, hmv, ht64, hatk⟩ | ⟨hnchk, hcases⟩
    · obtain ⟨hk64, hkbit⟩ :=
        lsb_spec (hkings b.sideToMove) (hbnd.1 PieceType.King b.sideToMove)
      simp only [Nat.testBit_land, Bool.and_eq_true] at hatk
      by_cases hcap : (1 <<< t) &&& b.occ b.sideToMove.opp ≠ 0
      · rw [if_pos hcap] at hmv
        have hthem := land_one_shiftLeft_ne.mp hcap
        exact restore_capture K b hbnd hocc hD hmv hk64 ht64 rfl hthem
          (occ_opp_clear hocc hD hthem)
      · rw [if_neg hcap] at hmv
        have h2 : (b.occ b.sideToMove.opp).testBit t = false :=
          land_single_zero_bit (not_not.mp hcap)
        exact restore_quiet K b hocc hmv hk64 ht64 (Or.inl rfl)
          (occAll_clear_of_colors hocc (u64not_bit_false ht64 hatk.2) h2)
    · simp only [castleOkB, Bool.and_eq_true, Bool.or_eq_true,
        decide_eq_true_eq] at hcst
      obtain ⟨⟨⟨hcWK, hcWQ⟩, hcBK⟩, hcBQ⟩ := hcst
      rcases hcases with ⟨hus, hmv, hr, hmask, _, _⟩ |
        ⟨hus, hmv, hr, hmask, _, _⟩ | ⟨hus, hmv, hr, hmask, _, _⟩ |
        ⟨hus, hmv, hr, hmask, _, _⟩
      · -- White kingside
        have hkb : (b.pieces PieceType.King Color.White).testBit 4 = true := by
          rcases hcWK with h | h
          · exact absurd h hr
          · exact h
        refine restore_castle2 K b hocc hmv (by decide) (by decide) rfl
          (land_zero_bit hmask (by decide)) ?_ (pieceTypeOn_of_bit hD hkb)
        rw [hus]
        decide
      · -- White queenside
        have hkb : (b.pieces PieceType.King Color.White).testBit 4 = true := by
          rcases hcWQ with h | h
          · exact absurd h hr
          · exact h
        refine restore_castle3 K b hocc hmv (by decide) (by decide) rfl
          (land_zero_bit hmask (by decide)) ?_ (pieceTypeOn_of_bit hD hkb)
        rw [hus]
        decide
      · -- Black kingside
        have hkb : (b.pieces PieceType.King Color.Black).testBit 60
            = true := by
          rcases hcBK with h | h
          · exact absurd h hr
          · exact h
        refine restore_castle2 K b hocc hmv (by decide) (by decide) rfl
          (land_zero_bit hmask (by decide)) ?_ (pieceTypeOn_of_bit hD hkb)
        rw [hus]
        decide
      · -- Black queenside
        have hkb : (b.pieces PieceType.King Color.Black).testBit 60
            = true := by
          rcases hcBQ with h | h
          · exact absurd h hr
          · exact h
        refine restore_castle3 K b hocc hmv (by decide) (by decide) rfl
          (land_zero_bit hmask (by decide)) ?_ (pieceTypeOn_of_bit hD hkb)
        rw [hus]
        decide
  · -- sliding moves
    obtain ⟨f, t, fl, hmv, hf64, ht64, hfl, _, hq, hc⟩ :=
      slidingMoves_elim hm
    rcases hfl with hfl | hfl
    · obtain ⟨h1n, h2n⟩ := hq hfl
      exact restore_quiet K b hocc hmv hf64 ht64 (Or.inl hfl)
        (occAll_clear_of_colors hocc (u64not_bit_false ht64 h1n)
          (u64not_bit_false ht64 h2n))
    · exact restore_capture K b hbnd hocc hD hmv hf64 ht64 hfl (hc hfl)
        (occ_opp_clear hocc hD (hc hfl))

theorem c1_make_unmake_witness :
    RestoresC1 K1 bKP (mvNew 8 16 QUIET_MOVE_FLAG) :=
  c1_make_unmake K1 bKP (mvNew 8 16 QUIET_MOVE_FLAG)
    (by decide) (by decide)
